import Mathlib

/-!
# cri-loadgen: batch pipeline and latency aggregation

Shallow embedding of `cmd/cri-loadgen/batch.go`, `main.go` and `idgen.go`.

* Go slices are lists; a slot write `xs[i] = v` is `List.set`, and an index that
  Go would reject with a run-time panic yields `Except.error (GoPanic ...)`.
* The runtime client (`runtime.go`) is a parameter: a state machine `Runtime σ`
  whose seven operations may answer anything, depending on their arguments and on
  the runtime's own state `σ`.
* `time.Now()` / `time.Since` are part of the environment: every runtime answer
  carries the latency that the caller measures around the call.
* A latency sample is `AsLatency d = float64(d.Microseconds())`, the float image of
  an integral microsecond count; samples are embedded as integers, whose order is
  the order of those floats.
* Text written to standard output (`printf`) is not part of the state.
* `Exec.trace` is a ghost log of the runtime calls made, in call order; no
  decision of the program reads it.
* One batch is followed from `Run` to the end of its goroutine. Batches only share
  the runtime client and the id generator; calls of other batches are not
  interleaved here.
* A loop bound (`b.PodCount`, `b.CtrCount`, `b.Rounds`, `len(b.pods)`) is read once
  at loop entry: no loop body writes the field that bounds it.
-/

namespace CriLoadgen

/-! ## Data model -/

/-- Latency sample: `type Latency = float64`, holding a microsecond count. -/
abbrev Latency := Int

/-- The seven operation kinds, named after the fields of `RuntimeLatency`. -/
inductive Op where
  | RunPodSandbox
  | StopPodSandbox
  | RemovePodSandbox
  | CreateContainer
  | StartContainer
  | StopContainer
  | RemoveContainer
deriving DecidableEq, Repr

/-- Go struct `RuntimeLatency`: seven sample sequences, one per kind. -/
structure RuntimeLatency where
  RunPodSandbox : List Latency := []
  StopPodSandbox : List Latency := []
  RemovePodSandbox : List Latency := []
  CreateContainer : List Latency := []
  StartContainer : List Latency := []
  StopContainer : List Latency := []
  RemoveContainer : List Latency := []
deriving DecidableEq, Repr

/-- Go struct `RetryCount`: only pod creation is counted. The counter starts at 0
and grows by one per failed attempt; 64-bit wrap-around is out of reach and the
counter is a natural number here. -/
structure RetryCount where
  RunPodSandbox : Nat := 0
deriving DecidableEq, Repr

/-- An error stored in `Batch.errors`: the value built by
`fmt.Errorf("failed to <verb> ... #%d[:%d]: %w", i[, j], err)`. The format of each
phase fixes the kind, the indices printed and the wrapped cause; nothing else is
stored. `BatchError.message` renders the text. -/
structure BatchError where
  op : Op
  pod : Nat
  ctr : Option Nat
  cause : String
deriving DecidableEq, Repr

/-- The words after "failed to" in the error format of each phase. -/
def Op.verb : Op → String
  | .RunPodSandbox => "create pod"
  | .StopPodSandbox => "stop pod"
  | .RemovePodSandbox => "remove pod"
  | .CreateContainer => "create container"
  | .StartContainer => "start container"
  | .StopContainer => "stop container"
  | .RemoveContainer => "remove container"

/-- Text of a stored error, as `fmt.Errorf` formats it. -/
def BatchError.message (x : BatchError) : String :=
  match x.ctr with
  | none => "failed to " ++ x.op.verb ++ " #" ++ toString x.pod ++ ": " ++ x.cause
  | some j =>
    "failed to " ++ x.op.verb ++ " #" ++ toString x.pod ++ ":" ++ toString j ++ ": " ++ x.cause

/-- Go struct `Batch`. The fields `r` and `options` are not state of the model:
the runtime is a parameter of every phase and the option set is a constant. -/
structure Batch where
  BatchName : String := ""
  Namespace : String := ""
  PodCount : Int := 0
  CtrCount : Int := 0
  Rounds : Int := 0
  Verbose : Bool := false
  pods : List String := []
  ctrs : List (List String) := []
  latency : RuntimeLatency := {}
  retries : RetryCount := {}
  errors : List BatchError := []
deriving DecidableEq, Repr

/-- Run-time panics of the Go code that the embedding keeps explicit. -/
inductive GoPanic where
  | indexOutOfRange (index len : Nat)
  | makesliceLen
  | stat (msg : String)
deriving DecidableEq, Repr

deriving instance DecidableEq for Except

/-- Largest value of a Go `int` on the 64-bit platforms the tool is built for
(`math.MaxInt`). -/
def MaxInt : Int := 9223372036854775807

/-- Smallest value of a Go `int` on 64-bit platforms (`math.MinInt`). -/
def MinInt : Int := -9223372036854775808

/-- Result of Go `int` arithmetic on 64-bit platforms: the mathematical result
reduced modulo `2^64` into the range `MinInt .. MaxInt` (two's complement
wrap-around). -/
def wrapInt (x : Int) : Int :=
  (x + 9223372036854775808) % 18446744073709551616 - 9223372036854775808

/-- Go `strconv.Itoa`: the decimal digits of the value, after a "-" when it is
negative. -/
def Itoa (i : Int) : String := toString i

/-- Go struct `idgen` (without its lock): three `int` counters, all 0 in
`ids = &idgen{}`. -/
structure idgen where
  uid : Int := 0
  pod : Int := 0
  ctr : Int := 0
deriving DecidableEq, Repr

/-- Method `idgen.GenUID`: returns "uid-" with `strconv.Itoa(g.uid)`, then the
deferred `g.uid += 1` runs, in `int` arithmetic. -/
def idgen.GenUID (g : idgen) : String × idgen :=
  ("uid-" ++ Itoa g.uid, { g with uid := wrapInt (g.uid + 1) })

/-- Method `idgen.GenPodName`: returns "pod-" with `strconv.Itoa(g.pod)`, then the
deferred `g.pod += 1` runs, in `int` arithmetic. -/
def idgen.GenPodName (g : idgen) : String × idgen :=
  ("pod-" ++ Itoa g.pod, { g with pod := wrapInt (g.pod + 1) })

/-- Method `idgen.GenCtrName`: returns "ctr-" with `strconv.Itoa(g.ctr)`, then the
deferred `g.ctr += 1` runs, in `int` arithmetic. -/
def idgen.GenCtrName (g : idgen) : String × idgen :=
  ("ctr-" ++ Itoa g.ctr, { g with ctr := wrapInt (g.ctr + 1) })

/-! ## The runtime client, a parameter -/

/-- Answer of `CreatePod` / `CreateContainer`: the handle and error returned, and
the latency measured around the call. Nothing ties the handle to the error. -/
structure Reply where
  handle : String
  err : Option String
  elapsed : Latency
deriving DecidableEq, Repr

/-- Answer of the five operations that return only an error. -/
structure Status where
  err : Option String
  elapsed : Latency
deriving DecidableEq, Repr

/-- The consumed runtime interface. Each operation reads its arguments and the
runtime state, and returns its answer and the next runtime state. -/
structure Runtime (σ : Type) where
  CreatePod : String → String → String → σ → Reply × σ
  CreateContainer : String → String → String → σ → Reply × σ
  StartContainer : String → σ → Status × σ
  StopContainer : String → σ → Status × σ
  RemoveContainer : String → σ → Status × σ
  StopPod : String → σ → Status × σ
  RemovePod : String → σ → Status × σ

/-- One runtime call as logged in the ghost trace: kind, loop indices of the
iteration that made it, and whether it returned a nil error. -/
structure Call where
  op : Op
  pod : Nat
  ctr : Option Nat
  ok : Bool
deriving DecidableEq, Repr

/-- Everything a running batch touches: the batch, the runtime state, the
process-wide id generator, and the ghost call trace. -/
structure Exec (σ : Type) where
  b : Batch
  rt : σ
  ids : idgen := {}
  trace : List Call := []

/-- Sequence of one kind. -/
def RuntimeLatency.get (l : RuntimeLatency) : Op → List Latency
  | .RunPodSandbox => l.RunPodSandbox
  | .StopPodSandbox => l.StopPodSandbox
  | .RemovePodSandbox => l.RemovePodSandbox
  | .CreateContainer => l.CreateContainer
  | .StartContainer => l.StartContainer
  | .StopContainer => l.StopContainer
  | .RemoveContainer => l.RemoveContainer

/-- The statement `b.latency.<Kind> = append(b.latency.<Kind>, latency)`. -/
def RuntimeLatency.record (l : RuntimeLatency) (op : Op) (x : Latency) : RuntimeLatency :=
  match op with
  | .RunPodSandbox => { l with RunPodSandbox := l.RunPodSandbox ++ [x] }
  | .StopPodSandbox => { l with StopPodSandbox := l.StopPodSandbox ++ [x] }
  | .RemovePodSandbox => { l with RemovePodSandbox := l.RemovePodSandbox ++ [x] }
  | .CreateContainer => { l with CreateContainer := l.CreateContainer ++ [x] }
  | .StartContainer => { l with StartContainer := l.StartContainer ++ [x] }
  | .StopContainer => { l with StopContainer := l.StopContainer ++ [x] }
  | .RemoveContainer => { l with RemoveContainer := l.RemoveContainer ++ [x] }

/-! ## Loops -/

/-- The loop `for i := lo; i < lo + n; i++` over `body`, stopping at the first
panic. -/
def forRange {S : Type} (body : Nat → S → Except GoPanic S) : Nat → Nat → S → Except GoPanic S
  | _, 0, s => .ok s
  | i, n + 1, s =>
    match body i s with
    | .ok s' => forRange body (i + 1) n s'
    | .error p => .error p

/-- Constant `maxRetries`. -/
def maxRetries : Nat := 3

/-! ## Phase 1: createPods -/

/-- The function-level variables `pod` and `err` of `createPods`. -/
structure PodVars where
  pod : String := ""
  err : Option String := none
deriving DecidableEq, Repr

/-- The retry loop `for retry := 0; retry < maxRetries; retry++` of `createPods`,
with `n` iterations left: call `CreatePod`; on a nil error append the sample and
break, otherwise count a retry and go on. -/
def createPodAttempts {σ : Type} (rt : Runtime σ) (name uid : String) (i : Nat) :
    Nat → PodVars → Exec σ → PodVars × Exec σ
  | 0, v, e => (v, e)
  | n + 1, _, e =>
    let r := rt.CreatePod e.b.Namespace name uid e.rt
    let e1 : Exec σ :=
      { e with rt := r.2, trace := e.trace ++ [⟨.RunPodSandbox, i, none, r.1.err.isNone⟩] }
    match r.1.err with
    | none =>
      (⟨r.1.handle, none⟩, { e1 with b.latency := e1.b.latency.record .RunPodSandbox r.1.elapsed })
    | some m =>
      createPodAttempts rt name uid i n ⟨r.1.handle, some m⟩
        { e1 with b.retries.RunPodSandbox := e1.b.retries.RunPodSandbox + 1 }

/-- Body of the loop over pod indices in `createPods`. -/
def createPodsBody {σ : Type} (rt : Runtime σ) (i : Nat) (s : PodVars × Exec σ) :
    Except GoPanic (PodVars × Exec σ) :=
  let name := s.2.b.BatchName ++ "-" ++ toString i
  let g := s.2.ids.GenUID
  let a := createPodAttempts rt name g.1 i maxRetries s.1 { s.2 with ids := g.2 }
  if i < a.2.b.pods.length then
    let e3 : Exec σ := { a.2 with b.pods := a.2.b.pods.set i a.1.pod }
    match a.1.err with
    | some m =>
      let x : BatchError := ⟨.RunPodSandbox, i, none, m⟩
      .ok (⟨a.1.pod, some x.message⟩, { e3 with b.errors := e3.b.errors ++ [x] })
    | none => .ok (a.1, e3)
  else .error (.indexOutOfRange i a.2.b.pods.length)

/-- Method `Batch.createPods`: the loop over `i < b.PodCount`, with the variables
`pod` and `err` declared before it. -/
def Batch.createPods {σ : Type} (rt : Runtime σ) (e : Exec σ) : Except GoPanic (Exec σ) :=
  match forRange (createPodsBody rt) 0 e.b.PodCount.toNat ({}, e) with
  | .ok s => .ok s.2
  | .error p => .error p

/-! ## Phase 2: createContainers -/

/-- Body of the inner loop of `createContainers`, for pod index `i` holding `pod`. -/
def createContainersBody {σ : Type} (rt : Runtime σ) (i : Nat) (pod : String) (j : Nat)
    (e : Exec σ) : Except GoPanic (Exec σ) :=
  let name := "ctr-" ++ toString j
  let g := e.ids.GenUID
  let r := rt.CreateContainer pod name g.1 e.rt
  let e1 : Exec σ :=
    { e with ids := g.2, rt := r.2,
             trace := e.trace ++ [⟨.CreateContainer, i, some j, r.1.err.isNone⟩] }
  match e1.b.ctrs[i]? with
  | none => .error (.indexOutOfRange i e1.b.ctrs.length)
  | some row =>
    if j < row.length then
      let e2 : Exec σ := { e1 with b.ctrs := e1.b.ctrs.set i (row.set j r.1.handle) }
      match r.1.err with
      | some m => .ok { e2 with b.errors := e2.b.errors ++ [⟨.CreateContainer, i, some j, m⟩] }
      | none => .ok { e2 with b.latency := e2.b.latency.record .CreateContainer r.1.elapsed }
    else .error (.indexOutOfRange j row.length)

/-- One iteration of `for i, pod := range b.pods` in `createContainers`: no test of
`pod`, the inner loop runs `CtrCount` times. -/
def createContainersPod {σ : Type} (rt : Runtime σ) (i : Nat) (e : Exec σ) :
    Except GoPanic (Exec σ) :=
  match e.b.pods[i]? with
  | none => .error (.indexOutOfRange i e.b.pods.length)
  | some pod => forRange (createContainersBody rt i pod) 0 e.b.CtrCount.toNat e

/-- Method `Batch.createContainers`: the loop `for i, pod := range b.pods`. -/
def Batch.createContainers {σ : Type} (rt : Runtime σ) (e : Exec σ) : Except GoPanic (Exec σ) :=
  forRange (createContainersPod rt) 0 e.b.pods.length e

/-! ## Phases 3 to 5: startContainers, stopContainers, removeContainers -/

/-- Body of `for j, ctr := range b.ctrs[i]`, the same in the three phases up to the
runtime operation `call`, the kind `op` and the value `slot ctr` written back to
`b.ctrs[i][j]` after the call (`ctr` itself in start and stop, "" in remove). -/
def containerStep {σ : Type} (op : Op) (call : String → σ → Status × σ)
    (slot : String → String) (i j : Nat) (e : Exec σ) : Except GoPanic (Exec σ) :=
  match e.b.ctrs[i]? with
  | none => .error (.indexOutOfRange i e.b.ctrs.length)
  | some row =>
    match row[j]? with
    | none => .error (.indexOutOfRange j row.length)
    | some ctr =>
      if ctr = "" then .ok e
      else
        let r := call ctr e.rt
        let e1 : Exec σ :=
          { e with rt := r.2, trace := e.trace ++ [⟨op, i, some j, r.1.err.isNone⟩],
                   b.ctrs := e.b.ctrs.set i (row.set j (slot ctr)) }
        match r.1.err with
        | some m => .ok { e1 with b.errors := e1.b.errors ++ [⟨op, i, some j, m⟩] }
        | none => .ok { e1 with b.latency := e1.b.latency.record op r.1.elapsed }

/-- One iteration of `for i, pod := range b.pods` in the three phases: an empty pod
slot is skipped, otherwise the row `b.ctrs[i]` is scanned. -/
def containerRow {σ : Type} (op : Op) (call : String → σ → Status × σ)
    (slot : String → String) (i : Nat) (e : Exec σ) : Except GoPanic (Exec σ) :=
  match e.b.pods[i]? with
  | none => .error (.indexOutOfRange i e.b.pods.length)
  | some pod =>
    if pod = "" then .ok e
    else
      match e.b.ctrs[i]? with
      | none => .error (.indexOutOfRange i e.b.ctrs.length)
      | some row => forRange (containerStep op call slot i) 0 row.length e

/-- Method `Batch.startContainers`. -/
def Batch.startContainers {σ : Type} (rt : Runtime σ) (e : Exec σ) : Except GoPanic (Exec σ) :=
  forRange (containerRow .StartContainer rt.StartContainer id) 0 e.b.pods.length e

/-- Method `Batch.stopContainers`. -/
def Batch.stopContainers {σ : Type} (rt : Runtime σ) (e : Exec σ) : Except GoPanic (Exec σ) :=
  forRange (containerRow .StopContainer rt.StopContainer id) 0 e.b.pods.length e

/-- Method `Batch.removeContainers`. -/
def Batch.removeContainers {σ : Type} (rt : Runtime σ) (e : Exec σ) : Except GoPanic (Exec σ) :=
  forRange (containerRow .RemoveContainer rt.RemoveContainer (fun _ => "")) 0 e.b.pods.length e

/-! ## Phases 6 and 7: stopPods, removePods -/

/-- Body of `for i, pod := range b.pods` in `stopPods` (`clear = false`: no slot is
written) and in `removePods` (`clear = true`: `b.pods[i] = ""` after the call). -/
def podStep {σ : Type} (op : Op) (call : String → σ → Status × σ) (clear : Bool) (i : Nat)
    (e : Exec σ) : Except GoPanic (Exec σ) :=
  match e.b.pods[i]? with
  | none => .error (.indexOutOfRange i e.b.pods.length)
  | some pod =>
    if pod = "" then .ok e
    else
      let r := call pod e.rt
      let e1 : Exec σ :=
        { e with rt := r.2, trace := e.trace ++ [⟨op, i, none, r.1.err.isNone⟩],
                 b.pods := if clear then e.b.pods.set i "" else e.b.pods }
      match r.1.err with
      | some m => .ok { e1 with b.errors := e1.b.errors ++ [⟨op, i, none, m⟩] }
      | none => .ok { e1 with b.latency := e1.b.latency.record op r.1.elapsed }

/-- Method `Batch.stopPods`. -/
def Batch.stopPods {σ : Type} (rt : Runtime σ) (e : Exec σ) : Except GoPanic (Exec σ) :=
  forRange (podStep .StopPodSandbox rt.StopPod false) 0 e.b.pods.length e

/-- Method `Batch.removePods`. -/
def Batch.removePods {σ : Type} (rt : Runtime σ) (e : Exec σ) : Except GoPanic (Exec σ) :=
  forRange (podStep .RemovePodSandbox rt.RemovePod true) 0 e.b.pods.length e

/-! ## Batch.Run -/

/-- The six phases that follow `createPods` in a round, in source order. -/
def Batch.afterCreatePods {σ : Type} (rt : Runtime σ) (e : Exec σ) : Except GoPanic (Exec σ) :=
  Batch.createContainers rt e >>= Batch.startContainers rt >>= Batch.stopContainers rt
    >>= Batch.removeContainers rt >>= Batch.stopPods rt >>= Batch.removePods rt

/-- One round: body of the loop in the goroutine of `Run`. The round number is
only printed. -/
def Batch.round {σ : Type} (rt : Runtime σ) (e : Exec σ) : Except GoPanic (Exec σ) :=
  Batch.createPods rt e >>= Batch.afterCreatePods rt

/-- The goroutine started by `Run`, run to completion:
`for i := 0; i < b.Rounds; i++ { ... }`. -/
def Batch.rounds {σ : Type} (rt : Runtime σ) (e : Exec σ) : Except GoPanic (Exec σ) :=
  forRange (fun _ s => Batch.round rt s) 0 e.b.Rounds.toNat e

/-- The configuration step of `Run`: reset of the error list and the four defaults. -/
def Batch.configure (b : Batch) : Batch :=
  let b1 : Batch := { b with errors := [] }
  let b2 : Batch := if b1.Namespace = "" then { b1 with Namespace := "test" } else b1
  let b3 : Batch := if b2.PodCount = 0 then { b2 with PodCount := 1 } else b2
  let b4 : Batch := if b3.CtrCount = 0 then { b3 with CtrCount := 1 } else b3
  if b4.Rounds = 0 then { b4 with Rounds := 10 } else b4

/-- The Go expression `make([]string, n, n)`: a negative length panics. Memory is
taken to be unbounded: the second condition on which `make` gives up, a length
whose allocation is larger than the address space of the platform, is not
represented, so no statement below infers from this definition that an allocation
of a given non-negative length succeeds in the Go program. -/
def makeStrings (n : Int) : Except GoPanic (List String) :=
  if n < 0 then .error .makesliceLen else .ok (List.replicate n.toNat "")

/-- The statement `b.ctrs = append(b.ctrs, make([]string, b.CtrCount, b.CtrCount))`. -/
def appendRow (b : Batch) : Except GoPanic Batch :=
  match makeStrings b.CtrCount with
  | .ok row => .ok { b with ctrs := b.ctrs ++ [row] }
  | .error p => .error p

/-- The allocation step of `Run`: `b.pods` is replaced, and the nested loops over
`i < PodCount` and `j < CtrCount` append one row to `b.ctrs` per pair `(i, j)`. -/
def Batch.allocate (b : Batch) : Except GoPanic Batch :=
  match makeStrings b.PodCount with
  | .error p => .error p
  | .ok pods =>
    forRange (fun _ b1 => forRange (fun _ b2 => appendRow b2) 0 b1.CtrCount.toNat b1)
      0 b.PodCount.toNat { b with pods := pods }

/-- What `Run` does before it starts the goroutine. -/
def Batch.prepare {σ : Type} (e : Exec σ) : Except GoPanic (Exec σ) :=
  match Batch.allocate (Batch.configure e.b) with
  | .ok b => .ok { e with b := b }
  | .error p => .error p

/-- Method `Batch.Run` followed to the end of its goroutine, that is, the state main
observes after `wg.Wait()`. -/
def Batch.Run {σ : Type} (rt : Runtime σ) (e : Exec σ) : Except GoPanic (Exec σ) :=
  Batch.prepare e >>= Batch.rounds rt

/-! ## RuntimeLatency: Add, Sort, Print -/

/-- Method `RuntimeLatency.Add`: the new value of the receiver `l`; `o` is only read. -/
def RuntimeLatency.Add (l o : RuntimeLatency) : RuntimeLatency :=
  { RunPodSandbox := l.RunPodSandbox ++ o.RunPodSandbox
    StopPodSandbox := l.StopPodSandbox ++ o.StopPodSandbox
    RemovePodSandbox := l.RemovePodSandbox ++ o.RemovePodSandbox
    CreateContainer := l.CreateContainer ++ o.CreateContainer
    StartContainer := l.StartContainer ++ o.StartContainer
    StopContainer := l.StopContainer ++ o.StopContainer
    RemoveContainer := l.RemoveContainer ++ o.RemoveContainer }

/-- Go standard library `slices.Sort` on one sequence, embedded by its contract
(ascending order). On a linear order the sorted arrangement of a sequence is
unique, so the algorithm used does not show in the result. -/
def slicesSort (x : List Latency) : List Latency :=
  x.insertionSort (fun a b => a ≤ b)

/-- Method `RuntimeLatency.Sort`: `slices.Sort` on each of the seven fields. -/
def RuntimeLatency.Sort (l : RuntimeLatency) : RuntimeLatency :=
  { RunPodSandbox := slicesSort l.RunPodSandbox
    StopPodSandbox := slicesSort l.StopPodSandbox
    RemovePodSandbox := slicesSort l.RemovePodSandbox
    CreateContainer := slicesSort l.CreateContainer
    StartContainer := slicesSort l.StartContainer
    StopContainer := slicesSort l.StopContainer
    RemoveContainer := slicesSort l.RemoveContainer }

/-- The merge loop of `main`: `latency := &RuntimeLatency{}` and then
`latency.Add(&b.latency)` for each batch in order. -/
def mergeLatencies (batches : List Batch) : RuntimeLatency :=
  batches.foldl (fun l b => l.Add b.latency) {}

/-- Library gonum `stat.empiricalQuantile` with nil weights: the loop over `x`
with the running `cumsum`, returning the first sample at which
`cumsum >= fidx`. -/
def empiricalQuantile (fidx : ℚ) : List Latency → ℚ → Except GoPanic Latency
  | [], _ => .error (.stat "impossible")
  | v :: rest, cumsum =>
    if fidx ≤ cumsum + 1 then .ok v else empiricalQuantile fidx rest (cumsum + 1)

/-- Library gonum `stat.Quantile(p, stat.Empirical, x, nil)`, the call made by
`Print`: three guards that panic, then the empirical quantile at
`fidx = p * len(x)`. The level and the running sum are exact rationals; the
products of the levels and lengths evaluated below are exact in float64 too. -/
def Quantile (p : ℚ) (x : List Latency) : Except GoPanic Latency :=
  if ¬ (0 ≤ p ∧ p ≤ 1) then .error (.stat "stat: percentile out of bounds")
  else if x.length = 0 then .error (.stat "stat: zero length slice")
  else if ¬ x.Sorted (fun a b => a ≤ b) then .error (.stat "x data are not sorted")
  else empiricalQuantile (p * x.length) x 0

/-- The quantile as the specification words it: the value at position
`q * (n - 1)` of the sorted samples, interpolating linearly between the two
neighbouring samples when that position is fractional. -/
def linearInterpolatedQuantile (q : ℚ) (x : List Latency) : Option ℚ :=
  let pos : ℚ := q * ((x.length : ℚ) - 1)
  let lo : Nat := ⌊pos⌋.toNat
  match x[lo]?, x[lo + 1]? with
  | some a, some c => some ((a : ℚ) + (pos - lo) * ((c : ℚ) - a))
  | some a, none => some (a : ℚ)
  | none, _ => none

/-- The values `Print` computes for one kind. Mean and standard deviation
(`stat.MeanStdDev`) are floating-point outputs that never panic and feed nothing
else; they are left out. -/
structure Summary where
  min : Latency
  max : Latency
  p25 : Latency
  p50 : Latency
  p75 : Latency
  p95 : Latency
deriving DecidableEq, Repr

/-- One block of `Print`: `x[0]` and `x[len(x)-1]` are read first, without any
test of the length, then the four quantiles are computed. -/
def summarize (x : List Latency) : Except GoPanic Summary :=
  match x[0]? with
  | none => .error (.indexOutOfRange 0 x.length)
  | some lo =>
    match x[x.length - 1]? with
    | none => .error (.indexOutOfRange (x.length - 1) x.length)
    | some hi => do
      let p25 ← Quantile (25 / 100) x
      let p50 ← Quantile (50 / 100) x
      let p75 ← Quantile (75 / 100) x
      let p95 ← Quantile (95 / 100) x
      pure ⟨lo, hi, p25, p50, p75, p95⟩

/-- Method `RuntimeLatency.Print`: the seven blocks in source order; the result is the
list of values printed, or the panic that ends the process. -/
def RuntimeLatency.Print (l : RuntimeLatency) : Except GoPanic (List Summary) := do
  let s1 ← summarize l.RunPodSandbox
  let s2 ← summarize l.StopPodSandbox
  let s3 ← summarize l.RemovePodSandbox
  let s4 ← summarize l.CreateContainer
  let s5 ← summarize l.StartContainer
  let s6 ← summarize l.StopContainer
  let s7 ← summarize l.RemoveContainer
  pure [s1, s2, s3, s4, s5, s6, s7]


/-! ## Predicates used in the statements -/

/-- Shape of the slot grids for `P` pods and `C` containers per pod: the counts are
`P` and `C`, there are `P` pod slots, and each of the first `P` rows of the
container grid exists and has `C` slots. Rows beyond the first `P` are free. -/
structure Grid (P C : Nat) (b : Batch) : Prop where
  podCount : b.PodCount.toNat = P
  ctrCount : b.CtrCount.toNat = C
  pods_len : b.pods.length = P
  rows : ∀ (i : Nat), i < P → ∃ row, b.ctrs[i]? = some row ∧ row.length = C

/-- A runtime in which every call succeeds, `CreatePod` and `CreateContainer`
returning a non-empty handle. -/
structure Succeeds {σ : Type} (rt : Runtime σ) : Prop where
  createPod : ∀ ns name uid s,
    (rt.CreatePod ns name uid s).1.err = none ∧ (rt.CreatePod ns name uid s).1.handle ≠ ""
  createContainer : ∀ pod name uid s,
    (rt.CreateContainer pod name uid s).1.err = none ∧
      (rt.CreateContainer pod name uid s).1.handle ≠ ""
  startContainer : ∀ h s, (rt.StartContainer h s).1.err = none
  stopContainer : ∀ h s, (rt.StopContainer h s).1.err = none
  removeContainer : ∀ h s, (rt.RemoveContainer h s).1.err = none
  stopPod : ∀ h s, (rt.StopPod h s).1.err = none
  removePod : ∀ h s, (rt.RemovePod h s).1.err = none

/-- Samples one round adds to a kind when nothing fails: one per pod for the pod
kinds, one per container for the container kinds. -/
def perRound (P C : Nat) : Op → Nat
  | .RunPodSandbox => P
  | .StopPodSandbox => P
  | .RemovePodSandbox => P
  | .CreateContainer => P * C
  | .StartContainer => P * C
  | .StopContainer => P * C
  | .RemoveContainer => P * C

/-- Every pod slot holds a handle. -/
def PodsLive (b : Batch) : Prop := ∀ (i : Nat) (p : String), b.pods[i]? = some p → p ≠ ""

/-- Content of the container slot `ctrs[i][j]`, if it exists. -/
def Batch.ctr (b : Batch) (i j : Nat) : Option String :=
  match b.ctrs[i]? with
  | some row => row[j]?
  | none => none

/-- Every slot `ctrs[i][j]` with `i < P` and `j < C` holds a handle. -/
def CtrsLive (P C : Nat) (b : Batch) : Prop :=
  ∀ (i j : Nat), i < P → j < C → ∃ c, b.ctr i j = some c ∧ c ≠ ""

/-- A runtime that answers every call with success: handle "h", latency 7. -/
def okRuntime : Runtime Unit where
  CreatePod := fun _ _ _ s => (⟨"h", none, 7⟩, s)
  CreateContainer := fun _ _ _ s => (⟨"h", none, 7⟩, s)
  StartContainer := fun _ s => (⟨none, 7⟩, s)
  StopContainer := fun _ s => (⟨none, 7⟩, s)
  RemoveContainer := fun _ s => (⟨none, 7⟩, s)
  StopPod := fun _ s => (⟨none, 7⟩, s)
  RemovePod := fun _ s => (⟨none, 7⟩, s)

/-- A runtime in which `CreatePod` always fails, returning the empty handle and
the error "boom", and every other call succeeds. -/
def noPodsRuntime : Runtime Unit where
  CreatePod := fun _ _ _ s => (⟨"", some "boom", 9⟩, s)
  CreateContainer := fun _ _ _ s => (⟨"c", none, 7⟩, s)
  StartContainer := fun _ s => (⟨none, 7⟩, s)
  StopContainer := fun _ s => (⟨none, 7⟩, s)
  RemoveContainer := fun _ s => (⟨none, 7⟩, s)
  StopPod := fun _ s => (⟨none, 7⟩, s)
  RemovePod := fun _ s => (⟨none, 7⟩, s)

/-- A runtime in which `CreatePod` always fails but returns the handle "z" next to
its error "boom", and every other call succeeds. -/
def staleHandleRuntime : Runtime Unit where
  CreatePod := fun _ _ _ s => (⟨"z", some "boom", 9⟩, s)
  CreateContainer := fun _ _ _ s => (⟨"c", none, 7⟩, s)
  StartContainer := fun _ s => (⟨none, 7⟩, s)
  StopContainer := fun _ s => (⟨none, 7⟩, s)
  RemoveContainer := fun _ s => (⟨none, 7⟩, s)
  StopPod := fun _ s => (⟨none, 7⟩, s)
  RemovePod := fun _ s => (⟨none, 7⟩, s)

/-- A runtime in which `CreatePod` fails, with the empty handle and the error
"boom", for the sandbox named "batch0-0" and succeeds for every other one, and
every other call succeeds. -/
def firstPodFailsRuntime : Runtime Unit where
  CreatePod := fun _ name _ s =>
    if name = "batch0-0" then (⟨"", some "boom", 9⟩, s) else (⟨"p", none, 5⟩, s)
  CreateContainer := fun _ _ _ s => (⟨"c", none, 7⟩, s)
  StartContainer := fun _ s => (⟨none, 7⟩, s)
  StopContainer := fun _ s => (⟨none, 7⟩, s)
  RemoveContainer := fun _ s => (⟨none, 7⟩, s)
  StopPod := fun _ s => (⟨none, 7⟩, s)
  RemovePod := fun _ s => (⟨none, 7⟩, s)

/-- A batch as `main` builds it with `-pods 1 -containers 1 -rounds 2`. -/
def batch0 : Batch := { BatchName := "batch0", PodCount := 1, CtrCount := 1, Rounds := 2 }

/-- State in which `Run` is called on `batch0`. -/
def exec0 : Exec Unit := { b := batch0, rt := () }

/-- Between `e` and `e'` no error was recorded and exactly `n` samples were
appended, all to kind `K` (lengths of the other six sequences are unchanged). -/
def Counted {σ : Type} (K : Op) (n : Nat) (e e' : Exec σ) : Prop :=
  e'.b.errors = e.b.errors ∧
  ∀ op, (e'.b.latency.get op).length = (e.b.latency.get op).length + if op = K then n else 0

/-- Accounting between `e` and `e'` for kind `K`: the runtime calls made are all of
kind `K`, the samples appended to the sequence of `K` are as many as the calls
that returned success, and the other six sequences are unchanged. -/
def Accounted {σ : Type} (K : Op) (e e' : Exec σ) : Prop :=
  ∃ calls samples, e'.trace = e.trace ++ calls ∧ (∀ c ∈ calls, c.op = K) ∧
    e'.b.latency.get K = e.b.latency.get K ++ samples ∧
    samples.length = (calls.filter (fun c => c.ok)).length ∧
    ∀ op, op ≠ K → e'.b.latency.get op = e.b.latency.get op

/-- Accounting between `e` and `e'` over all seven kinds: for every kind `K` the
samples appended to the sequence of `K` are as many as the calls of kind `K` made
in between that returned success. -/
def AccountedAll {σ : Type} (e e' : Exec σ) : Prop :=
  ∃ calls, e'.trace = e.trace ++ calls ∧
    ∀ K : Op, ∃ samples, e'.b.latency.get K = e.b.latency.get K ++ samples ∧
      samples.length = (calls.filter (fun c => c.op = K ∧ c.ok = true)).length

/-- The pod slot `i` of `b` holds a handle. -/
def PodLive (b : Batch) (i : Nat) : Prop := ∃ p, b.pods[i]? = some p ∧ p ≠ ""

/-- Between `e` and `e'` pod slots were at most cleared, and every call made and
every error recorded, `CreateContainer` ones apart, is for a pod index whose slot
held a handle in `e`; no pod-creation error was recorded. -/
def OnLivePods {σ : Type} (e e' : Exec σ) : Prop :=
  ∃ calls errs, e'.trace = e.trace ++ calls ∧ e'.b.errors = e.b.errors ++ errs ∧
    (∀ c ∈ calls, c.op = .CreateContainer ∨ (c.op ≠ .RunPodSandbox ∧ PodLive e.b c.pod)) ∧
    (∀ x ∈ errs, x.op = .CreateContainer ∨ (x.op ≠ .RunPodSandbox ∧ PodLive e.b x.pod)) ∧
    ∀ (i : Nat), e'.b.pods[i]? = e.b.pods[i]? ∨ e'.b.pods[i]? = some ""

/-- A runtime whose `CreatePod` returns the empty handle whenever it returns an
error. -/
def FailedCreatePodIsEmpty {σ : Type} (rt : Runtime σ) : Prop :=
  ∀ ns name uid s, (rt.CreatePod ns name uid s).1.err ≠ none →
    (rt.CreatePod ns name uid s).1.handle = ""

/-- The calls one iteration of `createPods` makes for pod index `i` when `k`
attempts fail: `k` failed calls, then one successful call unless all
`maxRetries` attempts failed. -/
def attemptCalls (i k : Nat) : List Call :=
  List.replicate k ⟨.RunPodSandbox, i, none, false⟩ ++
    if k < maxRetries then [⟨.RunPodSandbox, i, none, true⟩] else []

/-- The state `batch0` is in after the allocation step of `Run`, all slots empty,
with one round left to run. -/
def exec1 : Exec Unit :=
  { b := { batch0 with Namespace := "test", Rounds := 1, pods := [""], ctrs := [[""]] }, rt := () }

/-- A batch named "batch0" with two pods of one container each, allocated, all
slots empty. -/
def exec3 : Exec Unit :=
  { b := { BatchName := "batch0", Namespace := "test", PodCount := 2, CtrCount := 1, Rounds := 1,
           pods := ["", ""], ctrs := [[""], [""]] }, rt := () }

/-! ## The id generator as used by its callers -/

/-- The package variable `var ids = &idgen{}`. -/
def ids : idgen := {}

/-- The three generator methods. -/
inductive Gen where
  | uid
  | pod
  | ctr
deriving DecidableEq, Repr

/-- The literal each method puts in front of its number. -/
def Gen.tag : Gen → String
  | .uid => "uid-"
  | .pod => "pod-"
  | .ctr => "ctr-"

/-- The counter a method reads and increments. -/
def idgen.counter (g : idgen) : Gen → Int
  | .uid => g.uid
  | .pod => g.pod
  | .ctr => g.ctr

/-- One call of a generator method, selected by `k`. -/
def idgen.call (g : idgen) : Gen → String × idgen
  | .uid => g.GenUID
  | .pod => g.GenPodName
  | .ctr => g.GenCtrName

/-- A sequence of generator calls executed one at a time (each call holds the
lock from entry to return): the strings returned, in call order, and the final
state. -/
def idgen.run (g : idgen) : List Gen → List String × idgen
  | [] => ([], g)
  | k :: rest =>
    let r := g.call k
    let t := idgen.run r.2 rest
    (r.1 :: t.1, t.2)

/-- Value of a string of decimal digits, most significant digit first. -/
def decimalValue (cs : List Char) : Nat :=
  cs.foldl (fun a c => 10 * a + (c.toNat - 48)) 0

/-! ## Persistence: main and RuntimeLatency.Save -/

/-- Go `strings.HasSuffix`. -/
def HasSuffix (s suffix : String) : Bool := suffix.data.isSuffixOf s.data

/-- Where `Save` sends the encoded record. -/
inductive SaveTarget where
  | stdout
  | file (name : String)
deriving DecidableEq, Repr

/-- The statement `if !strings.HasSuffix(fileName, ".json") { fileName += ".json" }`
of `Save`. -/
def jsonName (fileName : String) : String :=
  if HasSuffix fileName ".json" then fileName else fileName ++ ".json"

/-- What one call of `Save` does when the file system and the encoder do not
fail: the target opened and the record encoded to it. -/
structure Written where
  target : SaveTarget
  record : RuntimeLatency
deriving DecidableEq, Repr

/-- Method `RuntimeLatency.Save`: "-" selects `os.Stdout`, any other name is
completed to end in ".json" and created with `os.Create`. -/
def RuntimeLatency.Save (l : RuntimeLatency) (fileName : String) : Written :=
  if fileName = "-" then ⟨.stdout, l⟩ else ⟨.file (jsonName fileName), l⟩

/-- The value of `outFile` after `flag.String("save", "", ...)` and `flag.Parse()`:
a pointer, never nil, to the string given on the command line or to the default. -/
def flagString (given : Option String) (dflt : String) : Option String :=
  some (given.getD dflt)

/-- The end of `main`: `if outFile != nil { latency.Save(*outFile) }`, where a nil
pointer is `none`. -/
def mainSave (outFile : Option String) (latency : RuntimeLatency) : Option Written :=
  match outFile with
  | none => none
  | some fileName => some (latency.Save fileName)

/-! ## Predicates on the slot grids -/

/-- The slot invariant of the data model: a container slot holds a handle only if
the pod slot of its row holds one. -/
def SlotInvariant (b : Batch) : Prop :=
  ∀ (i j : Nat) (c : String), b.ctr i j = some c → c ≠ "" → PodLive b i

/-- A runtime whose `CreateContainer` returns the empty handle whenever it returns
an error. -/
def FailedCreateContainerIsEmpty {σ : Type} (rt : Runtime σ) : Prop :=
  ∀ pod name uid s, (rt.CreateContainer pod name uid s).1.err ≠ none →
    (rt.CreateContainer pod name uid s).1.handle = ""

/-- A runtime in which `CreatePod` succeeds with handle "p", `CreateContainer`
fails but returns the handle "z" next to its error "boom", and every other call
succeeds. -/
def staleContainerRuntime : Runtime Unit where
  CreatePod := fun _ _ _ s => (⟨"p", none, 7⟩, s)
  CreateContainer := fun _ _ _ s => (⟨"z", some "boom", 9⟩, s)
  StartContainer := fun _ s => (⟨none, 7⟩, s)
  StopContainer := fun _ s => (⟨none, 7⟩, s)
  RemoveContainer := fun _ s => (⟨none, 7⟩, s)
  StopPod := fun _ s => (⟨none, 7⟩, s)
  RemovePod := fun _ s => (⟨none, 7⟩, s)

/-- A runtime in which every call fails, creations returning the empty handle. -/
def failingRuntime : Runtime Unit where
  CreatePod := fun _ _ _ s => (⟨"", some "boom", 9⟩, s)
  CreateContainer := fun _ _ _ s => (⟨"", some "boom", 9⟩, s)
  StartContainer := fun _ s => (⟨some "boom", 9⟩, s)
  StopContainer := fun _ s => (⟨some "boom", 9⟩, s)
  RemoveContainer := fun _ s => (⟨some "boom", 9⟩, s)
  StopPod := fun _ s => (⟨some "boom", 9⟩, s)
  RemovePod := fun _ s => (⟨some "boom", 9⟩, s)

/-- A runtime in which creations succeed and every other call fails. -/
def stuckRuntime : Runtime Unit where
  CreatePod := fun _ _ _ s => (⟨"p", none, 7⟩, s)
  CreateContainer := fun _ _ _ s => (⟨"c", none, 7⟩, s)
  StartContainer := fun _ s => (⟨some "boom", 9⟩, s)
  StopContainer := fun _ s => (⟨some "boom", 9⟩, s)
  RemoveContainer := fun _ s => (⟨some "boom", 9⟩, s)
  StopPod := fun _ s => (⟨some "boom", 9⟩, s)
  RemovePod := fun _ s => (⟨some "boom", 9⟩, s)

/-- Between `b` and `b'` only the latency collection and the error list may
differ: configuration, both slot grids and the retry counter are the same. -/
def OnlyLatencyAndErrors (b b' : Batch) : Prop :=
  b' = { b with latency := b'.latency, errors := b'.errors }

/-- Number of `CreatePod` calls in a list of calls. -/
def createPodCalls (calls : List Call) : Nat :=
  (calls.filter (fun c => c.op = .RunPodSandbox)).length

/-- Number of `CreatePod` calls made for pod index `i` in a list of calls. -/
def createPodCallsFor (i : Nat) (calls : List Call) : Nat :=
  (calls.filter (fun c => c.op = .RunPodSandbox ∧ c.pod = i)).length

/-- A state with a live pod and a live container, both still to be stopped and
removed. -/
def exec2 : Exec Unit :=
  { b := { batch0 with Namespace := "test", Rounds := 1, pods := ["p"], ctrs := [["c"]] },
    rt := () }

/-- Between `e` and `e'` the call trace and the error list of the batch were only
appended to: the old error list is an initial segment of the new one. -/
def Grows {σ : Type} (e e' : Exec σ) : Prop :=
  (∃ calls, e'.trace = e.trace ++ calls) ∧ ∃ errs, e'.b.errors = e.b.errors ++ errs

/-! ## Loop rule -/

theorem forRange_inv {S : Type} (body : Nat → S → Except GoPanic S) (Inv : Nat → S → Prop)
    (hi : Nat)
    (hbody : ∀ i s, i < hi → Inv i s → ∃ s', body i s = .ok s' ∧ Inv (i + 1) s') :
    ∀ n i s, i + n ≤ hi → Inv i s → ∃ s', forRange body i n s = .ok s' ∧ Inv (i + n) s' := by
  intro n
  induction n with
  | zero => intro i s _ h; exact ⟨s, rfl, h⟩
  | succ n ih =>
    intro i s hle h
    obtain ⟨s1, hb, h1⟩ := hbody i s (by omega) h
    obtain ⟨s2, hf, h2⟩ := ih (i + 1) s1 (by omega) h1
    refine ⟨s2, ?_, ?_⟩
    · simp only [forRange, hb, hf]
    · have : i + (n + 1) = i + 1 + n := by omega
      rw [this]; exact h2

theorem forRange_chain {S : Type} (body : Nat → S → Except GoPanic S) (Inv : S → Prop)
    (hbody : ∀ i s, Inv s → ∃ s', body i s = .ok s' ∧ Inv s') :
    ∀ n i s, Inv s → ∃ st : Nat → S, st 0 = s ∧
      (∀ k, k < n → body (i + k) (st k) = .ok (st (k + 1))) ∧
      (∀ k, k ≤ n → Inv (st k)) ∧ forRange body i n s = .ok (st n) := by
  intro n
  induction n with
  | zero =>
    intro i s h
    exact ⟨fun _ => s, rfl, fun k hk => absurd hk (Nat.not_lt_zero k),
      fun k _ => h, rfl⟩
  | succ n ih =>
    intro i s h
    obtain ⟨s1, hb, h1⟩ := hbody i s h
    obtain ⟨g, g0, gstep, ginv, grun⟩ := ih (i + 1) s1 h1
    refine ⟨fun k => match k with
      | 0 => s
      | k + 1 => g k, rfl, ?_, ?_, ?_⟩
    · intro k hk
      cases k with
      | zero =>
        show body (i + 0) s = .ok (g 0)
        rw [g0]; exact hb
      | succ k =>
        show body (i + (k + 1)) (g k) = .ok (g (k + 1))
        have := gstep k (by omega)
        rwa [show i + 1 + k = i + (k + 1) by omega] at this
    · intro k hk
      cases k with
      | zero => exact h
      | succ k => exact ginv k (by omega)
    · show forRange body i (n + 1) s = .ok (g n)
      simp only [forRange, hb, grun]

theorem record_get_length (l : RuntimeLatency) (K op : Op) (x : Latency) :
    ((l.record K x).get op).length = (l.get op).length + if op = K then 1 else 0 := by
  cases K <;> cases op <;> simp [RuntimeLatency.record, RuntimeLatency.get]

/-! ## Sorting and merging -/

theorem slicesSort_sorted (x : List Latency) : (slicesSort x).Sorted (fun a b => a ≤ b) :=
  List.sorted_insertionSort _ x

theorem slicesSort_perm (x : List Latency) : (slicesSort x).Perm x :=
  List.perm_insertionSort _ x

theorem slicesSort_unique (x y : List Latency) (hs : y.Sorted (fun a b => a ≤ b))
    (hp : y.Perm x) : y = slicesSort x :=
  List.eq_of_perm_of_sorted (hp.trans (slicesSort_perm x).symm) hs (slicesSort_sorted x)

theorem slicesSort_congr {x y : List Latency} (h : x.Perm y) : slicesSort x = slicesSort y :=
  slicesSort_unique y (slicesSort x) (slicesSort_sorted x) ((slicesSort_perm x).trans h)

theorem slicesSort_idem (x : List Latency) : slicesSort (slicesSort x) = slicesSort x :=
  (slicesSort_unique _ _ (slicesSort_sorted x) (List.Perm.refl _)).symm

theorem slicesSort_eq_nil {x : List Latency} (h : x = []) : slicesSort x = [] := by
  subst h; rfl

theorem Sort_get (l : RuntimeLatency) (op : Op) : l.Sort.get op = slicesSort (l.get op) := by
  cases op <;> rfl

theorem Add_get (l o : RuntimeLatency) (op : Op) : (l.Add o).get op = l.get op ++ o.get op := by
  cases op <;> rfl

theorem RuntimeLatency.ext_get {l o : RuntimeLatency} (h : ∀ op, l.get op = o.get op) : l = o := by
  cases l; cases o
  have h1 := h .RunPodSandbox
  have h2 := h .StopPodSandbox
  have h3 := h .RemovePodSandbox
  have h4 := h .CreateContainer
  have h5 := h .StartContainer
  have h6 := h .StopContainer
  have h7 := h .RemoveContainer
  simp only [RuntimeLatency.get] at h1 h2 h3 h4 h5 h6 h7
  simp [h1, h2, h3, h4, h5, h6, h7]

/-- C8: `Sort` leaves every one of the seven sequences non-decreasing, a
permutation of its previous contents (same multiset, same length), and sorting
twice gives the same collection as sorting once. -/
theorem Sort_sorted_perm_idempotent (l : RuntimeLatency) :
    (∀ op, (l.Sort.get op).Sorted (fun a b => a ≤ b) ∧ (l.Sort.get op).Perm (l.get op) ∧
      (l.Sort.get op).length = (l.get op).length) ∧
    l.Sort.Sort = l.Sort := by
  refine ⟨fun op => ?_, ?_⟩
  · rw [Sort_get]
    exact ⟨slicesSort_sorted _, slicesSort_perm _, (slicesSort_perm _).length_eq⟩
  · apply RuntimeLatency.ext_get
    intro op
    rw [Sort_get, Sort_get, slicesSort_idem]

/-- C9: after `l.Add(o)` every sequence of `l` is its previous contents followed
by the sequence of `o` of the same kind, so lengths add up kind by kind and no
sample changes kind (`o` is only read: `Add` assigns to fields of `l` alone);
merging is associative, and merging `a`, `b`, `c` into the empty collection gives
`a ++ b ++ c` per kind in either grouping. -/
theorem Add_appends_per_kind_assoc (a b c : RuntimeLatency) :
    (∀ op, (a.Add b).get op = a.get op ++ b.get op ∧
      ((a.Add b).get op).length = (a.get op).length + (b.get op).length) ∧
    (a.Add b).Add c = a.Add (b.Add c) ∧
    (∀ op, (((({} : RuntimeLatency).Add a).Add b).Add c).get op
        = a.get op ++ b.get op ++ c.get op) ∧
    (∀ op, ((({} : RuntimeLatency).Add (a.Add (b.Add c)))).get op
        = a.get op ++ b.get op ++ c.get op) := by
  refine ⟨fun op => ⟨Add_get _ _ _, by rw [Add_get, List.length_append]⟩, ?_, ?_, ?_⟩
  · apply RuntimeLatency.ext_get
    intro op
    simp only [Add_get, List.append_assoc]
  · intro op
    simp only [Add_get]
    cases op <;> simp [RuntimeLatency.get]
  · intro op
    simp only [Add_get]
    cases op <;> simp [RuntimeLatency.get]

theorem mergeLatencies_foldl_get (bs : List Batch) (l : RuntimeLatency) (op : Op) :
    (bs.foldl (fun l b => l.Add b.latency) l).get op
      = l.get op ++ (bs.map (fun b => b.latency.get op)).flatten := by
  induction bs generalizing l with
  | nil => simp
  | cons b bs ih => simp [ih, Add_get, List.append_assoc]

theorem mergeLatencies_get (bs : List Batch) (op : Op) :
    (mergeLatencies bs).get op = (bs.map (fun b => b.latency.get op)).flatten := by
  unfold mergeLatencies
  rw [mergeLatencies_foldl_get]
  cases op <;> simp [RuntimeLatency.get]

/-- C10: sorting after merging does not depend on the merge order. For two
collections the sorted merge is the same both ways round and is the ascending
arrangement of the samples of both; `[5,1]` merged with `[3]` sorts to `[1,3,5]`.
The coordinator's merge loop collects, for every kind, exactly the samples of all the
batches (in batch order), so its merge followed by `Sort` is, for every kind, the
ascending arrangement of all the batches' samples of that kind, and is the same
collection for any permutation of the list of batches. -/
theorem Sort_Add_order_independent :
    (∀ a b : RuntimeLatency, (a.Add b).Sort = (b.Add a).Sort ∧
      ∀ op, ((a.Add b).Sort.get op).Sorted (fun x y => x ≤ y) ∧
        ((a.Add b).Sort.get op).Perm (a.get op ++ b.get op)) ∧
    (∀ op, ((({ RunPodSandbox := [5, 1], StopPodSandbox := [5, 1], RemovePodSandbox := [5, 1],
                CreateContainer := [5, 1], StartContainer := [5, 1], StopContainer := [5, 1],
                RemoveContainer := [5, 1] } : RuntimeLatency).Add
              { RunPodSandbox := [3], StopPodSandbox := [3], RemovePodSandbox := [3],
                CreateContainer := [3], StartContainer := [3], StopContainer := [3],
                RemoveContainer := [3] }).Sort).get op = [1, 3, 5]) ∧
    (∀ (bs : List Batch) (op : Op),
      (mergeLatencies bs).get op = (bs.map (fun b => b.latency.get op)).flatten ∧
      ((mergeLatencies bs).Sort.get op).Sorted (fun x y => x ≤ y) ∧
      ((mergeLatencies bs).Sort.get op).Perm
        ((bs.map (fun b => b.latency.get op)).flatten)) ∧
    ((mergeLatencies [{ latency := { RunPodSandbox := [5, 1], StartContainer := [9] } },
        { latency := { RunPodSandbox := [3], StartContainer := [2, 7] } }]).Sort
      = { RunPodSandbox := [1, 3, 5], StartContainer := [2, 7, 9] }) ∧
    (∀ bs bs' : List Batch, bs.Perm bs' →
      (mergeLatencies bs).Sort = (mergeLatencies bs').Sort ∧
      ∀ op, ((mergeLatencies bs').Sort.get op).Sorted (fun x y => x ≤ y) ∧
        ((mergeLatencies bs').Sort.get op).Perm
          ((bs.map (fun b => b.latency.get op)).flatten)) := by
  refine ⟨fun a b => ⟨?_, fun op => ?_⟩, ?_, fun bs op => ⟨mergeLatencies_get bs op, ?_, ?_⟩,
    by decide, ?_⟩
  · apply RuntimeLatency.ext_get
    intro op
    rw [Sort_get, Sort_get, Add_get, Add_get]
    exact slicesSort_congr List.perm_append_comm
  · rw [Sort_get, Add_get]
    exact ⟨slicesSort_sorted _, slicesSort_perm _⟩
  · intro op
    cases op <;> decide
  · rw [Sort_get]
    exact slicesSort_sorted _
  · rw [Sort_get, mergeLatencies_get]
    exact slicesSort_perm _
  · intro bs bs' h
    refine ⟨?_, fun op => ⟨?_, ?_⟩⟩
    · apply RuntimeLatency.ext_get
      intro op
      rw [Sort_get, Sort_get, mergeLatencies_get, mergeLatencies_get]
      exact slicesSort_congr ((h.map _).flatten)
    · rw [Sort_get]
      exact slicesSort_sorted _
    · rw [Sort_get, mergeLatencies_get]
      exact (slicesSort_perm _).trans ((h.map _).flatten).symm

/-- Witness for C10: two batches holding `[5,1]` and `[3]`, merged in either order:
both orders give the same sorted collection, whose sandbox-creation samples are
`[1,3,5]`, sorted and a rearrangement of the samples of the two batches. -/
theorem Sort_Add_order_independent_witness :
    ([{ latency := { RunPodSandbox := [5, 1] } },
        { latency := { RunPodSandbox := [3] } }] : List Batch).Perm
      [{ latency := { RunPodSandbox := [3] } }, { latency := { RunPodSandbox := [5, 1] } }] ∧
    ((mergeLatencies [{ latency := { RunPodSandbox := [5, 1] } },
        { latency := { RunPodSandbox := [3] } }]).Sort
      = (mergeLatencies [{ latency := { RunPodSandbox := [3] } },
        { latency := { RunPodSandbox := [5, 1] } }]).Sort ∧
      ∀ op, ((mergeLatencies [{ latency := { RunPodSandbox := [3] } },
          { latency := { RunPodSandbox := [5, 1] } }]).Sort.get op).Sorted (fun x y => x ≤ y) ∧
        ((mergeLatencies [{ latency := { RunPodSandbox := [3] } },
          { latency := { RunPodSandbox := [5, 1] } }]).Sort.get op).Perm
          ((([{ latency := { RunPodSandbox := [5, 1] } },
            { latency := { RunPodSandbox := [3] } }] : List Batch).map
              (fun b => b.latency.get op)).flatten)) ∧
    (mergeLatencies [{ latency := { RunPodSandbox := [3] } },
        { latency := { RunPodSandbox := [5, 1] } }]).Sort.get .RunPodSandbox = [1, 3, 5] :=
  ⟨List.Perm.swap _ _ [],
    Sort_Add_order_independent.2.2.2.2 _ _ (List.Perm.swap _ _ []), by decide⟩

/-! ## Quantiles and the summary -/

theorem empiricalQuantile_spec (fidx : ℚ) (x : List Latency) (c : ℚ)
    (hx : x ≠ []) (hle : fidx ≤ c + x.length) :
    ∃ (i : Nat) (v : Latency), x[i]? = some v ∧ empiricalQuantile fidx x c = .ok v ∧ fidx ≤ c + i + 1 ∧
      ∀ k, k < i → c + k + 1 < fidx := by
  induction x generalizing c with
  | nil => exact absurd rfl hx
  | cons a rest ih =>
    by_cases h : fidx ≤ c + 1
    · refine ⟨0, a, by simp, ?_, ?_, ?_⟩
      · simp [empiricalQuantile, h]
      · simpa using h
      · intro k hk; exact absurd hk (Nat.not_lt_zero k)
    · have hrest : rest ≠ [] := by
        rintro rfl
        apply h
        simpa using hle
      have hle' : fidx ≤ (c + 1) + rest.length := by
        have : ((a :: rest).length : ℚ) = rest.length + 1 := by simp
        rw [this] at hle
        linarith
      obtain ⟨i, v, hi, hq, hb, hk⟩ := ih (c + 1) hrest hle'
      refine ⟨i + 1, v, by simpa [List.getElem?_cons_succ] using hi, ?_, ?_, ?_⟩
      · simp [empiricalQuantile, h, hq]
      · push_cast; linarith
      · intro k hk'
        cases k with
        | zero => simpa using lt_of_not_le h
        | succ k =>
          have := hk k (by omega)
          push_cast; linarith

theorem Quantile_ok (p : ℚ) (x : List Latency) (h0 : 0 ≤ p) (h1 : p ≤ 1) (hx : x ≠ [])
    (hs : x.Sorted (fun a b => a ≤ b)) :
    ∃ (i : Nat) (v : Latency), x[i]? = some v ∧ Quantile p x = .ok v ∧ p * x.length ≤ i + 1 ∧
      ∀ k, k < i → (k : ℚ) + 1 < p * x.length := by
  have hle : p * x.length ≤ 0 + x.length := by
    have : (0 : ℚ) ≤ x.length := by positivity
    nlinarith
  obtain ⟨i, v, hi, hq, hb, hk⟩ := empiricalQuantile_spec (p * x.length) x 0 hx hle
  refine ⟨i, v, hi, ?_, by simpa using hb, fun k hk' => by simpa using hk k hk'⟩
  have hlen : x.length ≠ 0 := fun h => hx (List.length_eq_zero.mp h)
  simp [Quantile, h0, h1, hlen, hs, hq]

/-- C5 (counterexample): on `[10,20,30,40]` the call made by `Print` at level 0.50
returns the sample 20, while the linear-interpolated quantile of the claim is 25. -/
theorem Quantile_median_not_interpolated :
    Quantile (50 / 100) [10, 20, 30, 40] = .ok 20 ∧
    linearInterpolatedQuantile (50 / 100) [10, 20, 30, 40] = some 25 ∧
    Quantile (50 / 100) [10, 20, 30, 40] ≠ .ok 25 := by
  refine ⟨?_, ?_, ?_⟩
  · norm_num [Quantile, empiricalQuantile]
  · norm_num [linearInterpolatedQuantile]
  · norm_num [Quantile, empiricalQuantile]

/-- C5 (amended): for a sorted non-empty sequence `x` of length `n` and a level
`0 ≤ q ≤ 1`, the percentile computed for the summary is a sample of `x`, the first
one whose rank `i + 1` reaches `q * n`, with no interpolation; on `[10,20,30,40]`
the 50th percentile is 20, the 0th is 10 and the 100th is 40. -/
theorem Quantile_is_empirical :
    (∀ (q : ℚ) (x : List Latency), 0 ≤ q → q ≤ 1 → x ≠ [] → x.Sorted (fun a b => a ≤ b) →
      ∃ (i : Nat) (v : Latency), x[i]? = some v ∧ Quantile q x = .ok v ∧ q * x.length ≤ i + 1 ∧
        ∀ k, k < i → (k : ℚ) + 1 < q * x.length) ∧
    Quantile (50 / 100) [10, 20, 30, 40] = .ok 20 ∧
    Quantile 0 [10, 20, 30, 40] = .ok 10 ∧
    Quantile 1 [10, 20, 30, 40] = .ok 40 := by
  refine ⟨fun q x h0 h1 hx hs => Quantile_ok q x h0 h1 hx hs, ?_, ?_, ?_⟩ <;>
    norm_num [Quantile, empiricalQuantile]

/-- Witness for C5 (amended): the general part at level 0.75 on `[10,20,30,40]`. -/
theorem Quantile_is_empirical_witness :
    ∃ (i : Nat) (v : Latency), [10, 20, 30, 40][i]? = some v ∧ Quantile (75 / 100) [10, 20, 30, 40] = .ok v ∧
      (75 / 100 : ℚ) * ([10, 20, 30, 40] : List Latency).length ≤ i + 1 ∧
      ∀ k, k < i → (k : ℚ) + 1 < (75 / 100 : ℚ) * ([10, 20, 30, 40] : List Latency).length :=
  Quantile_is_empirical.1 (75 / 100) [10, 20, 30, 40] (by norm_num) (by norm_num)
    (by simp) (by simp)

theorem summarize_nil : summarize [] = .error (.indexOutOfRange 0 0) := rfl

theorem summarize_ok (x : List Latency) (hx : x ≠ []) (hs : x.Sorted (fun a b => a ≤ b)) :
    ∃ s, summarize x = .ok s := by
  obtain ⟨_, v1, _, h25, _⟩ := Quantile_ok (25 / 100) x (by norm_num) (by norm_num) hx hs
  obtain ⟨_, v2, _, h50, _⟩ := Quantile_ok (50 / 100) x (by norm_num) (by norm_num) hx hs
  obtain ⟨_, v3, _, h75, _⟩ := Quantile_ok (75 / 100) x (by norm_num) (by norm_num) hx hs
  obtain ⟨_, v4, _, h95, _⟩ := Quantile_ok (95 / 100) x (by norm_num) (by norm_num) hx hs
  cases x with
  | nil => exact absurd rfl hx
  | cons a rest =>
    have hlast : ∃ hi, (a :: rest)[(a :: rest).length - 1]? = some hi := by
      refine ⟨(a :: rest)[(a :: rest).length - 1], ?_⟩
      exact List.getElem?_eq_getElem (by simp)
    obtain ⟨hi, hhi⟩ := hlast
    refine ⟨⟨a, hi, v1, v2, v3, v4⟩, ?_⟩
    unfold summarize
    rw [hhi]
    simp only [List.getElem?_cons_zero, h25, h50, h75, h95]
    rfl

theorem summarize_cases (x : List Latency) (hs : x.Sorted (fun a b => a ≤ b)) :
    (x = [] ∧ summarize x = .error (.indexOutOfRange 0 0)) ∨ (x ≠ [] ∧ ∃ s, summarize x = .ok s) := by
  by_cases hx : x = []
  · left; subst hx; exact ⟨rfl, rfl⟩
  · right; exact ⟨hx, summarize_ok x hx hs⟩

/-- C6 (the code at the failing inputs): when at least one of the seven sequences
is empty, `Sort` followed by `Print` ends in the Go run-time panic
"index out of range [0] with length 0", raised by the unguarded read of element 0;
no "no data" condition is produced. -/
theorem Print_empty_sequence_panics (l : RuntimeLatency) (h : ∃ op, l.get op = []) :
    l.Sort.Print = .error (.indexOutOfRange 0 0) := by
  obtain ⟨op, hop⟩ := h
  have hnil : l.Sort.get op = [] := by rw [Sort_get, hop]; rfl
  have hs : ∀ k, (l.Sort.get k).Sorted (fun a b => a ≤ b) := fun k => by
    rw [Sort_get]; exact slicesSort_sorted _
  generalize l.Sort = m at hnil hs
  have h1 := summarize_cases _ (hs .RunPodSandbox)
  have h2 := summarize_cases _ (hs .StopPodSandbox)
  have h3 := summarize_cases _ (hs .RemovePodSandbox)
  have h4 := summarize_cases _ (hs .CreateContainer)
  have h5 := summarize_cases _ (hs .StartContainer)
  have h6 := summarize_cases _ (hs .StopContainer)
  have h7 := summarize_cases _ (hs .RemoveContainer)
  simp only [RuntimeLatency.get] at h1 h2 h3 h4 h5 h6 h7
  unfold RuntimeLatency.Print
  rcases h1 with ⟨-, e1⟩ | ⟨n1, s1, e1⟩ <;> rw [e1] <;> try rfl
  rcases h2 with ⟨-, e2⟩ | ⟨n2, s2, e2⟩ <;> rw [e2] <;> try rfl
  rcases h3 with ⟨-, e3⟩ | ⟨n3, s3, e3⟩ <;> rw [e3] <;> try rfl
  rcases h4 with ⟨-, e4⟩ | ⟨n4, s4, e4⟩ <;> rw [e4] <;> try rfl
  rcases h5 with ⟨-, e5⟩ | ⟨n5, s5, e5⟩ <;> rw [e5] <;> try rfl
  rcases h6 with ⟨-, e6⟩ | ⟨n6, s6, e6⟩ <;> rw [e6] <;> try rfl
  rcases h7 with ⟨-, e7⟩ | ⟨n7, s7, e7⟩ <;> rw [e7] <;> try rfl
  exfalso
  cases op <;> simp only [RuntimeLatency.get] at hnil <;> contradiction

/-- Witness for C6: the collection `main` builds when no batch recorded anything. -/
theorem Print_empty_sequence_panics_witness :
    (({} : RuntimeLatency).Sort).Print = .error (.indexOutOfRange 0 0) :=
  Print_empty_sequence_panics {} ⟨.RunPodSandbox, rfl⟩

/-! ## The pipeline when every call succeeds -/

theorem Counted.zero {σ : Type} (K : Op) (e : Exec σ) : Counted K 0 e e := by
  refine ⟨rfl, fun op => ?_⟩
  split <;> rfl

theorem Counted.add {σ : Type} {K : Op} {n m : Nat} {e1 e2 e3 : Exec σ}
    (h1 : Counted K n e1 e2) (h2 : Counted K m e2 e3) : Counted K (n + m) e1 e3 := by
  refine ⟨h2.1.trans h1.1, fun op => ?_⟩
  rw [h2.2 op, h1.2 op]
  split <;> omega

theorem createPodAttempts_succeeds {σ : Type} (rt : Runtime σ) (hs : Succeeds rt)
    (name uid : String) (i n : Nat) (v : PodVars) (e : Exec σ) :
    createPodAttempts rt name uid i (n + 1) v e =
      (⟨(rt.CreatePod e.b.Namespace name uid e.rt).1.handle, none⟩,
        { e with rt := (rt.CreatePod e.b.Namespace name uid e.rt).2,
                 trace := e.trace ++ [⟨.RunPodSandbox, i, none, true⟩],
                 b.latency := e.b.latency.record .RunPodSandbox
                   (rt.CreatePod e.b.Namespace name uid e.rt).1.elapsed }) := by
  simp [createPodAttempts, (hs.createPod e.b.Namespace name uid e.rt).1]

theorem createPodsBody_succeeds {σ : Type} (rt : Runtime σ) (hs : Succeeds rt) (P C i : Nat)
    (v : PodVars) (e : Exec σ) (hg : Grid P C e.b) (hi : i < P) :
    ∃ s', createPodsBody rt i (v, e) = .ok s' ∧ Grid P C s'.2.b ∧
      Counted .RunPodSandbox 1 e s'.2 ∧
      (∃ p, s'.2.b.pods[i]? = some p ∧ p ≠ "") ∧
      ∀ k, k ≠ i → s'.2.b.pods[k]? = e.b.pods[k]? := by
  have hlen : i < e.b.pods.length := by rw [hg.pods_len]; exact hi
  simp only [createPodsBody, maxRetries, createPodAttempts_succeeds rt hs, hlen, if_true]
  refine ⟨_, rfl, ⟨hg.podCount, hg.ctrCount, by simpa using hg.pods_len, hg.rows⟩,
    ⟨rfl, fun op => by simpa using record_get_length _ _ _ _⟩, ?_, ?_⟩
  · refine ⟨(rt.CreatePod e.b.Namespace (e.b.BatchName ++ "-" ++ toString i) e.ids.GenUID.1
      e.rt).1.handle, ?_, (hs.createPod _ _ _ _).2⟩
    simp [hlen]
  · intro k hk
    simp [List.getElem?_set, Ne.symm hk]

theorem createPods_succeeds {σ : Type} (rt : Runtime σ) (hs : Succeeds rt) (P C : Nat)
    (e : Exec σ) (hg : Grid P C e.b) :
    ∃ e', Batch.createPods rt e = .ok e' ∧ Grid P C e'.b ∧ Counted .RunPodSandbox P e e' ∧
      PodsLive e'.b := by
  have key := forRange_inv (createPodsBody rt)
    (fun k s => Grid P C s.2.b ∧ Counted .RunPodSandbox k e s.2 ∧
      ∀ i, i < k → ∃ p, s.2.b.pods[i]? = some p ∧ p ≠ "") P
    (by
      rintro i ⟨v, s⟩ hi ⟨hgs, hc, hl⟩
      obtain ⟨s', hb, hg', hc', hp, hfr⟩ := createPodsBody_succeeds rt hs P C i v s hgs hi
      refine ⟨s', hb, hg', hc.add hc', ?_⟩
      intro k hk
      by_cases hki : k = i
      · subst hki; exact hp
      · rw [hfr k hki]; exact hl k (by omega))
    P 0 ({}, e) (by omega) ⟨hg, Counted.zero _ _, fun i hi => absurd hi (Nat.not_lt_zero i)⟩
  obtain ⟨s', hrun, hg', hc, hl⟩ := key
  refine ⟨s'.2, ?_, hg', by simpa using hc, ?_⟩
  · simp only [Batch.createPods, hg.podCount, hrun]
  · intro i p hip
    have hi : i < P := by
      rw [← hg'.pods_len]
      exact (List.getElem?_eq_some_iff.mp hip).1
    obtain ⟨q, hq, hne⟩ := hl i (by simpa using hi)
    rw [hq] at hip
    cases hip
    exact hne

theorem ctr_set (b b' : Batch) (i j i' j' : Nat) (row : List String) (v : String)
    (hrow : b.ctrs[i]? = some row) (hc : b'.ctrs = b.ctrs.set i (row.set j v)) :
    b'.ctr i' j' = if i' = i ∧ j' = j ∧ j < row.length then some v else b.ctr i' j' := by
  have hi : i < b.ctrs.length := (List.getElem?_eq_some_iff.mp hrow).1
  unfold Batch.ctr
  rw [hc]
  by_cases h1 : i' = i
  · subst h1
    simp only [List.getElem?_set_self, hi, hrow, true_and]
    by_cases h2 : j' = j
    · subst h2
      by_cases h3 : j' < row.length
      · simp [h3]
      · simp only [h3, and_false, if_false]
        rw [List.getElem?_eq_none (by simp only [List.length_set]; omega),
          List.getElem?_eq_none (by omega)]
    · simp [h2, List.getElem?_set, Ne.symm h2]
  · simp [h1, List.getElem?_set, Ne.symm h1]

theorem ctr_same (b b' : Batch) (hc : b'.ctrs = b.ctrs) (i j : Nat) : b'.ctr i j = b.ctr i j := by
  unfold Batch.ctr; rw [hc]

theorem Grid.set_ctr {P C : Nat} {b b' : Batch} (hg : Grid P C b) (i j : Nat)
    (row : List String) (v : String) (hrow : b.ctrs[i]? = some row)
    (hP : b'.PodCount = b.PodCount) (hC : b'.CtrCount = b.CtrCount)
    (hp : b'.pods.length = b.pods.length) (hc : b'.ctrs = b.ctrs.set i (row.set j v)) :
    Grid P C b' := by
  refine ⟨hP ▸ hg.podCount, hC ▸ hg.ctrCount, hp ▸ hg.pods_len, fun k hk => ?_⟩
  obtain ⟨r, hr, hlen⟩ := hg.rows k hk
  have hi : i < b.ctrs.length := (List.getElem?_eq_some_iff.mp hrow).1
  rw [hc]
  by_cases h1 : k = i
  · subst h1
    rw [hrow] at hr
    cases hr
    exact ⟨row.set j v, by simp [hi], by simpa using hlen⟩
  · exact ⟨r, by simpa [List.getElem?_set, Ne.symm h1] using hr, hlen⟩

theorem Grid.same {P C : Nat} {b b' : Batch} (hg : Grid P C b)
    (hP : b'.PodCount = b.PodCount) (hC : b'.CtrCount = b.CtrCount)
    (hp : b'.pods.length = b.pods.length) (hc : b'.ctrs = b.ctrs) : Grid P C b' :=
  ⟨hP ▸ hg.podCount, hC ▸ hg.ctrCount, hp ▸ hg.pods_len, fun k hk => hc ▸ hg.rows k hk⟩

theorem ctr_of_row {b : Batch} {i j : Nat} {row : List String} (hrow : b.ctrs[i]? = some row) :
    b.ctr i j = row[j]? := by
  unfold Batch.ctr; rw [hrow]

theorem createContainersBody_succeeds {σ : Type} (rt : Runtime σ) (hs : Succeeds rt)
    (P C i j : Nat) (pod : String) (e : Exec σ) (hg : Grid P C e.b) (hi : i < P) (hj : j < C) :
    ∃ e', createContainersBody rt i pod j e = .ok e' ∧ Grid P C e'.b ∧
      Counted .CreateContainer 1 e e' ∧ e'.b.pods = e.b.pods ∧
      (∃ c, e'.b.ctr i j = some c ∧ c ≠ "") ∧
      ∀ i' j', ¬ (i' = i ∧ j' = j) → e'.b.ctr i' j' = e.b.ctr i' j' := by
  obtain ⟨row, hrow, hlen⟩ := hg.rows i hi
  have hjr : j < row.length := by omega
  have herr := (hs.createContainer pod ("ctr-" ++ toString j) e.ids.GenUID.1 e.rt).1
  have hh := (hs.createContainer pod ("ctr-" ++ toString j) e.ids.GenUID.1 e.rt).2
  simp only [createContainersBody, hrow, hjr, if_true, herr]
  refine ⟨_, rfl, hg.set_ctr i j row _ hrow rfl rfl rfl rfl,
    ⟨rfl, fun op => by simpa using record_get_length _ _ _ _⟩, rfl, ?_, ?_⟩
  · refine ⟨(rt.CreateContainer pod ("ctr-" ++ toString j) e.ids.GenUID.1 e.rt).1.handle, ?_, hh⟩
    rw [ctr_set e.b _ i j i j row _ hrow rfl]
    simp [hjr]
  · intro i' j' hne
    rw [ctr_set e.b _ i j i' j' row _ hrow rfl]
    have : ¬ (i' = i ∧ j' = j ∧ j < row.length) := fun h => hne ⟨h.1, h.2.1⟩
    simp only [this, if_false]

theorem createContainersPod_succeeds {σ : Type} (rt : Runtime σ) (hs : Succeeds rt)
    (P C i : Nat) (e : Exec σ) (hg : Grid P C e.b) (hi : i < P) :
    ∃ e', createContainersPod rt i e = .ok e' ∧ Grid P C e'.b ∧
      Counted .CreateContainer C e e' ∧ e'.b.pods = e.b.pods ∧
      (∀ j, j < C → ∃ c, e'.b.ctr i j = some c ∧ c ≠ "") ∧
      ∀ i' j', i' ≠ i → e'.b.ctr i' j' = e.b.ctr i' j' := by
  have hlen : i < e.b.pods.length := by rw [hg.pods_len]; exact hi
  obtain ⟨pod, hpod⟩ : ∃ pod, e.b.pods[i]? = some pod := ⟨_, List.getElem?_eq_getElem hlen⟩
  have key := forRange_inv (createContainersBody rt i pod)
    (fun k s => Grid P C s.b ∧ Counted .CreateContainer k e s ∧ s.b.pods = e.b.pods ∧
      (∀ j, j < k → ∃ c, s.b.ctr i j = some c ∧ c ≠ "") ∧
      ∀ i' j', i' ≠ i → s.b.ctr i' j' = e.b.ctr i' j') C
    (by
      rintro j s hj ⟨hgs, hc, hp, hl, hfr⟩
      obtain ⟨s', hb, hg', hc', hp', hlive, hfr'⟩ :=
        createContainersBody_succeeds rt hs P C i j pod s hgs hi hj
      refine ⟨s', hb, hg', hc.add hc', hp'.trans hp, ?_, ?_⟩
      · intro k hk
        by_cases hkj : k = j
        · subst hkj; exact hlive
        · rw [hfr' i k (fun h => hkj h.2)]; exact hl k (by omega)
      · intro i' j' hne
        rw [hfr' i' j' (fun h => hne h.1)]; exact hfr i' j' hne)
    C 0 e (by omega)
    ⟨hg, Counted.zero _ _, rfl, fun j hj => absurd hj (Nat.not_lt_zero j), fun _ _ _ => rfl⟩
  obtain ⟨s', hrun, hg', hc, hp, hl, hfr⟩ := key
  refine ⟨s', ?_, hg', by simpa using hc, hp, fun j hj => hl j (by simpa using hj), hfr⟩
  simp only [createContainersPod, hpod, hg.ctrCount, hrun]

theorem createContainers_succeeds {σ : Type} (rt : Runtime σ) (hs : Succeeds rt) (P C : Nat)
    (e : Exec σ) (hg : Grid P C e.b) :
    ∃ e', Batch.createContainers rt e = .ok e' ∧ Grid P C e'.b ∧
      Counted .CreateContainer (P * C) e e' ∧ e'.b.pods = e.b.pods ∧ CtrsLive P C e'.b := by
  have key := forRange_inv (createContainersPod rt)
    (fun k s => Grid P C s.b ∧ Counted .CreateContainer (k * C) e s ∧ s.b.pods = e.b.pods ∧
      ∀ i j, i < k → j < C → ∃ c, s.b.ctr i j = some c ∧ c ≠ "") P
    (by
      rintro i s hi ⟨hgs, hc, hp, hl⟩
      obtain ⟨s', hb, hg', hc', hp', hlive, hfr⟩ :=
        createContainersPod_succeeds rt hs P C i s hgs hi
      refine ⟨s', hb, hg', ?_, hp'.trans hp, ?_⟩
      · have := hc.add hc'
        rwa [show i * C + C = (i + 1) * C by ring] at this
      · intro k j hk hj
        by_cases hki : k = i
        · subst hki; exact hlive j hj
        · rw [hfr k j hki]; exact hl k j (by omega) hj)
    P 0 e (by omega)
    ⟨hg, by simpa using Counted.zero _ e, rfl, fun i _ hi => absurd hi (Nat.not_lt_zero i)⟩
  obtain ⟨s', hrun, hg', hc, hp, hl⟩ := key
  refine ⟨s', ?_, hg', by simpa using hc, hp, fun i j hi hj => hl i j (by simpa using hi) hj⟩
  simp only [Batch.createContainers, hg.pods_len, hrun]

theorem containerStep_succeeds {σ : Type} (op : Op) (call : String → σ → Status × σ)
    (slot : String → String) (hcall : ∀ h s, (call h s).1.err = none)
    (P C i j : Nat) (e : Exec σ) (hg : Grid P C e.b) (hi : i < P) (c : String)
    (hlive : e.b.ctr i j = some c) (hc : c ≠ "") :
    ∃ e', containerStep op call slot i j e = .ok e' ∧ Grid P C e'.b ∧ Counted op 1 e e' ∧
      e'.b.pods = e.b.pods ∧ e'.b.ctr i j = some (slot c) ∧
      ∀ i' j', ¬ (i' = i ∧ j' = j) → e'.b.ctr i' j' = e.b.ctr i' j' := by
  obtain ⟨row, hrow, hlen⟩ := hg.rows i hi
  rw [ctr_of_row hrow] at hlive
  have hjr : j < row.length := (List.getElem?_eq_some_iff.mp hlive).1
  simp only [containerStep, hrow, hlive, hc, if_false, hcall]
  refine ⟨_, rfl, hg.set_ctr i j row _ hrow rfl rfl rfl rfl,
    ⟨rfl, fun k => by simpa using record_get_length _ _ _ _⟩, rfl, ?_, ?_⟩
  · rw [ctr_set e.b _ i j i j row _ hrow rfl]
    simp [hjr]
  · intro i' j' hne
    rw [ctr_set e.b _ i j i' j' row _ hrow rfl]
    have : ¬ (i' = i ∧ j' = j ∧ j < row.length) := fun h => hne ⟨h.1, h.2.1⟩
    simp only [this, if_false]

theorem containerRow_succeeds {σ : Type} (op : Op) (call : String → σ → Status × σ)
    (slot : String → String) (hcall : ∀ h s, (call h s).1.err = none)
    (P C i : Nat) (e : Exec σ) (hg : Grid P C e.b) (hi : i < P)
    (hpods : PodsLive e.b) (hctrs : ∀ j, j < C → ∃ c, e.b.ctr i j = some c ∧ c ≠ "") :
    ∃ e', containerRow op call slot i e = .ok e' ∧ Grid P C e'.b ∧ Counted op C e e' ∧
      e'.b.pods = e.b.pods ∧
      (∀ i' j', i' ≠ i → e'.b.ctr i' j' = e.b.ctr i' j') ∧
      ∀ j, j < C → e'.b.ctr i j = (e.b.ctr i j).map slot := by
  have hlen : i < e.b.pods.length := by rw [hg.pods_len]; exact hi
  obtain ⟨pod, hpod⟩ : ∃ pod, e.b.pods[i]? = some pod := ⟨_, List.getElem?_eq_getElem hlen⟩
  have hne : pod ≠ "" := hpods i pod hpod
  obtain ⟨row, hrow, hrlen⟩ := hg.rows i hi
  have key := forRange_inv (containerStep op call slot i)
    (fun k s => Grid P C s.b ∧ Counted op k e s ∧ s.b.pods = e.b.pods ∧
      (∀ i' j', (i' ≠ i ∨ k ≤ j') → s.b.ctr i' j' = e.b.ctr i' j') ∧
      ∀ j, j < k → s.b.ctr i j = (e.b.ctr i j).map slot) C
    (by
      rintro j s hj ⟨hgs, hc, hp, hfr, hdone⟩
      obtain ⟨c, hcj, hcne⟩ := hctrs j hj
      have hsj : s.b.ctr i j = some c := by rw [hfr i j (Or.inr (le_refl j))]; exact hcj
      obtain ⟨s', hb, hg', hc', hp', hset, hfr'⟩ :=
        containerStep_succeeds op call slot hcall P C i j s hgs hi c hsj hcne
      refine ⟨s', hb, hg', hc.add hc', hp'.trans hp, ?_, ?_⟩
      · intro i' j' h
        have hne' : ¬ (i' = i ∧ j' = j) := by
          rintro ⟨h1, h2⟩
          rcases h with h | h
          · exact h h1
          · omega
        rw [hfr' i' j' hne']
        exact hfr i' j' (by rcases h with h | h; exact Or.inl h; exact Or.inr (by omega))
      · intro k hk
        by_cases hkj : k = j
        · subst hkj; rw [hset, hcj]; rfl
        · rw [hfr' i k (fun h => hkj h.2)]; exact hdone k (by omega))
    C 0 e (by omega)
    ⟨hg, Counted.zero _ _, rfl, fun _ _ _ => rfl, fun j hj => absurd hj (Nat.not_lt_zero j)⟩
  obtain ⟨s', hrun, hg', hc, hp, hfr, hdone⟩ := key
  refine ⟨s', ?_, hg', by simpa using hc, hp, fun i' j' h => hfr i' j' (Or.inl h),
    fun j hj => hdone j (by simpa using hj)⟩
  simp only [containerRow, hpod, hne, if_false, hrow, hrlen, hrun]

theorem containerPhase_succeeds {σ : Type} (op : Op) (call : String → σ → Status × σ)
    (slot : String → String) (hcall : ∀ h s, (call h s).1.err = none)
    (P C : Nat) (e : Exec σ) (hg : Grid P C e.b) (hpods : PodsLive e.b)
    (hctrs : CtrsLive P C e.b) :
    ∃ e', forRange (containerRow op call slot) 0 e.b.pods.length e = .ok e' ∧ Grid P C e'.b ∧
      Counted op (P * C) e e' ∧ e'.b.pods = e.b.pods ∧
      ∀ i j, i < P → j < C → e'.b.ctr i j = (e.b.ctr i j).map slot := by
  have key := forRange_inv (containerRow op call slot)
    (fun k s => Grid P C s.b ∧ Counted op (k * C) e s ∧ s.b.pods = e.b.pods ∧
      (∀ i j, k ≤ i → s.b.ctr i j = e.b.ctr i j) ∧
      ∀ i j, i < k → j < C → s.b.ctr i j = (e.b.ctr i j).map slot) P
    (by
      rintro i s hi ⟨hgs, hc, hp, hfr, hdone⟩
      have hpl : PodsLive s.b := by unfold PodsLive; rw [hp]; exact hpods
      have hrowlive : ∀ j, j < C → ∃ c, s.b.ctr i j = some c ∧ c ≠ "" := fun j hj => by
        rw [hfr i j (le_refl i)]; exact hctrs i j hi hj
      obtain ⟨s', hb, hg', hc', hp', hfr', hrow⟩ :=
        containerRow_succeeds op call slot hcall P C i s hgs hi hpl hrowlive
      refine ⟨s', hb, hg', ?_, hp'.trans hp, ?_, ?_⟩
      · have := hc.add hc'
        rwa [show i * C + C = (i + 1) * C by ring] at this
      · intro k j hk
        rw [hfr' k j (by omega)]; exact hfr k j (by omega)
      · intro k j hk hj
        by_cases hki : k = i
        · subst hki; rw [hrow j hj, hfr k j (le_refl k)]
        · rw [hfr' k j hki]; exact hdone k j (by omega) hj)
    P 0 e (by omega)
    ⟨hg, by simpa using Counted.zero _ e, rfl, fun _ _ _ => rfl,
      fun i _ hi => absurd hi (Nat.not_lt_zero i)⟩
  obtain ⟨s', hrun, hg', hc, hp, -, hdone⟩ := key
  refine ⟨s', ?_, hg', by simpa using hc, hp, fun i j hi hj => hdone i j (by simpa using hi) hj⟩
  simp only [hg.pods_len, hrun]

theorem podStep_succeeds {σ : Type} (op : Op) (call : String → σ → Status × σ) (clear : Bool)
    (hcall : ∀ h s, (call h s).1.err = none)
    (P C : Nat) (e : Exec σ) (hg : Grid P C e.b) (hpods : PodsLive e.b) :
    ∃ e', forRange (podStep op call clear) 0 e.b.pods.length e = .ok e' ∧ Grid P C e'.b ∧
      Counted op P e e' ∧ (clear = false → e'.b.pods = e.b.pods) ∧ e'.b.ctrs = e.b.ctrs := by
  have key := forRange_inv (podStep op call clear)
    (fun k s => Grid P C s.b ∧ Counted op k e s ∧ (clear = false → s.b.pods = e.b.pods) ∧
      s.b.ctrs = e.b.ctrs ∧ ∀ i, k ≤ i → s.b.pods[i]? = e.b.pods[i]?) P
    (by
      rintro i s hi ⟨hgs, hc, hp, hct, hfr⟩
      have hlen : i < e.b.pods.length := by rw [hg.pods_len]; exact hi
      obtain ⟨pod, hpod⟩ : ∃ pod, e.b.pods[i]? = some pod := ⟨_, List.getElem?_eq_getElem hlen⟩
      have hne : pod ≠ "" := hpods i pod hpod
      have hspod : s.b.pods[i]? = some pod := by rw [hfr i (le_refl i)]; exact hpod
      simp only [podStep, hspod, hne, if_false, hcall]
      refine ⟨_, rfl, hgs.same rfl rfl ?_ rfl, Counted.add hc
        ⟨rfl, fun k => by simpa using record_get_length _ _ _ _⟩, ?_, hct, ?_⟩
      · cases clear <;> simp
      · intro h; subst h; simpa using hp rfl
      · intro k hk
        cases clear
        · simpa using hfr k (by omega)
        · have : i ≠ k := by omega
          simpa [List.getElem?_set, this] using hfr k (by omega))
    P 0 e (by omega) ⟨hg, Counted.zero _ _, fun _ => rfl, rfl, fun _ _ => rfl⟩
  obtain ⟨s', hrun, hg', hc, hp, hct, -⟩ := key
  refine ⟨s', ?_, hg', by simpa using hc, hp, hct⟩
  simp only [hg.pods_len, hrun]

theorem Counted.get_length {σ : Type} {K : Op} {n : Nat} {e e' : Exec σ} (h : Counted K n e e')
    (op : Op) :
    (e'.b.latency.get op).length = (e.b.latency.get op).length + if op = K then n else 0 :=
  h.2 op

theorem CtrsLive.of_id {P C : Nat} {b b' : Batch} (h : CtrsLive P C b)
    (hid : ∀ i j, i < P → j < C → b'.ctr i j = (b.ctr i j).map id) : CtrsLive P C b' := by
  intro i j hi hj
  obtain ⟨c, hc, hne⟩ := h i j hi hj
  exact ⟨c, by rw [hid i j hi hj, hc]; rfl, hne⟩

theorem PodsLive.of_eq {b b' : Batch} (h : PodsLive b) (hp : b'.pods = b.pods) : PodsLive b' := by
  unfold PodsLive; rw [hp]; exact h

theorem round_succeeds {σ : Type} (rt : Runtime σ) (hs : Succeeds rt) (P C : Nat)
    (e : Exec σ) (hg : Grid P C e.b) :
    ∃ e', Batch.round rt e = .ok e' ∧ Grid P C e'.b ∧ e'.b.errors = e.b.errors ∧
      ∀ op, (e'.b.latency.get op).length = (e.b.latency.get op).length + perRound P C op := by
  obtain ⟨e1, r1, g1, c1, pl1⟩ := createPods_succeeds rt hs P C e hg
  obtain ⟨e2, r2, g2, c2, p2, cl2⟩ := createContainers_succeeds rt hs P C e1 g1
  have pl2 : PodsLive e2.b := pl1.of_eq p2
  obtain ⟨e3, r3, g3, c3, p3, m3⟩ := containerPhase_succeeds .StartContainer rt.StartContainer id
    hs.startContainer P C e2 g2 pl2 cl2
  have pl3 : PodsLive e3.b := pl2.of_eq p3
  have cl3 : CtrsLive P C e3.b := cl2.of_id m3
  obtain ⟨e4, r4, g4, c4, p4, m4⟩ := containerPhase_succeeds .StopContainer rt.StopContainer id
    hs.stopContainer P C e3 g3 pl3 cl3
  have pl4 : PodsLive e4.b := pl3.of_eq p4
  have cl4 : CtrsLive P C e4.b := cl3.of_id m4
  obtain ⟨e5, r5, g5, c5, p5, -⟩ := containerPhase_succeeds .RemoveContainer
    rt.RemoveContainer (fun _ => "") hs.removeContainer P C e4 g4 pl4 cl4
  have pl5 : PodsLive e5.b := pl4.of_eq p5
  obtain ⟨e6, r6, g6, c6, p6, -⟩ := podStep_succeeds .StopPodSandbox rt.StopPod false
    hs.stopPod P C e5 g5 pl5
  have pl6 : PodsLive e6.b := pl5.of_eq (p6 rfl)
  obtain ⟨e7, r7, g7, c7, -, -⟩ := podStep_succeeds .RemovePodSandbox rt.RemovePod true
    hs.removePod P C e6 g6 pl6
  refine ⟨e7, ?_, g7, ?_, ?_⟩
  · simp only [Batch.round, Batch.afterCreatePods, Batch.startContainers, Batch.stopContainers,
      Batch.removeContainers, Batch.stopPods, Batch.removePods, bind, Except.bind,
      r1, r2, r3, r4, r5, r6, r7]
  · rw [c7.1, c6.1, c5.1, c4.1, c3.1, c2.1, c1.1]
  · intro op
    rw [c7.2 op, c6.2 op, c5.2 op, c4.2 op, c3.2 op, c2.2 op, c1.2 op]
    cases op <;> simp [perRound]

theorem rounds_succeeds {σ : Type} (rt : Runtime σ) (hs : Succeeds rt) (P C : Nat)
    (e : Exec σ) (hg : Grid P C e.b) :
    ∃ e', Batch.rounds rt e = .ok e' ∧ Grid P C e'.b ∧ e'.b.errors = e.b.errors ∧
      ∀ op, (e'.b.latency.get op).length
        = (e.b.latency.get op).length + e.b.Rounds.toNat * perRound P C op := by
  have key := forRange_inv (fun _ s => Batch.round rt s)
    (fun k s => Grid P C s.b ∧ s.b.errors = e.b.errors ∧
      ∀ op, (s.b.latency.get op).length = (e.b.latency.get op).length + k * perRound P C op)
    e.b.Rounds.toNat
    (by
      rintro r s - ⟨hgs, he, hl⟩
      obtain ⟨s', hr, hg', he', hl'⟩ := round_succeeds rt hs P C s hgs
      refine ⟨s', hr, hg', he'.trans he, fun op => ?_⟩
      rw [hl' op, hl op]; ring)
    e.b.Rounds.toNat 0 e (by omega) ⟨hg, rfl, fun op => by simp⟩
  obtain ⟨s', hrun, hg', he, hl⟩ := key
  exact ⟨s', hrun, hg', he, fun op => by simpa using hl op⟩

theorem appendRow_loop (b : Batch) (n : Nat) (hC : 0 ≤ b.CtrCount) :
    forRange (fun _ b2 => appendRow b2) 0 n b
      = .ok { b with ctrs := b.ctrs ++ List.replicate n (List.replicate b.CtrCount.toNat "") } := by
  have key := forRange_inv (fun _ b2 => appendRow b2)
    (fun k s => s = { b with
      ctrs := b.ctrs ++ List.replicate k (List.replicate b.CtrCount.toNat "") }) n
    (by
      rintro k s - rfl
      refine ⟨_, ?_, rfl⟩
      simp only [appendRow, makeStrings, not_lt.mpr hC, if_false, List.replicate_succ',
        List.append_assoc])
    n 0 b (by omega) (by simp)
  obtain ⟨s', hrun, hs'⟩ := key
  rw [hrun, hs']; simp

theorem allocate_ok (b : Batch) (hP : 0 ≤ b.PodCount) (hC : 0 ≤ b.CtrCount) :
    Batch.allocate b = .ok { b with
      pods := List.replicate b.PodCount.toNat ""
      ctrs := b.ctrs ++ List.replicate (b.PodCount.toNat * b.CtrCount.toNat)
        (List.replicate b.CtrCount.toNat "") } := by
  have key := forRange_inv
    (fun _ b1 => forRange (fun _ b2 => appendRow b2) 0 b1.CtrCount.toNat b1)
    (fun k s => s = { b with
      pods := List.replicate b.PodCount.toNat ""
      ctrs := b.ctrs ++ List.replicate (k * b.CtrCount.toNat)
        (List.replicate b.CtrCount.toNat "") }) b.PodCount.toNat
    (by
      rintro k s - rfl
      refine ⟨_, appendRow_loop _ _ hC, ?_⟩
      simp only [List.append_assoc, ← List.replicate_add]
      rw [show k * b.CtrCount.toNat + b.CtrCount.toNat = (k + 1) * b.CtrCount.toNat by ring])
    b.PodCount.toNat 0 { b with pods := List.replicate b.PodCount.toNat "" } (by omega) (by simp)
  obtain ⟨s', hrun, hs'⟩ := key
  simp only [Batch.allocate, makeStrings, not_lt.mpr hP, if_false, hrun, hs']
  simp

theorem configure_nonzero (b : Batch) (hP : b.PodCount ≠ 0) (hC : b.CtrCount ≠ 0)
    (hR : b.Rounds ≠ 0) :
    (Batch.configure b).PodCount = b.PodCount ∧ (Batch.configure b).CtrCount = b.CtrCount ∧
    (Batch.configure b).Rounds = b.Rounds ∧ (Batch.configure b).ctrs = b.ctrs ∧
    (Batch.configure b).latency = b.latency ∧ (Batch.configure b).errors = [] := by
  unfold Batch.configure
  by_cases hn : b.Namespace = "" <;> simp [hn, hP, hC, hR]

/-- C1: a batch with `P ≥ 1` pods, `C ≥ 1` containers per pod and `R ≥ 1` rounds, on
which `Run` is called for the first time (no rows allocated yet) with an empty
latency collection, against a runtime in which every call succeeds with a
non-empty handle: the run completes, the three pod sequences hold `P*R` samples
each, the four container sequences hold `P*C*R` samples each, and the error list
is empty. -/
theorem Run_sample_counts_without_failures {σ : Type} (rt : Runtime σ) (hs : Succeeds rt)
    (e : Exec σ) (hP : 1 ≤ e.b.PodCount) (hC : 1 ≤ e.b.CtrCount) (hR : 1 ≤ e.b.Rounds)
    (hfresh : e.b.ctrs = []) (hlat : e.b.latency = {}) :
    ∃ e', Batch.Run rt e = .ok e' ∧
      (e'.b.latency.RunPodSandbox.length : Int) = e.b.PodCount * e.b.Rounds ∧
      (e'.b.latency.StopPodSandbox.length : Int) = e.b.PodCount * e.b.Rounds ∧
      (e'.b.latency.RemovePodSandbox.length : Int) = e.b.PodCount * e.b.Rounds ∧
      (e'.b.latency.CreateContainer.length : Int) = e.b.PodCount * e.b.CtrCount * e.b.Rounds ∧
      (e'.b.latency.StartContainer.length : Int) = e.b.PodCount * e.b.CtrCount * e.b.Rounds ∧
      (e'.b.latency.StopContainer.length : Int) = e.b.PodCount * e.b.CtrCount * e.b.Rounds ∧
      (e'.b.latency.RemoveContainer.length : Int) = e.b.PodCount * e.b.CtrCount * e.b.Rounds ∧
      e'.b.errors = [] := by
  obtain ⟨cP, cC, cR, cctrs, clat, cerr⟩ :=
    configure_nonzero e.b (by omega) (by omega) (by omega)
  set P := e.b.PodCount.toNat with hPdef
  set C := e.b.CtrCount.toNat with hCdef
  have hPpos : 1 ≤ P := by omega
  have hCpos : 1 ≤ C := by omega
  obtain ⟨b1, halloc, bP, bC, bR, bpods, bctrs, blat, berr⟩ :
      ∃ b1, Batch.allocate (Batch.configure e.b) = .ok b1 ∧ b1.PodCount = e.b.PodCount ∧
        b1.CtrCount = e.b.CtrCount ∧ b1.Rounds = e.b.Rounds ∧
        b1.pods = List.replicate P "" ∧
        b1.ctrs = List.replicate (P * C) (List.replicate C "") ∧
        b1.latency = {} ∧ b1.errors = [] :=
    ⟨_, allocate_ok (Batch.configure e.b) (by rw [cP]; omega) (by rw [cC]; omega),
      cP, cC, cR, by simp only [cP], by simp only [cP, cC, cctrs, hfresh, List.nil_append],
      by simp only [clat, hlat], cerr⟩
  have hprep : Batch.prepare e = .ok { e with b := b1 } := by
    simp only [Batch.prepare, halloc]
  have hg : Grid P C b1 := by
    refine ⟨bP ▸ rfl, bC ▸ rfl, by simp [bpods], fun i hi => ⟨List.replicate C "", ?_, by simp⟩⟩
    have : i < P * C := lt_of_lt_of_le hi (Nat.le_mul_of_pos_right P hCpos)
    simp [bctrs, List.getElem?_replicate, this]
  obtain ⟨e', hrun, -, herr, hlen⟩ := rounds_succeeds rt hs P C { e with b := b1 } hg
  have hR' : b1.Rounds.toNat = e.b.Rounds.toNat := by rw [bR]
  have hl0 : ∀ op, (b1.latency.get op).length = 0 := by
    intro op
    rw [blat]; cases op <;> rfl
  have hcount : ∀ op, ((e'.b.latency.get op).length : Int)
      = (e.b.Rounds.toNat : Int) * (perRound P C op : Int) := by
    intro op
    have := hlen op
    simp only [hl0, hR', zero_add] at this
    rw [this]; push_cast; rfl
  have hPi : (P : Int) = e.b.PodCount := Int.toNat_of_nonneg (by omega)
  have hCi : (C : Int) = e.b.CtrCount := Int.toNat_of_nonneg (by omega)
  have hRi : (e.b.Rounds.toNat : Int) = e.b.Rounds := Int.toNat_of_nonneg (by omega)
  refine ⟨e', ?_, ?_, ?_, ?_, ?_, ?_, ?_, ?_, ?_⟩
  · simp only [Batch.Run, hprep, bind, Except.bind, hrun]
  · have := hcount .RunPodSandbox
    simp only [RuntimeLatency.get, perRound, hRi, hPi] at this
    rw [this]; ring
  · have := hcount .StopPodSandbox
    simp only [RuntimeLatency.get, perRound, hRi, hPi] at this
    rw [this]; ring
  · have := hcount .RemovePodSandbox
    simp only [RuntimeLatency.get, perRound, hRi, hPi] at this
    rw [this]; ring
  · have := hcount .CreateContainer
    simp only [RuntimeLatency.get, perRound, hRi, Nat.cast_mul, hPi, hCi] at this
    rw [this]; ring
  · have := hcount .StartContainer
    simp only [RuntimeLatency.get, perRound, hRi, Nat.cast_mul, hPi, hCi] at this
    rw [this]; ring
  · have := hcount .StopContainer
    simp only [RuntimeLatency.get, perRound, hRi, Nat.cast_mul, hPi, hCi] at this
    rw [this]; ring
  · have := hcount .RemoveContainer
    simp only [RuntimeLatency.get, perRound, hRi, Nat.cast_mul, hPi, hCi] at this
    rw [this]; ring
  · rw [herr]; exact berr

theorem okRuntime_succeeds : Succeeds okRuntime := by
  constructor <;> intros <;> simp [okRuntime]

/-- Witness for C1: `batch0` (1 pod, 1 container, 2 rounds) on `okRuntime`. -/
theorem Run_sample_counts_without_failures_witness :
    ∃ e', Batch.Run okRuntime exec0 = .ok e' ∧
      (e'.b.latency.RunPodSandbox.length : Int) = exec0.b.PodCount * exec0.b.Rounds ∧
      (e'.b.latency.StopPodSandbox.length : Int) = exec0.b.PodCount * exec0.b.Rounds ∧
      (e'.b.latency.RemovePodSandbox.length : Int) = exec0.b.PodCount * exec0.b.Rounds ∧
      (e'.b.latency.CreateContainer.length : Int)
        = exec0.b.PodCount * exec0.b.CtrCount * exec0.b.Rounds ∧
      (e'.b.latency.StartContainer.length : Int)
        = exec0.b.PodCount * exec0.b.CtrCount * exec0.b.Rounds ∧
      (e'.b.latency.StopContainer.length : Int)
        = exec0.b.PodCount * exec0.b.CtrCount * exec0.b.Rounds ∧
      (e'.b.latency.RemoveContainer.length : Int)
        = exec0.b.PodCount * exec0.b.CtrCount * exec0.b.Rounds ∧
      e'.b.errors = [] :=
  Run_sample_counts_without_failures okRuntime okRuntime_succeeds exec0
    (by decide) (by decide) (by decide) rfl rfl

/-! ## createPods under any runtime -/

theorem createPodAttempts_spec {σ : Type} (rt : Runtime σ) (name uid : String) (i : Nat) :
    ∀ (n : Nat) (v : PodVars) (e : Exec σ), ∃ (k : Nat) (samples : List Latency) (s' : σ),
      k ≤ n ∧
      (createPodAttempts rt name uid i n v e).2 =
        { e with
          rt := s'
          trace := e.trace ++ (List.replicate k ⟨.RunPodSandbox, i, none, false⟩ ++
            if k < n then [⟨.RunPodSandbox, i, none, true⟩] else [])
          b.latency.RunPodSandbox := e.b.latency.RunPodSandbox ++ samples
          b.retries.RunPodSandbox := e.b.retries.RunPodSandbox + k } ∧
      samples.length = (if k < n then 1 else 0) ∧
      (k < n → (createPodAttempts rt name uid i n v e).1.err = none) ∧
      (0 < n → k = n → ∃ m, (createPodAttempts rt name uid i n v e).1.err = some m) ∧
      (0 < n → k = n → FailedCreatePodIsEmpty rt →
        (createPodAttempts rt name uid i n v e).1.pod = "") := by
  intro n
  induction n with
  | zero =>
    intro v e
    exact ⟨0, [], e.rt, le_refl 0, by simp [createPodAttempts], rfl,
      fun h => absurd h (Nat.lt_irrefl 0), fun h => absurd h (Nat.lt_irrefl 0),
      fun h => absurd h (Nat.lt_irrefl 0)⟩
  | succ n ih =>
    intro v e
    rcases herr : (rt.CreatePod e.b.Namespace name uid e.rt).1.err with _ | m
    · refine ⟨0, [(rt.CreatePod e.b.Namespace name uid e.rt).1.elapsed],
        (rt.CreatePod e.b.Namespace name uid e.rt).2, Nat.zero_le _, ?_, by simp, ?_, ?_, ?_⟩
      · simp [createPodAttempts, herr, RuntimeLatency.record]
      · intro _; simp [createPodAttempts, herr]
      · intro _ h; omega
      · intro _ h; omega
    · obtain ⟨k, samples, s', hk, hstate, hlen, hnone, hsome, hempty⟩ := ih
        ⟨(rt.CreatePod e.b.Namespace name uid e.rt).1.handle, some m⟩
        { e with
          rt := (rt.CreatePod e.b.Namespace name uid e.rt).2
          trace := e.trace ++ [⟨.RunPodSandbox, i, none, false⟩]
          b.retries.RunPodSandbox := e.b.retries.RunPodSandbox + 1 }
      have hunf : createPodAttempts rt name uid i (n + 1) v e =
          createPodAttempts rt name uid i n
            ⟨(rt.CreatePod e.b.Namespace name uid e.rt).1.handle, some m⟩
            { e with
              rt := (rt.CreatePod e.b.Namespace name uid e.rt).2
              trace := e.trace ++ [⟨.RunPodSandbox, i, none, false⟩]
              b.retries.RunPodSandbox := e.b.retries.RunPodSandbox + 1 } := by
        simp [createPodAttempts, herr]
      rw [hunf]
      refine ⟨k + 1, samples, s', by omega, ?_, ?_, ?_, ?_, ?_⟩
      · rw [hstate]
        simp [List.replicate_succ, Nat.add_assoc, Nat.add_comm 1 k]
      · simpa using hlen
      · intro h; exact hnone (by omega)
      · intro _ h
        rcases Nat.eq_zero_or_pos n with h0 | hpos
        · subst h0
          exact ⟨m, by simp [createPodAttempts]⟩
        · exact hsome hpos (by omega)
      · intro _ h hconv
        rcases Nat.eq_zero_or_pos n with h0 | hpos
        · subst h0
          simp only [createPodAttempts]
          exact hconv _ _ _ _ (by rw [herr]; simp)
        · exact hempty hpos (by omega) hconv

theorem createPodsBody_spec {σ : Type} (rt : Runtime σ) (i : Nat) (v : PodVars) (e : Exec σ)
    (hi : i < e.b.pods.length) :
    ∃ (k : Nat) (samples : List Latency) (errs : List BatchError) (s' : σ) (v' : PodVars),
      k ≤ maxRetries ∧
      createPodsBody rt i (v, e) = .ok (v',
        { e with
          rt := s'
          ids := e.ids.GenUID.2
          trace := e.trace ++ attemptCalls i k
          b.latency.RunPodSandbox := e.b.latency.RunPodSandbox ++ samples
          b.retries.RunPodSandbox := e.b.retries.RunPodSandbox + k
          b.pods := e.b.pods.set i v'.pod
          b.errors := e.b.errors ++ errs }) ∧
      samples.length = (if k < maxRetries then 1 else 0) ∧
      (k < maxRetries → errs = []) ∧
      (k = maxRetries → ∃ m, errs = [⟨.RunPodSandbox, i, none, m⟩]) ∧
      (k = maxRetries → FailedCreatePodIsEmpty rt → v'.pod = "") := by
  obtain ⟨k, samples, s', hk, hstate, hlen, hnone, hsome, hempty⟩ :=
    createPodAttempts_spec rt (e.b.BatchName ++ "-" ++ toString i) e.ids.GenUID.1 i maxRetries v
      { e with ids := e.ids.GenUID.2 }
  have hpos : 0 < maxRetries := by decide
  have hlen' : i < (createPodAttempts rt (e.b.BatchName ++ "-" ++ toString i) e.ids.GenUID.1 i
      maxRetries v { e with ids := e.ids.GenUID.2 }).2.b.pods.length := by
    rw [hstate]; exact hi
  rcases Nat.lt_or_ge k maxRetries with hlt | hge
  · have herr := hnone hlt
    refine ⟨k, samples, [], s',
      (createPodAttempts rt (e.b.BatchName ++ "-" ++ toString i) e.ids.GenUID.1 i
        maxRetries v { e with ids := e.ids.GenUID.2 }).1,
      hk, ?_, hlen, fun _ => rfl, fun h => by omega, fun h => by omega⟩
    simp only [createPodsBody, hlen', if_true, herr]
    rw [hstate]
    simp [attemptCalls]
  · have hkeq : k = maxRetries := by omega
    obtain ⟨m, herr⟩ := hsome hpos hkeq
    refine ⟨k, samples, [⟨.RunPodSandbox, i, none, m⟩], s',
      ⟨(createPodAttempts rt (e.b.BatchName ++ "-" ++ toString i) e.ids.GenUID.1 i
        maxRetries v { e with ids := e.ids.GenUID.2 }).1.pod,
        some (BatchError.message ⟨.RunPodSandbox, i, none, m⟩)⟩,
      hk, ?_, hlen, fun h => by omega, fun _ => ⟨m, rfl⟩,
      fun _ hconv => hempty hpos hkeq hconv⟩
    simp only [createPodsBody, hlen', if_true, herr]
    rw [hstate]
    simp [attemptCalls]

theorem attemptCalls_length (i k : Nat) (hk : k ≤ maxRetries) :
    1 ≤ (attemptCalls i k).length ∧ (attemptCalls i k).length ≤ maxRetries := by
  unfold attemptCalls
  unfold maxRetries at *
  by_cases h : k < 3
  · simp only [h, if_true, List.length_append, List.length_replicate, List.length_singleton]
    omega
  · simp only [h, if_false, List.length_append, List.length_replicate, List.length_nil]
    omega

theorem attemptCalls_ok_count (i k : Nat) :
    ((attemptCalls i k).filter (fun c => c.ok)).length = if k < maxRetries then 1 else 0 := by
  unfold attemptCalls
  by_cases h : k < maxRetries <;> simp [h, List.filter_replicate]

theorem attemptCalls_mem {i k : Nat} {c : Call} (h : c ∈ attemptCalls i k) :
    c.op = .RunPodSandbox ∧ c.pod = i ∧ c.ctr = none := by
  unfold attemptCalls at h
  rcases List.mem_append.mp h with h | h
  · rw [List.eq_of_mem_replicate h]; exact ⟨rfl, rfl, rfl⟩
  · by_cases hk : k < maxRetries
    · simp only [hk, if_true, List.mem_singleton] at h
      rw [h]; exact ⟨rfl, rfl, rfl⟩
    · simp [hk] at h

/-- C3: the iteration of `createPods` for a pod index `i` (a slot of `b.pods`),
whatever the runtime answers: for some number `k ≤ 3` of failed attempts, the
`CreatePod` calls made are `k` failures followed by one success when `k < 3` and
by nothing when `k = 3` (so between 1 and 3 calls, none after a success); the
retry counter grows by `k`; one sample is appended to `RunPodSandbox` when `k < 3`
and none when `k = 3`; one error is appended when `k = 3` and none otherwise. -/
theorem createPods_retry_policy {σ : Type} (rt : Runtime σ) (i : Nat) (v : PodVars)
    (e : Exec σ) (hi : i < e.b.pods.length) :
    ∃ (s' : PodVars × Exec σ) (k : Nat) (samples : List Latency) (errs : List BatchError),
      createPodsBody rt i (v, e) = .ok s' ∧ k ≤ 3 ∧
      s'.2.trace = e.trace ++ attemptCalls i k ∧
      1 ≤ (attemptCalls i k).length ∧ (attemptCalls i k).length ≤ 3 ∧
      (∀ c ∈ (attemptCalls i k).dropLast, c.ok = false) ∧
      ((attemptCalls i k).filter (fun c => !c.ok)).length = k ∧
      s'.2.b.retries.RunPodSandbox = e.b.retries.RunPodSandbox + k ∧
      s'.2.b.latency.RunPodSandbox = e.b.latency.RunPodSandbox ++ samples ∧
      samples.length = (if k < 3 then 1 else 0) ∧
      s'.2.b.errors = e.b.errors ++ errs ∧
      errs.length = (if k = 3 then 1 else 0) := by
  obtain ⟨k, samples, errs, s', v', hk, hrun, hlen, hnil, herr, -⟩ :=
    createPodsBody_spec rt i v e hi
  have hk3 : k ≤ 3 := hk
  refine ⟨_, k, samples, errs, hrun, hk3, rfl, (attemptCalls_length i k hk).1,
    (attemptCalls_length i k hk).2, ?_, ?_, rfl, rfl, hlen, rfl, ?_⟩
  · intro c hc
    unfold attemptCalls at hc
    by_cases h : k < maxRetries
    · simp only [h, if_true, List.dropLast_concat] at hc
      rw [List.eq_of_mem_replicate hc]
    · simp only [h, if_false, List.append_nil] at hc
      rw [List.eq_of_mem_replicate (List.mem_of_mem_dropLast hc)]
  · unfold attemptCalls
    by_cases h : k < maxRetries <;> simp [h, List.filter_replicate]
  · by_cases h : k < maxRetries
    · rw [hnil h]
      have : k ≠ 3 := by unfold maxRetries at h; omega
      simp [this]
    · have hk' : k = maxRetries := by omega
      obtain ⟨m, hm⟩ := herr hk'
      rw [hm]
      have : k = 3 := hk'
      simp [this]

/-- Witness for C3: pod index 0 of `batch0`, allocated, on `noPodsRuntime`. -/
theorem createPods_retry_policy_witness :
    ∃ (s' : PodVars × Exec Unit) (k : Nat) (samples : List Latency) (errs : List BatchError),
      createPodsBody noPodsRuntime 0 ({}, { exec0 with b.pods := [""] }) = .ok s' ∧ k ≤ 3 ∧
      s'.2.trace = [] ++ attemptCalls 0 k ∧
      1 ≤ (attemptCalls 0 k).length ∧ (attemptCalls 0 k).length ≤ 3 ∧
      (∀ c ∈ (attemptCalls 0 k).dropLast, c.ok = false) ∧
      ((attemptCalls 0 k).filter (fun c => !c.ok)).length = k ∧
      s'.2.b.retries.RunPodSandbox = 0 + k ∧
      s'.2.b.latency.RunPodSandbox = [] ++ samples ∧
      samples.length = (if k < 3 then 1 else 0) ∧
      s'.2.b.errors = [] ++ errs ∧
      errs.length = (if k = 3 then 1 else 0) :=
  createPods_retry_policy noPodsRuntime 0 {} { exec0 with b.pods := [""] } (by decide)

/-! ## Accounting of calls, samples and errors under any runtime -/

theorem Accounted.nil {σ : Type} (K : Op) (e : Exec σ) : Accounted K e e :=
  ⟨[], [], by simp, by simp, by simp, by simp, fun _ _ => rfl⟩

theorem Accounted.append {σ : Type} {K : Op} {e1 e2 e3 : Exec σ}
    (h1 : Accounted K e1 e2) (h2 : Accounted K e2 e3) : Accounted K e1 e3 := by
  obtain ⟨c1, s1, ht1, hop1, hl1, hn1, ho1⟩ := h1
  obtain ⟨c2, s2, ht2, hop2, hl2, hn2, ho2⟩ := h2
  refine ⟨c1 ++ c2, s1 ++ s2, by rw [ht2, ht1, List.append_assoc], ?_,
    by rw [hl2, hl1, List.append_assoc], by simp [hn1, hn2],
    fun op h => (ho2 op h).trans (ho1 op h)⟩
  intro c hc
  rcases List.mem_append.mp hc with h | h
  · exact hop1 c h
  · exact hop2 c h

theorem OnLivePods.idle {σ : Type} (e : Exec σ) : OnLivePods e e :=
  ⟨[], [], by simp, by simp, by simp, by simp, fun _ => Or.inl rfl⟩

theorem PodLive.of_kept {b b' : Batch} {i : Nat} (h : PodLive b' i)
    (hk : b'.pods[i]? = b.pods[i]? ∨ b'.pods[i]? = some "") : PodLive b i := by
  obtain ⟨p, hp, hne⟩ := h
  rcases hk with hk | hk
  · exact ⟨p, hk ▸ hp, hne⟩
  · rw [hk] at hp
    cases hp
    exact absurd rfl hne

theorem OnLivePods.andThen {σ : Type} {e1 e2 e3 : Exec σ}
    (h1 : OnLivePods e1 e2) (h2 : OnLivePods e2 e3) : OnLivePods e1 e3 := by
  obtain ⟨c1, x1, ht1, he1, hc1, hx1, hp1⟩ := h1
  obtain ⟨c2, x2, ht2, he2, hc2, hx2, hp2⟩ := h2
  refine ⟨c1 ++ c2, x1 ++ x2, by rw [ht2, ht1, List.append_assoc],
    by rw [he2, he1, List.append_assoc], ?_, ?_, ?_⟩
  · intro c hc
    rcases List.mem_append.mp hc with h | h
    · exact hc1 c h
    · rcases hc2 c h with h' | ⟨h', hl⟩
      · exact Or.inl h'
      · exact Or.inr ⟨h', hl.of_kept (hp1 c.pod)⟩
  · intro x hx
    rcases List.mem_append.mp hx with h | h
    · exact hx1 x h
    · rcases hx2 x h with h' | ⟨h', hl⟩
      · exact Or.inl h'
      · exact Or.inr ⟨h', hl.of_kept (hp1 x.pod)⟩
  · intro i
    rcases hp2 i with h | h
    · rcases hp1 i with h' | h'
      · exact Or.inl (h.trans h')
      · exact Or.inr (h.trans h')
    · exact Or.inr h

theorem record_get_self (l : RuntimeLatency) (K : Op) (x : Latency) :
    (l.record K x).get K = l.get K ++ [x] := by
  cases K <;> rfl

theorem record_get_other (l : RuntimeLatency) (K op : Op) (x : Latency) (h : op ≠ K) :
    (l.record K x).get op = l.get op := by
  cases K <;> cases op <;> first | rfl | exact absurd rfl h

theorem Accounted.of_call {σ : Type} (K : Op) (e e' : Exec σ) (c : Call) (err : Option String)
    (x : Latency) (hc : c.op = K) (hok : c.ok = err.isNone)
    (ht : e'.trace = e.trace ++ [c])
    (hl : e'.b.latency = match err with
      | some _ => e.b.latency
      | none => e.b.latency.record K x) : Accounted K e e' := by
  cases err with
  | none =>
    refine ⟨[c], [x], ht, by simpa using hc, by rw [hl]; exact record_get_self _ _ _,
      by simp [hok], fun op h => by rw [hl]; exact record_get_other _ _ _ _ h⟩
  | some m =>
    refine ⟨[c], [], ht, by simpa using hc, by rw [hl]; simp, by simp [hok],
      fun op _ => by rw [hl]⟩

theorem createContainersBody_effect {σ : Type} (rt : Runtime σ) (P C i j : Nat) (pod : String)
    (e : Exec σ) (hg : Grid P C e.b) (hi : i < P) (hj : j < C) :
    ∃ e', createContainersBody rt i pod j e = .ok e' ∧ Grid P C e'.b ∧
      Accounted .CreateContainer e e' ∧ OnLivePods e e' ∧ e'.b.pods = e.b.pods := by
  obtain ⟨row, hrow, hlen⟩ := hg.rows i hi
  have hjr : j < row.length := by omega
  simp only [createContainersBody, hrow, hjr, if_true]
  rcases herr : (rt.CreateContainer pod ("ctr-" ++ toString j) e.ids.GenUID.1 e.rt).1.err
    with _ | m
  · refine ⟨_, rfl, hg.set_ctr i j row _ hrow rfl rfl rfl rfl, ?_, ?_, rfl⟩
    · exact Accounted.of_call _ _ _ ⟨.CreateContainer, i, some j, true⟩ none _ rfl rfl rfl rfl
    · exact ⟨[⟨.CreateContainer, i, some j, true⟩], [], rfl, by simp, by simp, by simp,
        fun _ => Or.inl rfl⟩
  · refine ⟨_, rfl, hg.set_ctr i j row _ hrow rfl rfl rfl rfl, ?_, ?_, rfl⟩
    · exact Accounted.of_call _ _ _ ⟨.CreateContainer, i, some j, false⟩ (some m) 0 rfl rfl
        rfl rfl
    · exact ⟨[⟨.CreateContainer, i, some j, false⟩], [⟨.CreateContainer, i, some j, m⟩], rfl,
        rfl, by simp, by simp, fun _ => Or.inl rfl⟩

theorem createContainers_effect {σ : Type} (rt : Runtime σ) (P C : Nat) (e : Exec σ)
    (hg : Grid P C e.b) :
    ∃ e', Batch.createContainers rt e = .ok e' ∧ Grid P C e'.b ∧
      Accounted .CreateContainer e e' ∧ OnLivePods e e' ∧ e'.b.pods = e.b.pods := by
  have key := forRange_inv (createContainersPod rt)
    (fun _ s => Grid P C s.b ∧ Accounted .CreateContainer e s ∧ OnLivePods e s ∧
      s.b.pods = e.b.pods) P
    (by
      rintro i s hi ⟨hgs, ha, ho, hp⟩
      have hlen : i < s.b.pods.length := by rw [hgs.pods_len]; exact hi
      obtain ⟨pod, hpod⟩ : ∃ pod, s.b.pods[i]? = some pod := ⟨_, List.getElem?_eq_getElem hlen⟩
      have inner := forRange_inv (createContainersBody rt i pod)
        (fun _ t => Grid P C t.b ∧ Accounted .CreateContainer e t ∧ OnLivePods e t ∧
          t.b.pods = e.b.pods) C
        (by
          rintro j t hj ⟨hgt, hat, hot, hpt⟩
          obtain ⟨t', hb, hg', ha', ho', hp'⟩ :=
            createContainersBody_effect rt P C i j pod t hgt hi hj
          exact ⟨t', hb, hg', hat.append ha', hot.andThen ho', hp'.trans hpt⟩)
        C 0 s (by omega) ⟨hgs, ha, ho, hp⟩
      obtain ⟨t', hrun, hres⟩ := inner
      exact ⟨t', by simp only [createContainersPod, hpod, hgs.ctrCount, hrun], hres⟩)
    P 0 e (by omega) ⟨hg, Accounted.nil _ _, OnLivePods.idle _, rfl⟩
  obtain ⟨s', hrun, hres⟩ := key
  exact ⟨s', by simp only [Batch.createContainers, hg.pods_len, hrun], hres⟩

theorem containerStep_effect {σ : Type} (op : Op) (call : String → σ → Status × σ)
    (slot : String → String) (hop : op ≠ .RunPodSandbox) (P C i j : Nat) (e : Exec σ)
    (hg : Grid P C e.b) (hi : i < P) (hj : j < C) (hlive : PodLive e.b i) :
    ∃ e', containerStep op call slot i j e = .ok e' ∧ Grid P C e'.b ∧
      Accounted op e e' ∧ OnLivePods e e' ∧ e'.b.pods = e.b.pods := by
  obtain ⟨row, hrow, hlen⟩ := hg.rows i hi
  have hjr : j < row.length := by omega
  obtain ⟨ctr, hctr⟩ : ∃ ctr, row[j]? = some ctr := ⟨_, List.getElem?_eq_getElem hjr⟩
  by_cases hempty : ctr = ""
  · exact ⟨e, by simp only [containerStep, hrow, hctr, hempty, if_true], hg,
      Accounted.nil _ _, OnLivePods.idle _, rfl⟩
  · simp only [containerStep, hrow, hctr, hempty, if_false]
    rcases herr : (call ctr e.rt).1.err with _ | m
    · refine ⟨_, rfl, hg.set_ctr i j row _ hrow rfl rfl rfl rfl, ?_, ?_, rfl⟩
      · exact Accounted.of_call _ _ _ ⟨op, i, some j, true⟩ none _ rfl rfl rfl rfl
      · exact ⟨[⟨op, i, some j, true⟩], [], rfl, by simp,
          by simpa using Or.inr ⟨hop, hlive⟩, by simp, fun _ => Or.inl rfl⟩
    · refine ⟨_, rfl, hg.set_ctr i j row _ hrow rfl rfl rfl rfl, ?_, ?_, rfl⟩
      · exact Accounted.of_call _ _ _ ⟨op, i, some j, false⟩ (some m) 0 rfl rfl rfl rfl
      · exact ⟨[⟨op, i, some j, false⟩], [⟨op, i, some j, m⟩], rfl, rfl,
          by simpa using Or.inr ⟨hop, hlive⟩, by simpa using Or.inr ⟨hop, hlive⟩,
          fun _ => Or.inl rfl⟩

theorem containerPhase_effect {σ : Type} (op : Op) (call : String → σ → Status × σ)
    (slot : String → String) (hop : op ≠ .RunPodSandbox) (P C : Nat) (e : Exec σ)
    (hg : Grid P C e.b) :
    ∃ e', forRange (containerRow op call slot) 0 e.b.pods.length e = .ok e' ∧ Grid P C e'.b ∧
      Accounted op e e' ∧ OnLivePods e e' ∧ e'.b.pods = e.b.pods := by
  have key := forRange_inv (containerRow op call slot)
    (fun _ s => Grid P C s.b ∧ Accounted op e s ∧ OnLivePods e s ∧ s.b.pods = e.b.pods) P
    (by
      rintro i s hi ⟨hgs, ha, ho, hp⟩
      have hlen : i < s.b.pods.length := by rw [hgs.pods_len]; exact hi
      obtain ⟨pod, hpod⟩ : ∃ pod, s.b.pods[i]? = some pod := ⟨_, List.getElem?_eq_getElem hlen⟩
      by_cases hempty : pod = ""
      · exact ⟨s, by simp only [containerRow, hpod, hempty, if_true], hgs, ha, ho, hp⟩
      · obtain ⟨row, hrow, hrlen⟩ := hgs.rows i hi
        have inner := forRange_inv (containerStep op call slot i)
          (fun _ t => Grid P C t.b ∧ Accounted op e t ∧ OnLivePods e t ∧
            t.b.pods = e.b.pods) C
          (by
            rintro j t hj ⟨hgt, hat, hot, hpt⟩
            have hl : PodLive t.b i := ⟨pod, by rw [hpt, ← hp]; exact hpod, hempty⟩
            obtain ⟨t', hb, hg', ha', ho', hp'⟩ :=
              containerStep_effect op call slot hop P C i j t hgt hi hj hl
            exact ⟨t', hb, hg', hat.append ha', hot.andThen ho', hp'.trans hpt⟩)
          C 0 s (by omega) ⟨hgs, ha, ho, hp⟩
        obtain ⟨t', hrun, hres⟩ := inner
        exact ⟨t', by simp only [containerRow, hpod, hempty, if_false, hrow, hrlen, hrun],
          hres⟩)
    P 0 e (by omega) ⟨hg, Accounted.nil _ _, OnLivePods.idle _, rfl⟩
  obtain ⟨s', hrun, hres⟩ := key
  exact ⟨s', by simp only [hg.pods_len, hrun], hres⟩

theorem podStep_effect {σ : Type} (op : Op) (call : String → σ → Status × σ) (clear : Bool)
    (hop : op ≠ .RunPodSandbox) (P C i : Nat) (e : Exec σ) (hg : Grid P C e.b) (hi : i < P) :
    ∃ e', podStep op call clear i e = .ok e' ∧ Grid P C e'.b ∧
      Accounted op e e' ∧ OnLivePods e e' ∧ e'.b.ctrs = e.b.ctrs ∧
      (clear = false → e'.b.pods = e.b.pods) := by
  have hlen : i < e.b.pods.length := by rw [hg.pods_len]; exact hi
  obtain ⟨pod, hpod⟩ : ∃ pod, e.b.pods[i]? = some pod := ⟨_, List.getElem?_eq_getElem hlen⟩
  by_cases hempty : pod = ""
  · exact ⟨e, by simp only [podStep, hpod, hempty, if_true], hg, Accounted.nil _ _,
      OnLivePods.idle _, rfl, fun _ => rfl⟩
  · have hlive : PodLive e.b i := ⟨pod, hpod, hempty⟩
    have hkept : ∀ (k : Nat), (if clear then e.b.pods.set i "" else e.b.pods)[k]? = e.b.pods[k]? ∨
        (if clear then e.b.pods.set i "" else e.b.pods)[k]? = some "" := by
      intro k
      cases clear
      · exact Or.inl rfl
      · by_cases hk : i = k
        · subst hk; right; simp [hlen]
        · left; simp [List.getElem?_set, hk]
    have hplen : (if clear then e.b.pods.set i "" else e.b.pods).length = e.b.pods.length := by
      cases clear <;> simp
    simp only [podStep, hpod, hempty, if_false]
    rcases herr : (call pod e.rt).1.err with _ | m
    · refine ⟨_, rfl, hg.same rfl rfl hplen rfl, ?_, ?_, rfl, fun h => by subst h; rfl⟩
      · exact Accounted.of_call _ _ _ ⟨op, i, none, true⟩ none _ rfl rfl rfl rfl
      · exact ⟨[⟨op, i, none, true⟩], [], rfl, by simp,
          by simpa using Or.inr ⟨hop, hlive⟩, by simp, hkept⟩
    · refine ⟨_, rfl, hg.same rfl rfl hplen rfl, ?_, ?_, rfl, fun h => by subst h; rfl⟩
      · exact Accounted.of_call _ _ _ ⟨op, i, none, false⟩ (some m) 0 rfl rfl rfl rfl
      · exact ⟨[⟨op, i, none, false⟩], [⟨op, i, none, m⟩], rfl, rfl,
          by simpa using Or.inr ⟨hop, hlive⟩, by simpa using Or.inr ⟨hop, hlive⟩, hkept⟩

theorem podPhase_effect {σ : Type} (op : Op) (call : String → σ → Status × σ) (clear : Bool)
    (hop : op ≠ .RunPodSandbox) (P C : Nat) (e : Exec σ) (hg : Grid P C e.b) :
    ∃ e', forRange (podStep op call clear) 0 e.b.pods.length e = .ok e' ∧ Grid P C e'.b ∧
      Accounted op e e' ∧ OnLivePods e e' ∧ e'.b.ctrs = e.b.ctrs ∧
      (clear = false → e'.b.pods = e.b.pods) := by
  have key := forRange_inv (podStep op call clear)
    (fun _ s => Grid P C s.b ∧ Accounted op e s ∧ OnLivePods e s ∧ s.b.ctrs = e.b.ctrs ∧
      (clear = false → s.b.pods = e.b.pods)) P
    (by
      rintro i s hi ⟨hgs, ha, ho, hc, hp⟩
      obtain ⟨s', hb, hg', ha', ho', hc', hp'⟩ := podStep_effect op call clear hop P C i s hgs hi
      exact ⟨s', hb, hg', ha.append ha', ho.andThen ho', hc'.trans hc,
        fun h => (hp' h).trans (hp h)⟩)
    P 0 e (by omega) ⟨hg, Accounted.nil _ _, OnLivePods.idle _, rfl, fun _ => rfl⟩
  obtain ⟨s', hrun, hres⟩ := key
  exact ⟨s', by simp only [hg.pods_len, hrun], hres⟩

theorem attemptCalls_all_failed {i k : Nat} (hk : k ≤ maxRetries)
    (h : ∀ c ∈ attemptCalls i k, c.ok = false) : k = maxRetries := by
  by_contra hne
  have hlt : k < maxRetries := by omega
  have hmem : (⟨.RunPodSandbox, i, none, true⟩ : Call) ∈ attemptCalls i k := by
    unfold attemptCalls
    simp [hlt]
  have := h _ hmem
  simp at this

theorem createPods_effect {σ : Type} (rt : Runtime σ) (P C : Nat) (e : Exec σ)
    (hg : Grid P C e.b) :
    ∃ (e' : Exec σ) (calls : List Call) (errs : List BatchError),
      Batch.createPods rt e = .ok e' ∧ Grid P C e'.b ∧ Accounted .RunPodSandbox e e' ∧
      e'.trace = e.trace ++ calls ∧ e'.b.errors = e.b.errors ++ errs ∧
      ∀ i, i < P → (∀ c ∈ calls, c.pod = i → c.ok = false) →
        calls.filter (fun c => c.pod = i) = List.replicate 3 ⟨.RunPodSandbox, i, none, false⟩ ∧
        (∃ cause, errs.filter (fun x => x.pod = i) = [⟨.RunPodSandbox, i, none, cause⟩]) ∧
        (FailedCreatePodIsEmpty rt → e'.b.pods[i]? = some "") := by
  have key := forRange_inv (createPodsBody rt)
    (fun k s => Grid P C s.2.b ∧ Accounted .RunPodSandbox e s.2 ∧
      ∃ (calls : List Call) (errs : List BatchError),
        s.2.trace = e.trace ++ calls ∧ s.2.b.errors = e.b.errors ++ errs ∧
        (∀ c ∈ calls, c.pod < k) ∧ (∀ x ∈ errs, x.pod < k) ∧
        ∀ i, i < k → (∀ c ∈ calls, c.pod = i → c.ok = false) →
          calls.filter (fun c => c.pod = i)
            = List.replicate 3 ⟨.RunPodSandbox, i, none, false⟩ ∧
          (∃ cause, errs.filter (fun x => x.pod = i) = [⟨.RunPodSandbox, i, none, cause⟩]) ∧
          (FailedCreatePodIsEmpty rt → s.2.b.pods[i]? = some "")) P
    (by
      rintro k ⟨v, s⟩ hk ⟨hgs, ha, calls, errs, ht, he, hcp, hxp, hidx⟩
      dsimp only at hgs ha ht he hidx
      have hlen : k < s.b.pods.length := by rw [hgs.pods_len]; exact hk
      obtain ⟨kk, samples, errsk, s', v', hkk, hrun, hslen, hnil, herr, hempty⟩ :=
        createPodsBody_spec rt k v s hlen
      have herrs_pod : ∀ x ∈ errsk, x.pod = k := by
        intro x hx
        rcases Nat.lt_or_ge kk maxRetries with h | h
        · rw [hnil h] at hx; simp at hx
        · obtain ⟨m, hm⟩ := herr (by omega)
          rw [hm] at hx
          simp only [List.mem_singleton] at hx
          rw [hx]
      refine ⟨_, hrun, hgs.same rfl rfl (by simp) rfl, ha.append ?_, calls ++ attemptCalls k kk,
        errs ++ errsk, ?_, ?_, ?_, ?_, ?_⟩
      · refine ⟨attemptCalls k kk, samples, rfl, fun c hc => (attemptCalls_mem hc).1, rfl, ?_,
          fun op h => ?_⟩
        · rw [attemptCalls_ok_count, hslen]
        · cases op <;> first | rfl | exact absurd rfl h
      · show s.trace ++ attemptCalls k kk = e.trace ++ (calls ++ attemptCalls k kk)
        rw [ht, List.append_assoc]
      · show s.b.errors ++ errsk = e.b.errors ++ (errs ++ errsk)
        rw [he, List.append_assoc]
      · intro c hc
        rcases List.mem_append.mp hc with h | h
        · exact Nat.lt_succ_of_lt (hcp c h)
        · rw [(attemptCalls_mem h).2.1]; exact Nat.lt_succ_self k
      · intro x hx
        rcases List.mem_append.mp hx with h | h
        · exact Nat.lt_succ_of_lt (hxp x h)
        · rw [herrs_pod x h]; exact Nat.lt_succ_self k
      · intro i hi hfail
        by_cases hik : i = k
        · subst hik
          have hall : ∀ c ∈ attemptCalls i kk, c.ok = false := fun c hc =>
            hfail c (List.mem_append_right _ hc) (attemptCalls_mem hc).2.1
          have hk3 : kk = maxRetries := attemptCalls_all_failed hkk hall
          obtain ⟨m, hm⟩ := herr hk3
          have hc0 : calls.filter (fun c => c.pod = i) = [] := by
            rw [List.filter_eq_nil_iff]
            intro c hc
            have := hcp c hc
            simp only [decide_eq_true_eq]; omega
          have hx0 : errs.filter (fun x => x.pod = i) = [] := by
            rw [List.filter_eq_nil_iff]
            intro x hx
            have := hxp x hx
            simp only [decide_eq_true_eq]; omega
          refine ⟨?_, ⟨m, ?_⟩, fun hconv => ?_⟩
          · rw [List.filter_append, hc0, hk3]
            simp [attemptCalls, maxRetries, List.filter_replicate]
          · rw [List.filter_append, hx0, hm]
            simp
          · simp only [List.getElem?_set_self, hlen, hempty hk3 hconv]
        · have hlt : i < k := by omega
          obtain ⟨h1, h2, h3⟩ := hidx i hlt
            (fun c hc hp => hfail c (List.mem_append_left _ hc) hp)
          have hc0 : (attemptCalls k kk).filter (fun c => c.pod = i) = [] := by
            rw [List.filter_eq_nil_iff]
            intro c hc
            rw [(attemptCalls_mem hc).2.1]
            simp only [decide_eq_true_eq]; omega
          have hx0 : errsk.filter (fun x => x.pod = i) = [] := by
            rw [List.filter_eq_nil_iff]
            intro x hx
            rw [herrs_pod x hx]
            simp only [decide_eq_true_eq]; omega
          refine ⟨by rw [List.filter_append, hc0, List.append_nil, h1],
            by rw [List.filter_append, hx0, List.append_nil]; exact h2, fun hconv => ?_⟩
          have hne : k ≠ i := fun h => hik h.symm
          simp only [List.getElem?_set, hne, if_false]
          exact h3 hconv)
    P 0 ({}, e) (by omega)
    ⟨hg, Accounted.nil _ _, [], [], by simp, by simp, by simp, by simp,
      fun i hi => absurd hi (Nat.not_lt_zero i)⟩
  obtain ⟨s', hrun, hg', ha, calls, errs, ht, he, -, -, hidx⟩ := key
  refine ⟨s'.2, calls, errs, ?_, hg', ha, ht, he, fun i hi => hidx i (by simpa using hi)⟩
  simp only [Batch.createPods, hg.podCount, hrun]

/-- C7: on well-shaped grids each of the seven phases completes, whatever the
runtime answers, and between its entry state and its exit state the calls made are
all of the phase's own kind, the samples appended to that kind's sequence are as
many as the calls that returned success (so a failed call, and a pod index whose
attempts all fail, adds none), and the other six sequences are unchanged. -/
theorem phases_record_only_successes {σ : Type} (rt : Runtime σ) (P C : Nat) (e : Exec σ)
    (hg : Grid P C e.b) :
    (∃ e', Batch.createPods rt e = .ok e' ∧ Accounted .RunPodSandbox e e') ∧
    (∃ e', Batch.createContainers rt e = .ok e' ∧ Accounted .CreateContainer e e') ∧
    (∃ e', Batch.startContainers rt e = .ok e' ∧ Accounted .StartContainer e e') ∧
    (∃ e', Batch.stopContainers rt e = .ok e' ∧ Accounted .StopContainer e e') ∧
    (∃ e', Batch.removeContainers rt e = .ok e' ∧ Accounted .RemoveContainer e e') ∧
    (∃ e', Batch.stopPods rt e = .ok e' ∧ Accounted .StopPodSandbox e e') ∧
    (∃ e', Batch.removePods rt e = .ok e' ∧ Accounted .RemovePodSandbox e e') := by
  refine ⟨?_, ?_, ?_, ?_, ?_, ?_, ?_⟩
  · obtain ⟨e', _, _, hr, _, ha, _⟩ := createPods_effect rt P C e hg
    exact ⟨e', hr, ha⟩
  · obtain ⟨e', hr, _, ha, _⟩ := createContainers_effect rt P C e hg
    exact ⟨e', hr, ha⟩
  · obtain ⟨e', hr, _, ha, _⟩ :=
      containerPhase_effect .StartContainer rt.StartContainer id (by decide) P C e hg
    exact ⟨e', hr, ha⟩
  · obtain ⟨e', hr, _, ha, _⟩ :=
      containerPhase_effect .StopContainer rt.StopContainer id (by decide) P C e hg
    exact ⟨e', hr, ha⟩
  · obtain ⟨e', hr, _, ha, _⟩ :=
      containerPhase_effect .RemoveContainer rt.RemoveContainer (fun _ => "") (by decide) P C e hg
    exact ⟨e', hr, ha⟩
  · obtain ⟨e', hr, _, ha, _⟩ :=
      podPhase_effect .StopPodSandbox rt.StopPod false (by decide) P C e hg
    exact ⟨e', hr, ha⟩
  · obtain ⟨e', hr, _, ha, _⟩ :=
      podPhase_effect .RemovePodSandbox rt.RemovePod true (by decide) P C e hg
    exact ⟨e', hr, ha⟩

theorem exec1_grid : Grid 1 1 exec1.b :=
  ⟨rfl, rfl, rfl, fun i hi => ⟨[""], by
    have : i = 0 := by omega
    subst this; rfl, rfl⟩⟩

/-- Witness for C7: the allocated `batch0` on the runtime whose `CreatePod` fails. -/
theorem phases_record_only_successes_witness :
    (∃ e', Batch.createPods noPodsRuntime exec1 = .ok e' ∧ Accounted .RunPodSandbox exec1 e') ∧
    (∃ e', Batch.createContainers noPodsRuntime exec1 = .ok e' ∧
      Accounted .CreateContainer exec1 e') ∧
    (∃ e', Batch.startContainers noPodsRuntime exec1 = .ok e' ∧
      Accounted .StartContainer exec1 e') ∧
    (∃ e', Batch.stopContainers noPodsRuntime exec1 = .ok e' ∧
      Accounted .StopContainer exec1 e') ∧
    (∃ e', Batch.removeContainers noPodsRuntime exec1 = .ok e' ∧
      Accounted .RemoveContainer exec1 e') ∧
    (∃ e', Batch.stopPods noPodsRuntime exec1 = .ok e' ∧ Accounted .StopPodSandbox exec1 e') ∧
    (∃ e', Batch.removePods noPodsRuntime exec1 = .ok e' ∧
      Accounted .RemovePodSandbox exec1 e') :=
  phases_record_only_successes noPodsRuntime 1 1 exec1 exec1_grid

theorem afterCreatePods_effect {σ : Type} (rt : Runtime σ) (P C : Nat) (e : Exec σ)
    (hg : Grid P C e.b) :
    ∃ e', Batch.afterCreatePods rt e = .ok e' ∧ Grid P C e'.b ∧ OnLivePods e e' := by
  obtain ⟨e2, r2, g2, -, o2, -⟩ := createContainers_effect rt P C e hg
  obtain ⟨e3, r3, g3, -, o3, -⟩ :=
    containerPhase_effect .StartContainer rt.StartContainer id (by decide) P C e2 g2
  obtain ⟨e4, r4, g4, -, o4, -⟩ :=
    containerPhase_effect .StopContainer rt.StopContainer id (by decide) P C e3 g3
  obtain ⟨e5, r5, g5, -, o5, -⟩ :=
    containerPhase_effect .RemoveContainer rt.RemoveContainer (fun _ => "") (by decide) P C e4 g4
  obtain ⟨e6, r6, g6, -, o6, -⟩ :=
    podPhase_effect .StopPodSandbox rt.StopPod false (by decide) P C e5 g5
  obtain ⟨e7, r7, g7, -, o7, -⟩ :=
    podPhase_effect .RemovePodSandbox rt.RemovePod true (by decide) P C e6 g6
  refine ⟨e7, ?_, g7, ((((o2.andThen o3).andThen o4).andThen o5).andThen o6).andThen o7⟩
  simp only [Batch.afterCreatePods, Batch.startContainers, Batch.stopContainers,
    Batch.removeContainers, Batch.stopPods, Batch.removePods, bind, Except.bind,
    r2, r3, r4, r5, r6, r7]

theorem Accounted.all {σ : Type} {K : Op} {e e' : Exec σ} (h : Accounted K e e') :
    AccountedAll e e' := by
  obtain ⟨calls, samples, ht, hop, hK, hlen, hother⟩ := h
  refine ⟨calls, ht, fun K' => ?_⟩
  by_cases hk : K' = K
  · subst hk
    refine ⟨samples, hK, ?_⟩
    rw [hlen]
    congr 1
    apply List.filter_congr
    intro c hc
    simp [hop c hc]
  · refine ⟨[], by rw [hother K' hk, List.append_nil], ?_⟩
    have : calls.filter (fun c => c.op = K' ∧ c.ok = true) = [] := by
      rw [List.filter_eq_nil_iff]
      intro c hc
      simp only [decide_eq_true_eq, not_and]
      intro h'
      exact absurd ((hop c hc).symm.trans h').symm hk
    rw [this]
    rfl

theorem AccountedAll.concat {σ : Type} {e1 e2 e3 : Exec σ} (h12 : AccountedAll e1 e2)
    (h23 : AccountedAll e2 e3) : AccountedAll e1 e3 := by
  obtain ⟨c1, ht1, hs1⟩ := h12
  obtain ⟨c2, ht2, hs2⟩ := h23
  refine ⟨c1 ++ c2, by rw [ht2, ht1, List.append_assoc], fun K => ?_⟩
  obtain ⟨s1, hl1, hn1⟩ := hs1 K
  obtain ⟨s2, hl2, hn2⟩ := hs2 K
  refine ⟨s1 ++ s2, by rw [hl2, hl1, List.append_assoc], ?_⟩
  rw [List.filter_append, List.length_append, List.length_append, hn1, hn2]

theorem afterCreatePods_accounted {σ : Type} (rt : Runtime σ) (P C : Nat) (e : Exec σ)
    (hg : Grid P C e.b) :
    ∃ e', Batch.afterCreatePods rt e = .ok e' ∧ AccountedAll e e' := by
  obtain ⟨e2, r2, g2, a2, -, -⟩ := createContainers_effect rt P C e hg
  obtain ⟨e3, r3, g3, a3, -, -⟩ :=
    containerPhase_effect .StartContainer rt.StartContainer id (by decide) P C e2 g2
  obtain ⟨e4, r4, g4, a4, -, -⟩ :=
    containerPhase_effect .StopContainer rt.StopContainer id (by decide) P C e3 g3
  obtain ⟨e5, r5, g5, a5, -, -⟩ :=
    containerPhase_effect .RemoveContainer rt.RemoveContainer (fun _ => "") (by decide) P C e4 g4
  obtain ⟨e6, r6, g6, a6, -, -⟩ :=
    podPhase_effect .StopPodSandbox rt.StopPod false (by decide) P C e5 g5
  obtain ⟨e7, r7, g7, a7, -, -⟩ :=
    podPhase_effect .RemovePodSandbox rt.RemovePod true (by decide) P C e6 g6
  refine ⟨e7, ?_, ((((a2.all.concat a3.all).concat a4.all).concat a5.all).concat a6.all).concat
    a7.all⟩
  simp only [Batch.afterCreatePods, Batch.startContainers, Batch.stopContainers,
    Batch.removeContainers, Batch.stopPods, Batch.removePods, bind, Except.bind,
    r2, r3, r4, r5, r6, r7]

/-- C2 (counterexample): `batch0` run for its two rounds on a runtime whose
`CreatePod` always fails with the empty handle. In each round the three attempts
for pod index 0 fail, and still `CreateContainer` is called for pod 0 and its
sample is appended; the two errors recorded, one per round, have the same text,
which names the pod index and no round. And when the failing `CreatePod` returns a
handle next to its error, that handle is stored in the pod slot and the round goes
on to start, stop and remove a container for pod 0, each with a sample. -/
theorem failed_pod_still_gets_container_sample :
    (Batch.Run noPodsRuntime exec0).toOption.map
        (fun e => (e.trace, e.b.latency.CreateContainer, e.b.errors.map BatchError.message))
      = some ([⟨.RunPodSandbox, 0, none, false⟩, ⟨.RunPodSandbox, 0, none, false⟩,
          ⟨.RunPodSandbox, 0, none, false⟩, ⟨.CreateContainer, 0, some 0, true⟩,
          ⟨.RunPodSandbox, 0, none, false⟩, ⟨.RunPodSandbox, 0, none, false⟩,
          ⟨.RunPodSandbox, 0, none, false⟩, ⟨.CreateContainer, 0, some 0, true⟩],
        [7, 7],
        ["failed to create pod #0: boom", "failed to create pod #0: boom"]) ∧
    (Batch.round staleHandleRuntime exec1).toOption.map
        (fun e => (e.trace, e.b.latency.StartContainer, e.b.latency.StopContainer,
          e.b.latency.RemoveContainer))
      = some ([⟨.RunPodSandbox, 0, none, false⟩, ⟨.RunPodSandbox, 0, none, false⟩,
          ⟨.RunPodSandbox, 0, none, false⟩, ⟨.CreateContainer, 0, some 0, true⟩,
          ⟨.StartContainer, 0, some 0, true⟩, ⟨.StopContainer, 0, some 0, true⟩,
          ⟨.RemoveContainer, 0, some 0, true⟩, ⟨.StopPodSandbox, 0, none, true⟩,
          ⟨.RemovePodSandbox, 0, none, true⟩],
        [7], [7], [7]) := by
  constructor <;> decide

/-- C2 (amended): on well-shaped grids and a runtime whose failing `CreatePod`
returns the empty handle, a round completes, and for a pod index `i` whose
`CreatePod` calls all failed in `createPods`: there were exactly 3 such calls;
`createPods` appended exactly one error for `i`, the pod-creation error carrying
index `i`, whose text is "failed to create pod #i: " followed by the cause; in
the six later phases of the round every call made and every error recorded for
pod index `i` is a `CreateContainer` one; and in those phases each of the seven
sequences only gains samples, as many as the calls of its kind that returned
success, which for every kind other than `CreateContainer` are all calls for pod
indices other than `i`: no start, stop or remove of a container or of the pod is
attempted, sampled or reported for `i`. -/
theorem round_after_failed_pod_creation {σ : Type} (rt : Runtime σ)
    (hconv : FailedCreatePodIsEmpty rt) (P C : Nat) (e : Exec σ) (hg : Grid P C e.b)
    (i : Nat) (hi : i < P) :
    ∃ (e1 e2 : Exec σ) (calls1 calls2 : List Call) (errs1 errs2 : List BatchError),
      Batch.createPods rt e = .ok e1 ∧ Batch.afterCreatePods rt e1 = .ok e2 ∧
      Batch.round rt e = .ok e2 ∧
      e1.trace = e.trace ++ calls1 ∧ e1.b.errors = e.b.errors ++ errs1 ∧
      e2.trace = e1.trace ++ calls2 ∧ e2.b.errors = e1.b.errors ++ errs2 ∧
      ((∀ c ∈ calls1, c.pod = i → c.ok = false) →
        calls1.filter (fun c => c.pod = i)
          = List.replicate 3 ⟨.RunPodSandbox, i, none, false⟩ ∧
        (∃ cause, errs1.filter (fun x => x.pod = i) = [⟨.RunPodSandbox, i, none, cause⟩] ∧
          BatchError.message ⟨.RunPodSandbox, i, none, cause⟩
            = "failed to create pod #" ++ toString i ++ ": " ++ cause) ∧
        (∀ c ∈ calls2, c.pod = i → c.op = .CreateContainer) ∧
        (∀ x ∈ errs2, x.pod = i → x.op = .CreateContainer) ∧
        (∀ K : Op, ∃ samples : List Latency,
          e2.b.latency.get K = e1.b.latency.get K ++ samples ∧
          samples.length = (calls2.filter (fun c => c.op = K ∧ c.ok = true)).length ∧
          (K ≠ .CreateContainer → samples.length
            = (calls2.filter (fun c => c.op = K ∧ c.ok = true ∧ c.pod ≠ i)).length))) := by
  obtain ⟨e1, calls1, errs1, r1, g1, -, ht1, he1, hidx⟩ := createPods_effect rt P C e hg
  obtain ⟨e2, r2, -, calls2, errs2, ht2, he2, hc2, hx2, -⟩ := afterCreatePods_effect rt P C e1 g1
  obtain ⟨e2', r2', calls2', ht2', hacc⟩ := afterCreatePods_accounted rt P C e1 g1
  rw [r2] at r2'
  cases r2'
  have hcalls : calls2' = calls2 := List.append_cancel_left (ht2'.symm.trans ht2)
  subst hcalls
  refine ⟨e1, e2, calls1, calls2', errs1, errs2, r1, r2, ?_, ht1, he1, ht2, he2, ?_⟩
  · simp only [Batch.round, bind, Except.bind, r1, r2]
  · intro hfail
    obtain ⟨h1, ⟨cause, h2⟩, h3⟩ := hidx i hi hfail
    have hdead : ¬ PodLive e1.b i := by
      rintro ⟨p, hp, hne⟩
      rw [h3 hconv] at hp
      cases hp
      exact hne rfl
    have hcalls : ∀ c ∈ calls2', c.pod = i → c.op = .CreateContainer := by
      intro c hc hp
      rcases hc2 c hc with h | ⟨-, hl⟩
      · exact h
      · exact absurd (hp ▸ hl) hdead
    refine ⟨h1, ⟨cause, h2, rfl⟩, hcalls, ?_, ?_⟩
    · intro x hx hp
      rcases hx2 x hx with h | ⟨-, hl⟩
      · exact h
      · exact absurd (hp ▸ hl) hdead
    · intro K
      obtain ⟨samples, hl, hn⟩ := hacc K
      refine ⟨samples, hl, hn, fun hK => ?_⟩
      rw [hn]
      congr 1
      apply List.filter_congr
      intro c hc
      by_cases hp : c.pod = i
      · have hop := hcalls c hc hp
        have hne : c.op ≠ K := fun h => hK (h.symm.trans hop)
        simp [hp, hne]
      · simp [hp]

theorem noPodsRuntime_conv : FailedCreatePodIsEmpty noPodsRuntime := by
  intro ns name uid s _
  rfl

theorem firstPodFailsRuntime_conv : FailedCreatePodIsEmpty firstPodFailsRuntime := by
  intro ns name uid s h
  unfold firstPodFailsRuntime at h ⊢
  by_cases hn : name = "batch0-0"
  · simp [hn]
  · simp [hn] at h

theorem exec3_grid : Grid 2 1 exec3.b :=
  ⟨rfl, rfl, rfl, fun i hi => by
    have : i = 0 ∨ i = 1 := by omega
    rcases this with h | h <;> subst h <;> exact ⟨[""], rfl, rfl⟩⟩

/-- Witness for C2 (amended): a round of two pods with one container each on a
runtime whose `CreatePod` fails for pod index 0 alone. The three attempts for
index 0 fail and leave one error, "failed to create pod #0: boom"; in the later
phases the only call for index 0 is the `CreateContainer` one, and each of the
start, stop and remove sequences gains the one sample of pod index 1. -/
theorem round_after_failed_pod_creation_witness :
    FailedCreatePodIsEmpty firstPodFailsRuntime ∧ Grid 2 1 exec3.b ∧
    ∃ (e1 e2 : Exec Unit) (calls1 calls2 : List Call) (errs1 errs2 : List BatchError),
      Batch.createPods firstPodFailsRuntime exec3 = .ok e1 ∧
      Batch.afterCreatePods firstPodFailsRuntime e1 = .ok e2 ∧
      Batch.round firstPodFailsRuntime exec3 = .ok e2 ∧
      e1.trace = exec3.trace ++ calls1 ∧ e1.b.errors = exec3.b.errors ++ errs1 ∧
      e2.trace = e1.trace ++ calls2 ∧ e2.b.errors = e1.b.errors ++ errs2 ∧
      (∀ c ∈ calls1, c.pod = 0 → c.ok = false) ∧
      calls1 = [⟨.RunPodSandbox, 0, none, false⟩, ⟨.RunPodSandbox, 0, none, false⟩,
        ⟨.RunPodSandbox, 0, none, false⟩, ⟨.RunPodSandbox, 1, none, true⟩] ∧
      calls1.filter (fun c => c.pod = 0)
        = List.replicate 3 ⟨.RunPodSandbox, 0, none, false⟩ ∧
      (∃ cause, errs1.filter (fun x => x.pod = 0) = [⟨.RunPodSandbox, 0, none, cause⟩] ∧
        BatchError.message ⟨.RunPodSandbox, 0, none, cause⟩
          = "failed to create pod #" ++ toString 0 ++ ": " ++ cause) ∧
      (∀ c ∈ calls2, c.pod = 0 → c.op = .CreateContainer) ∧
      (∀ x ∈ errs2, x.pod = 0 → x.op = .CreateContainer) ∧
      (∀ K : Op, ∃ samples : List Latency,
        e2.b.latency.get K = e1.b.latency.get K ++ samples ∧
        samples.length = (calls2.filter (fun c => c.op = K ∧ c.ok = true)).length ∧
        (K ≠ .CreateContainer → samples.length
          = (calls2.filter (fun c => c.op = K ∧ c.ok = true ∧ c.pod ≠ 0)).length)) := by
  obtain ⟨e1, e2, calls1, calls2, errs1, errs2, r1, r2, r, ht1, he1, ht2, he2, himp⟩ :=
    round_after_failed_pod_creation firstPodFailsRuntime firstPodFailsRuntime_conv 2 1 exec3
      exec3_grid 0 (by decide)
  have htr : (Batch.createPods firstPodFailsRuntime exec3).toOption.map (fun e => e.trace)
      = some [⟨.RunPodSandbox, 0, none, false⟩, ⟨.RunPodSandbox, 0, none, false⟩,
        ⟨.RunPodSandbox, 0, none, false⟩, ⟨.RunPodSandbox, 1, none, true⟩] := by decide
  rw [r1] at htr
  have hc1 : calls1 = [⟨.RunPodSandbox, 0, none, false⟩, ⟨.RunPodSandbox, 0, none, false⟩,
      ⟨.RunPodSandbox, 0, none, false⟩, ⟨.RunPodSandbox, 1, none, true⟩] := by
    have h : e1.trace = _ := Option.some.inj htr
    rw [ht1] at h
    exact h
  have hfail : ∀ c ∈ calls1, c.pod = 0 → c.ok = false := by
    rw [hc1]
    decide
  obtain ⟨h1, h2, h3, h4, h5⟩ := himp hfail
  exact ⟨firstPodFailsRuntime_conv, exec3_grid, e1, e2, calls1, calls2, errs1, errs2, r1, r2, r,
    ht1, he1, ht2, he2, hfail, hc1, h1, h2, h3, h4, h5⟩

/-- C4 (the code at the failing input): after `createPods` has failed for the only
pod index, its slot holds the empty sentinel; `createContainers` then calls
`CreateContainer` for that pod index, stores the handle returned in the container
slot and appends a sample. -/
theorem createContainers_calls_runtime_for_empty_pod :
    (Batch.createPods noPodsRuntime exec1).toOption.map (fun e => e.b.pods) = some [""] ∧
    (Batch.createPods noPodsRuntime exec1 >>= Batch.createContainers noPodsRuntime).toOption.map
        (fun e => (e.trace.drop 3, e.b.pods, e.b.ctrs, e.b.latency.CreateContainer))
      = some ([⟨.CreateContainer, 0, some 0, true⟩], [""], [["c"]], [7]) := by
  decide

/-! ## The id generator -/

theorem digitChar_value (k : Nat) (hk : k < 10) : (Nat.digitChar k).toNat - 48 = k := by
  interval_cases k <;> rfl

theorem toDigitsCore_value (fuel : Nat) :
    ∀ (n : Nat) (ds : List Char), n < fuel →
      (Nat.toDigitsCore 10 fuel n ds).foldl (fun a c => 10 * a + (c.toNat - 48)) 0
        = ds.foldl (fun a c => 10 * a + (c.toNat - 48)) n := by
  induction fuel with
  | zero => intro n ds h; exact absurd h (Nat.not_lt_zero n)
  | succ fuel ih =>
    intro n ds h
    have hd : (Nat.digitChar (n % 10)).toNat - 48 = n % 10 :=
      digitChar_value _ (Nat.mod_lt _ (by decide))
    unfold Nat.toDigitsCore
    by_cases h0 : n / 10 = 0
    · simp only [h0, if_true, List.foldl_cons, hd]
      congr 1
      omega
    · simp only [h0, if_false]
      rw [ih (n / 10) _ (by omega)]
      simp only [List.foldl_cons, hd]
      congr 1
      omega

theorem decimalValue_repr (n : Nat) : decimalValue (toString n).data = n := by
  show decimalValue (Nat.toDigits 10 n).asString.data = n
  unfold decimalValue Nat.toDigits
  rw [show (Nat.toDigitsCore 10 (n + 1) n []).asString.data = Nat.toDigitsCore 10 (n + 1) n []
    from rfl]
  rw [toDigitsCore_value (n + 1) n [] (Nat.lt_succ_self n)]
  rfl

theorem toString_nat_injective {a b : Nat} (h : toString a = toString b) : a = b := by
  have := congrArg (fun s => decimalValue s.data) h
  simpa [decimalValue_repr] using this

theorem tagged_injective {k k' : Gen} {a b : Nat}
    (h : k.tag ++ toString a = k'.tag ++ toString b) : k = k' ∧ a = b := by
  have hd := congrArg String.data h
  simp only [String.data_append] at hd
  cases k <;> cases k' <;> simp only [Gen.tag] at hd
  all_goals first
    | (refine ⟨rfl, toString_nat_injective (String.ext ?_)⟩
       exact List.append_cancel_left hd)
    | (exfalso
       have h0 := congrArg List.head? hd
       simp at h0)

theorem wrapInt_of_range {x : Int} (h1 : MinInt ≤ x) (h2 : x ≤ MaxInt) : wrapInt x = x := by
  unfold MinInt at h1
  unfold MaxInt at h2
  unfold wrapInt
  omega

theorem wrapInt_add (a b : Int) : wrapInt (wrapInt a + b) = wrapInt (a + b) := by
  unfold wrapInt
  omega

theorem wrapInt_idem (a : Int) : wrapInt (wrapInt a) = wrapInt a := by
  unfold wrapInt
  omega

theorem Itoa_natCast (n : Nat) : Itoa (n : Int) = toString n := rfl

theorem idgen_call_fst (g : idgen) (k : Gen) : (g.call k).1 = k.tag ++ Itoa (g.counter k) := by
  cases k <;> rfl

theorem idgen_call_counter (g : idgen) (k k' : Gen) :
    (g.call k).2.counter k' = if k' = k then wrapInt (g.counter k' + 1) else g.counter k' := by
  cases k <;> cases k' <;> rfl

theorem idgen_run_length (calls : List Gen) : ∀ g : idgen, (g.run calls).1.length = calls.length := by
  induction calls with
  | nil => intro g; rfl
  | cons k rest ih => intro g; simp [idgen.run, ih]

/-- From a state whose counters are `int` values, the call at position `n` of a
sequence, to generator `k`, returns the tag of `k` with the counter of `k`
advanced, in `int` arithmetic, by the number of earlier calls to `k`. -/
theorem idgen_run_get (calls : List Gen) :
    ∀ (g : idgen) (n : Nat) (k : Gen), (∀ k', wrapInt (g.counter k') = g.counter k') →
      calls[n]? = some k →
      (g.run calls).1[n]? = some (k.tag ++
        Itoa (wrapInt (g.counter k + (((calls.take n).count k : Nat) : Int)))) := by
  induction calls with
  | nil => intro g n k _ h; simp at h
  | cons k0 rest ih =>
    intro g n k hg h
    cases n with
    | zero =>
      simp only [List.getElem?_cons_zero, Option.some.injEq] at h
      subst h
      simp [idgen.run, idgen_call_fst, hg]
    | succ n =>
      simp only [List.getElem?_cons_succ] at h
      have hg' : ∀ k', wrapInt ((g.call k0).2.counter k') = (g.call k0).2.counter k' := by
        intro k'
        rw [idgen_call_counter]
        split
        · exact wrapInt_idem _
        · exact hg k'
      simp only [idgen.run, List.getElem?_cons_succ, List.take_succ_cons, List.count_cons]
      rw [ih (g.call k0).2 n k hg' h, idgen_call_counter]
      congr 3
      by_cases hk : k = k0
      · subst hk
        simp only [if_true, beq_self_eq_true, wrapInt_add]
        congr 1
        push_cast
        omega
      · have hk' : ¬ (k0 == k) = true := by simpa using fun h' => hk h'.symm
        simp [hk, hk']

theorem ids_run_get (calls : List Gen) (n : Nat) (k : Gen) (h : calls[n]? = some k) :
    (ids.run calls).1[n]? = some (k.tag ++ Itoa (wrapInt (((calls.take n).count k : Nat) : Int))) := by
  rw [idgen_run_get calls ids n k (fun k' => by cases k' <;> rfl) h]
  have hids : ids.counter k = 0 := by cases k <;> rfl
  rw [hids, zero_add]

theorem ids_run_replicate (N n : Nat) (k : Gen) (h : n < N) :
    (ids.run (List.replicate N k)).1[n]? = some (k.tag ++ Itoa (wrapInt (n : Int))) := by
  have hget : (List.replicate N k)[n]? = some k := by
    rw [List.getElem?_replicate]
    simp [h]
  rw [ids_run_get _ n k hget, List.take_replicate, List.count_replicate_self,
    Nat.min_eq_left (Nat.le_of_lt h)]

theorem count_take_lt {calls : List Gen} {m n : Nat} {k : Gen} (hm : calls[m]? = some k)
    (hmn : m < n) : (calls.take m).count k < (calls.take n).count k := by
  have hlen : m < calls.length := (List.getElem?_eq_some_iff.mp hm).1
  have h1 : (calls.take (m + 1)).count k = (calls.take m).count k + 1 := by
    rw [List.take_succ, hm]
    simp
  have h2 : (calls.take (m + 1)).count k ≤ (calls.take n).count k :=
    (List.take_sublist_take_left calls (by omega : m + 1 ≤ n)).count_le k
  omega

theorem count_take_lt_count {calls : List Gen} {m : Nat} {k : Gen} (hm : calls[m]? = some k) :
    (calls.take m).count k < calls.count k := by
  have hlen : m < calls.length := (List.getElem?_eq_some_iff.mp hm).1
  have h := count_take_lt hm hlen
  rwa [List.take_length] at h

/-- Counterexample for C16: in the state whose `uid` counter is `math.MaxInt`,
`GenUID` returns "uid-9223372036854775807" and the deferred increment wraps: the
state left is `(MinInt, 0, 0)`, not `(MaxInt + 1, 0, 0)`, and the next call
returns "uid--9223372036854775808". -/
theorem GenUID_wraps_at_MaxInt :
    idgen.GenUID ⟨9223372036854775807, 0, 0⟩
      = ("uid-9223372036854775807", ⟨-9223372036854775808, 0, 0⟩) ∧
    (idgen.GenUID ⟨9223372036854775807, 0, 0⟩).2 ≠ ⟨9223372036854775807 + 1, 0, 0⟩ ∧
    (idgen.GenUID (idgen.GenUID ⟨9223372036854775807, 0, 0⟩).2).1
      = "uid--9223372036854775808" := by
  refine ⟨by decide, by decide, by decide⟩

/-- C16 (amended): in every generator state `(u, p, c)` of `int` values, `GenUID`
returns "uid-" followed by the decimal form of `u`, `GenPodName` "pod-" with `p`
and `GenCtrName` "ctr-" with `c`, whatever the values; when the counter read is
below `math.MaxInt` the state left is `(u+1, p, c)`, `(u, p+1, c)` and
`(u, p, c+1)`, and when it is `math.MaxInt` the state left has `math.MinInt` in
its place; no other counter changes. The decimal form of a non-negative value is
its digit string, read back from its digits, and that of a negative value the
digit string of its absolute value after a "-"; the package variable `ids` starts
at `(0, 0, 0)`. -/
theorem generators_increment_own_counter (u p c : Int) :
    (idgen.GenUID ⟨u, p, c⟩).1 = "uid-" ++ Itoa u ∧
    (idgen.GenPodName ⟨u, p, c⟩).1 = "pod-" ++ Itoa p ∧
    (idgen.GenCtrName ⟨u, p, c⟩).1 = "ctr-" ++ Itoa c ∧
    (MinInt ≤ u → u < MaxInt → (idgen.GenUID ⟨u, p, c⟩).2 = ⟨u + 1, p, c⟩) ∧
    (MinInt ≤ p → p < MaxInt → (idgen.GenPodName ⟨u, p, c⟩).2 = ⟨u, p + 1, c⟩) ∧
    (MinInt ≤ c → c < MaxInt → (idgen.GenCtrName ⟨u, p, c⟩).2 = ⟨u, p, c + 1⟩) ∧
    (idgen.GenUID ⟨MaxInt, p, c⟩).2 = ⟨MinInt, p, c⟩ ∧
    (idgen.GenPodName ⟨u, MaxInt, c⟩).2 = ⟨u, MinInt, c⟩ ∧
    (idgen.GenCtrName ⟨u, p, MaxInt⟩).2 = ⟨u, p, MinInt⟩ ∧
    (∀ n : Nat, Itoa (n : Int) = toString n ∧ decimalValue (Itoa (n : Int)).data = n ∧
      Itoa (-((n + 1 : Nat) : Int)) = "-" ++ toString (n + 1)) ∧
    (idgen.GenUID ⟨41, 7, 3⟩).1 = "uid-41" ∧ (idgen.GenPodName ⟨41, 7, 3⟩).1 = "pod-7" ∧
    (idgen.GenCtrName ⟨41, 7, 3⟩).1 = "ctr-3" ∧
    ids = ⟨0, 0, 0⟩ := by
  have hwrap : wrapInt (MaxInt + 1) = MinInt := by decide
  refine ⟨rfl, rfl, rfl, fun h1 h2 => ?_, fun h1 h2 => ?_, fun h1 h2 => ?_,
    congrArg (fun x => (⟨x, p, c⟩ : idgen)) hwrap, congrArg (fun x => (⟨u, x, c⟩ : idgen)) hwrap,
    congrArg (fun x => (⟨u, p, x⟩ : idgen)) hwrap, fun n => ⟨rfl, decimalValue_repr n, rfl⟩, by decide, by decide, by decide, rfl⟩
  · show (⟨wrapInt (u + 1), p, c⟩ : idgen) = _
    rw [wrapInt_of_range (by unfold MinInt at *; omega) (by unfold MaxInt at *; omega)]
  · show (⟨u, wrapInt (p + 1), c⟩ : idgen) = _
    rw [wrapInt_of_range (by unfold MinInt at *; omega) (by unfold MaxInt at *; omega)]
  · show (⟨u, p, wrapInt (c + 1)⟩ : idgen) = _
    rw [wrapInt_of_range (by unfold MinInt at *; omega) (by unfold MaxInt at *; omega)]

/-- Witness for C16: the state `(41, 7, 3)`, whose `uid` counter is below
`math.MaxInt`. -/
theorem generators_increment_own_counter_witness :
    MinInt ≤ 41 ∧ (41 : Int) < MaxInt ∧
    (idgen.GenUID ⟨41, 7, 3⟩).2 = ⟨41 + 1, 7, 3⟩ :=
  ⟨by decide, by decide,
    (generators_increment_own_counter 41 7 3).2.2.2.1 (by decide) (by decide)⟩

/-- Counterexample for C17: in a sequence of `2^63 + 1` calls of `GenUID` from the
initial state, the call number `2^63` (counted from 0) returns
"uid--9223372036854775808", which is not "uid-" followed by the decimal form of
`2^63`: the counter has wrapped to `math.MinInt`. -/
theorem generator_call_wraps_after_MaxInt :
    (ids.run (List.replicate 9223372036854775809 Gen.uid)).1[9223372036854775808]?
      = some "uid--9223372036854775808" ∧
    "uid--9223372036854775808" ≠ Gen.uid.tag ++ toString (9223372036854775808 : Nat) := by
  refine ⟨?_, by decide⟩
  rw [ids_run_replicate 9223372036854775809 9223372036854775808 Gen.uid (by decide)]
  decide

/-- C17 (amended): for every finite sequence of generator calls run one at a time
from the initial state in which no generator is called more than `2^63` times, one
string is returned per call; the call at position `n`, to generator `k`, returns
the tag of `k` followed by the decimal form of the number of earlier calls to `k`
(so the k-th call to a generator returns its tag with `k`: strictly increasing
and gap-free per counter); and no two calls of the sequence return the same
string. -/
theorem generator_calls_gap_free_and_distinct (calls : List Gen)
    (hbound : ∀ k : Gen, calls.count k ≤ 9223372036854775808) :
    (ids.run calls).1.length = calls.length ∧
    (∀ (n : Nat) (k : Gen), calls[n]? = some k →
      (ids.run calls).1[n]? = some (k.tag ++ toString ((calls.take n).count k))) ∧
    (ids.run calls).1.Nodup := by
  have hget : ∀ (n : Nat) (k : Gen), calls[n]? = some k →
      (ids.run calls).1[n]? = some (k.tag ++ toString ((calls.take n).count k)) := by
    intro n k h
    have hlt := count_take_lt_count h
    have hb := hbound k
    rw [ids_run_get calls n k h, wrapInt_of_range (by unfold MinInt; omega)
      (by unfold MaxInt; omega), Itoa_natCast]
  refine ⟨idgen_run_length calls ids, hget, ?_⟩
  rw [List.nodup_iff_getElem?_ne_getElem?]
  intro m n hmn hn heq
  rw [idgen_run_length] at hn
  have hm : m < calls.length := by omega
  have h1 := hget m _ (List.getElem?_eq_getElem hm)
  have h2 := hget n _ (List.getElem?_eq_getElem hn)
  rw [heq, h2] at h1
  obtain ⟨hk, hc⟩ := tagged_injective (Option.some.inj h1)
  have hlt := count_take_lt (List.getElem?_eq_getElem hm) hmn
  rw [hk] at hc
  omega

/-- Witness for C17: five interleaved calls, none of the generators called more
than `2^63` times; the call at position 3. -/
theorem generator_calls_gap_free_and_distinct_witness :
    (∀ k : Gen, ([.uid, .pod, .uid, .uid, .ctr] : List Gen).count k ≤ 9223372036854775808) ∧
    (ids.run [.uid, .pod, .uid, .uid, .ctr]).1[3]?
      = some (Gen.uid.tag ++
          toString ((([.uid, .pod, .uid, .uid, .ctr] : List Gen).take 3).count Gen.uid)) :=
  ⟨fun k => by cases k <;> decide,
    (generator_calls_gap_free_and_distinct [.uid, .pod, .uid, .uid, .ctr]
      (fun k => by cases k <;> decide)).2.1 3 .uid rfl⟩

/-! ## Configuration, allocation and persistence -/

theorem appendRow_loop_any (b : Batch) :
    forRange (fun _ b2 => appendRow b2) 0 b.CtrCount.toNat b
      = .ok { b with ctrs := b.ctrs ++
          List.replicate b.CtrCount.toNat (List.replicate b.CtrCount.toNat "") } := by
  by_cases hC : 0 ≤ b.CtrCount
  · exact appendRow_loop b _ hC
  · have h0 : b.CtrCount.toNat = 0 := by omega
    rw [h0]
    simp [forRange]

theorem allocate_any (b : Batch) (hP : 0 ≤ b.PodCount) :
    Batch.allocate b = .ok { b with
      pods := List.replicate b.PodCount.toNat ""
      ctrs := b.ctrs ++ List.replicate (b.PodCount.toNat * b.CtrCount.toNat)
        (List.replicate b.CtrCount.toNat "") } := by
  have key := forRange_inv
    (fun _ b1 => forRange (fun _ b2 => appendRow b2) 0 b1.CtrCount.toNat b1)
    (fun k s => s = { b with
      pods := List.replicate b.PodCount.toNat ""
      ctrs := b.ctrs ++ List.replicate (k * b.CtrCount.toNat)
        (List.replicate b.CtrCount.toNat "") }) b.PodCount.toNat
    (by
      rintro k s - rfl
      refine ⟨_, appendRow_loop_any _, ?_⟩
      simp only [List.append_assoc, ← List.replicate_add]
      rw [show k * b.CtrCount.toNat + b.CtrCount.toNat = (k + 1) * b.CtrCount.toNat by ring])
    b.PodCount.toNat 0 { b with pods := List.replicate b.PodCount.toNat "" } (by omega) (by simp)
  obtain ⟨s', hrun, hs'⟩ := key
  simp only [Batch.allocate, makeStrings, not_lt.mpr hP, if_false, hrun, hs']
  simp

theorem configure_fields (b : Batch) :
    (Batch.configure b).Namespace = (if b.Namespace = "" then "test" else b.Namespace) ∧
    (Batch.configure b).PodCount = (if b.PodCount = 0 then 1 else b.PodCount) ∧
    (Batch.configure b).CtrCount = (if b.CtrCount = 0 then 1 else b.CtrCount) ∧
    (Batch.configure b).Rounds = (if b.Rounds = 0 then 10 else b.Rounds) ∧
    (Batch.configure b).ctrs = b.ctrs ∧ (Batch.configure b).latency = b.latency ∧
    (Batch.configure b).errors = [] := by
  unfold Batch.configure
  by_cases h1 : b.Namespace = "" <;> by_cases h2 : b.PodCount = 0 <;>
    by_cases h3 : b.CtrCount = 0 <;> by_cases h4 : b.Rounds = 0 <;> simp [h1, h2, h3, h4]

/-- C18 (counterexample): a batch configured with negative counts keeps them after
the configuration step, and with a negative pod count the allocation step of `Run`
panics in `make`. -/
theorem Run_keeps_negative_counts_and_panics :
    (Batch.configure { PodCount := -1, CtrCount := -2, Rounds := -3 }).PodCount = -1 ∧
    (Batch.configure { PodCount := -1, CtrCount := -2, Rounds := -3 }).CtrCount = -2 ∧
    (Batch.configure { PodCount := -1, CtrCount := -2, Rounds := -3 }).Rounds = -3 ∧
    Batch.allocate (Batch.configure { PodCount := -1, CtrCount := -2, Rounds := -3 })
      = .error .makesliceLen := by
  decide

/-- C18 (amended): after the configuration step of `Run` the namespace is
non-empty ("test" when it was empty, otherwise unchanged); a zero pod count
becomes 1, a zero container count 1, a zero round count 10, and every non-zero
count is unchanged, so a count that was at least 0 is at least 1. The part of
`Run` that precedes the goroutine has one way to fail, the panic of `make`, which
a negative pod count causes (`Run` then never starts its goroutine); whenever that
part completes, the batch it hands to the goroutine carries the defaulted
namespace and counts. -/
theorem Run_configuration_defaults {σ : Type} (e : Exec σ) :
    (Batch.configure e.b).Namespace ≠ "" ∧
    (e.b.Namespace = "" → (Batch.configure e.b).Namespace = "test") ∧
    (e.b.Namespace ≠ "" → (Batch.configure e.b).Namespace = e.b.Namespace) ∧
    (e.b.PodCount = 0 → (Batch.configure e.b).PodCount = 1) ∧
    (e.b.CtrCount = 0 → (Batch.configure e.b).CtrCount = 1) ∧
    (e.b.Rounds = 0 → (Batch.configure e.b).Rounds = 10) ∧
    (e.b.PodCount ≠ 0 → (Batch.configure e.b).PodCount = e.b.PodCount) ∧
    (e.b.CtrCount ≠ 0 → (Batch.configure e.b).CtrCount = e.b.CtrCount) ∧
    (e.b.Rounds ≠ 0 → (Batch.configure e.b).Rounds = e.b.Rounds) ∧
    (0 ≤ e.b.PodCount → 1 ≤ (Batch.configure e.b).PodCount) ∧
    (0 ≤ e.b.CtrCount → 1 ≤ (Batch.configure e.b).CtrCount) ∧
    (0 ≤ e.b.Rounds → 1 ≤ (Batch.configure e.b).Rounds) ∧
    (e.b.PodCount < 0 → Batch.prepare e = .error .makesliceLen ∧
      ∀ rt : Runtime σ, Batch.Run rt e = .error .makesliceLen) ∧
    ((∃ e', Batch.prepare e = .ok e') ∨ Batch.prepare e = .error .makesliceLen) ∧
    (∀ e', Batch.prepare e = .ok e' →
      e'.b.Namespace = (Batch.configure e.b).Namespace ∧
      e'.b.PodCount = (Batch.configure e.b).PodCount ∧
      e'.b.CtrCount = (Batch.configure e.b).CtrCount ∧
      e'.b.Rounds = (Batch.configure e.b).Rounds ∧
      ∀ rt : Runtime σ, Batch.Run rt e = Batch.rounds rt e') := by
  obtain ⟨hN, hP, hC, hR, -, -, -⟩ := configure_fields e.b
  have hneg : (Batch.configure e.b).PodCount < 0 → Batch.prepare e = .error .makesliceLen := by
    intro h
    simp only [Batch.prepare, Batch.allocate, makeStrings, h, if_true]
  have hpos : 0 ≤ (Batch.configure e.b).PodCount → ∀ e', Batch.prepare e = .ok e' →
      e'.b.Namespace = (Batch.configure e.b).Namespace ∧
      e'.b.PodCount = (Batch.configure e.b).PodCount ∧
      e'.b.CtrCount = (Batch.configure e.b).CtrCount ∧
      e'.b.Rounds = (Batch.configure e.b).Rounds := by
    intro h e' he'
    unfold Batch.prepare at he'
    rw [allocate_any _ h] at he'
    cases he'
    exact ⟨rfl, rfl, rfl, rfl⟩
  refine ⟨?_, ?_, ?_, ?_, ?_, ?_, ?_, ?_, ?_, ?_, ?_, ?_, ?_, ?_, ?_⟩
  · rw [hN]; by_cases h : e.b.Namespace = ""
    · simp [h]
    · simp [h]
  · intro h; rw [hN]; simp [h]
  · intro h; rw [hN]; simp [h]
  · intro h; rw [hP]; simp [h]
  · intro h; rw [hC]; simp [h]
  · intro h; rw [hR]; simp [h]
  · intro h; rw [hP]; simp [h]
  · intro h; rw [hC]; simp [h]
  · intro h; rw [hR]; simp [h]
  · intro h; rw [hP]; split <;> omega
  · intro h; rw [hC]; split <;> omega
  · intro h; rw [hR]; split <;> omega
  · intro h
    have h' : (Batch.configure e.b).PodCount < 0 := by
      rw [hP, if_neg (by omega)]; exact h
    refine ⟨hneg h', fun rt => ?_⟩
    simp only [Batch.Run, hneg h', bind, Except.bind]
  · by_cases h : (Batch.configure e.b).PodCount < 0
    · exact Or.inr (hneg h)
    · left
      unfold Batch.prepare
      rw [allocate_any _ (not_lt.mp h)]
      exact ⟨_, rfl⟩
  · intro e' he'
    by_cases h : (Batch.configure e.b).PodCount < 0
    · rw [hneg h] at he'
      cases he'
    · obtain ⟨h1, h2, h3, h4⟩ := hpos (not_lt.mp h) e' he'
      refine ⟨h1, h2, h3, h4, fun rt => ?_⟩
      simp only [Batch.Run, he', bind, Except.bind]

/-- Witness for C18 (amended): `batch0`, whose namespace is empty, and the same
batch with the pod count -1, on which `Run` panics in `make`. -/
theorem Run_configuration_defaults_witness :
    (Batch.configure exec0.b).Namespace = "test" ∧
    ({ exec0 with b.PodCount := -1 } : Exec Unit).b.PodCount < 0 ∧
    Batch.prepare { exec0 with b.PodCount := -1 } = .error .makesliceLen ∧
    ∀ rt : Runtime Unit, Batch.Run rt { exec0 with b.PodCount := -1 } = .error .makesliceLen :=
  ⟨(Run_configuration_defaults exec0).2.1 rfl, by decide,
    (Run_configuration_defaults { exec0 with b.PodCount := -1 }).2.2.2.2.2.2.2.2.2.2.2.2.1
      (by decide)⟩

/-- C19 (the code at the failing inputs): on a batch with `P ≥ 1` and `C ≥ 1` on
which `Run` is called for the first time, the allocation step leaves `P` pod
slots, all empty, and `P * C` rows of `C` empty container slots each: one row per
pair `(i, j)` of the nested loops, so more than `P` rows as soon as `C ≥ 2`. -/
theorem allocation_appends_row_per_pair {σ : Type} (e : Exec σ) (hP : 1 ≤ e.b.PodCount)
    (hC : 1 ≤ e.b.CtrCount) (hfresh : e.b.ctrs = []) :
    ∃ e', Batch.prepare e = .ok e' ∧
      e'.b.pods = List.replicate e.b.PodCount.toNat "" ∧
      e'.b.ctrs = List.replicate (e.b.PodCount.toNat * e.b.CtrCount.toNat)
        (List.replicate e.b.CtrCount.toNat "") ∧
      (e'.b.ctrs.length : Int) = e.b.PodCount * e.b.CtrCount ∧
      (2 ≤ e.b.CtrCount → e.b.PodCount < e'.b.ctrs.length) := by
  obtain ⟨-, cP, cC, -, cctrs, -, -⟩ := configure_fields e.b
  have hP0 : e.b.PodCount ≠ 0 := by omega
  have hC0 : e.b.CtrCount ≠ 0 := by omega
  simp only [hP0, hC0, if_false] at cP cC
  obtain ⟨b1, halloc, bpods, bctrs⟩ :
      ∃ b1, Batch.allocate (Batch.configure e.b) = .ok b1 ∧
        b1.pods = List.replicate e.b.PodCount.toNat "" ∧
        b1.ctrs = List.replicate (e.b.PodCount.toNat * e.b.CtrCount.toNat)
          (List.replicate e.b.CtrCount.toNat "") :=
    ⟨_, allocate_any (Batch.configure e.b) (by rw [cP]; omega), by simp only [cP],
      by simp only [cP, cC, cctrs, hfresh, List.nil_append]⟩
  have hlen : ((e.b.PodCount.toNat * e.b.CtrCount.toNat : Nat) : Int)
      = e.b.PodCount * e.b.CtrCount := by
    push_cast
    rw [Int.toNat_of_nonneg (by omega), Int.toNat_of_nonneg (by omega)]
  refine ⟨{ e with b := b1 }, by simp only [Batch.prepare, halloc], bpods, bctrs, ?_, ?_⟩
  · show ((b1.ctrs.length : Nat) : Int) = _
    rw [bctrs, List.length_replicate]
    exact hlen
  · intro h2
    show e.b.PodCount < ((b1.ctrs.length : Nat) : Int)
    rw [bctrs, List.length_replicate, hlen]
    nlinarith

/-- Witness for C19: 2 pods with 3 containers each give 6 rows of 3 slots. -/
theorem allocation_appends_row_per_pair_witness :
    ∃ e', Batch.prepare { exec0 with b.PodCount := 2, b.CtrCount := 3 } = .ok e' ∧
      e'.b.pods = List.replicate 2 "" ∧
      e'.b.ctrs = List.replicate (2 * 3) (List.replicate 3 "") ∧
      (e'.b.ctrs.length : Int) = 2 * 3 ∧
      ((2 : Int) ≤ 3 → (2 : Int) < e'.b.ctrs.length) :=
  allocation_appends_row_per_pair { exec0 with b.PodCount := 2, b.CtrCount := 3 }
    (by decide) (by decide) rfl

theorem jsonName_hasSuffix (p : String) : HasSuffix (jsonName p) ".json" = true := by
  unfold jsonName
  by_cases h : HasSuffix p ".json" = true
  · simp [h]
  · simp only [h, if_false, Bool.false_eq_true]
    unfold HasSuffix
    rw [List.isSuffixOf_iff_suffix, String.data_append]
    exact List.suffix_append _ _

/-- C20 (the code at the failing inputs): `flag.String` never returns a nil
pointer, so the test `outFile != nil` of `main` always passes and `Save` is called
whatever `-save` was: with `-save` absent or empty, `Save("")` creates the file
".json". The rest of the decision is as claimed: "-" selects standard output,
any other name is kept when it ends in ".json" and gets ".json" appended
otherwise, so the target name ends in ".json" and completing it twice changes
nothing. -/
theorem main_calls_Save_for_empty_path (l : RuntimeLatency) :
    mainSave (flagString none "") l = some ⟨.file ".json", l⟩ ∧
    mainSave (flagString (some "") "") l = some ⟨.file ".json", l⟩ ∧
    (∀ given, ∃ w, mainSave (flagString given "") l = some w) ∧
    mainSave (flagString (some "-") "") l = some ⟨.stdout, l⟩ ∧
    (∀ p, p ≠ "-" → mainSave (flagString (some p) "") l = some ⟨.file (jsonName p), l⟩) ∧
    (∀ p, HasSuffix p ".json" = true → jsonName p = p) ∧
    (∀ p, HasSuffix p ".json" = false → jsonName p = p ++ ".json") ∧
    (∀ p, HasSuffix (jsonName p) ".json" = true) ∧
    (∀ p, jsonName (jsonName p) = jsonName p) := by
  have h1 : jsonName "" = ".json" := by decide
  have hne : ("" : String) ≠ "-" := by decide
  refine ⟨?_, ?_, fun given => ⟨_, rfl⟩, ?_, ?_, ?_, ?_, jsonName_hasSuffix, ?_⟩
  · simp only [mainSave, flagString, Option.getD, RuntimeLatency.Save, hne, if_false, h1]
  · simp only [mainSave, flagString, Option.getD, RuntimeLatency.Save, hne, if_false, h1]
  · simp only [mainSave, flagString, Option.getD, RuntimeLatency.Save, if_true]
  · intro p hp
    simp only [mainSave, flagString, Option.getD, RuntimeLatency.Save, hp, if_false]
  · intro p h
    unfold jsonName
    rw [if_pos h]
  · intro p h
    unfold jsonName
    rw [if_neg (by simp [h])]
  · intro p
    show (if HasSuffix (jsonName p) ".json" = true then jsonName p else jsonName p ++ ".json")
      = jsonName p
    rw [if_pos (jsonName_hasSuffix p)]

/-- Witness for C20: the path "out" is completed to "out.json". -/
theorem main_calls_Save_for_empty_path_witness :
    mainSave (flagString (some "out") "") {} = some ⟨.file (jsonName "out"), {}⟩ ∧
    jsonName "out" = "out.json" :=
  ⟨(main_calls_Save_for_empty_path {}).2.2.2.2.1 "out" (by decide), by decide⟩

/-! ## The slot grids under any runtime -/

/-- C11 (the code at the failing input): `batch0` on a runtime whose `CreatePod`
always fails and whose `CreateContainer` succeeds. After `createContainers` of the
first round, and again at the end of the run, the container slot `ctrs[0][0]`
holds a handle while the pod slot `pods[0]` is empty: the slot invariant is
broken. -/
theorem slot_invariant_broken_after_createContainers :
    (∃ e', (Batch.prepare exec0 >>= Batch.createPods noPodsRuntime
        >>= Batch.createContainers noPodsRuntime) = .ok e' ∧
      e'.b.pods = [""] ∧ e'.b.ctrs = [["c"]] ∧ ¬ SlotInvariant e'.b) ∧
    (∃ e', Batch.Run noPodsRuntime exec0 = .ok e' ∧
      e'.b.pods = [""] ∧ e'.b.ctrs = [["c"]] ∧ ¬ SlotInvariant e'.b) := by
  have hbad : ∀ b : Batch, b.pods = [""] → b.ctrs = [["c"]] → ¬ SlotInvariant b := by
    intro b hp hc h
    obtain ⟨p, hp', hne⟩ := h 0 0 "c" (by simp [Batch.ctr, hc]) (by decide)
    rw [hp] at hp'
    simp only [List.getElem?_cons_zero, Option.some.injEq] at hp'
    exact hne hp'.symm
  exact ⟨⟨_, rfl, rfl, rfl, hbad _ rfl rfl⟩, ⟨_, rfl, rfl, rfl, hbad _ rfl rfl⟩⟩

theorem createContainersBody_slot {σ : Type} (rt : Runtime σ)
    (hconv : FailedCreateContainerIsEmpty rt) (P C i j : Nat) (pod : String)
    (e : Exec σ) (hg : Grid P C e.b) (hi : i < P) (hj : j < C) :
    ∃ (e' : Exec σ) (okb : Bool), createContainersBody rt i pod j e = .ok e' ∧ Grid P C e'.b ∧
      e'.b.pods = e.b.pods ∧ e'.trace = e.trace ++ [⟨.CreateContainer, i, some j, okb⟩] ∧
      (okb = false → e'.b.ctr i j = some "") ∧
      ∀ i' j', ¬ (i' = i ∧ j' = j) → e'.b.ctr i' j' = e.b.ctr i' j' := by
  obtain ⟨row, hrow, hlen⟩ := hg.rows i hi
  have hjr : j < row.length := by omega
  have hframe : ∀ (b' : Batch) (v : String), b'.ctrs = e.b.ctrs.set i (row.set j v) →
      ∀ i' j', ¬ (i' = i ∧ j' = j) → b'.ctr i' j' = e.b.ctr i' j' := by
    intro b' v hb' i' j' hne
    rw [ctr_set e.b b' i j i' j' row v hrow hb']
    have : ¬ (i' = i ∧ j' = j ∧ j < row.length) := fun h => hne ⟨h.1, h.2.1⟩
    simp only [this, if_false]
  simp only [createContainersBody, hrow, hjr, if_true]
  rcases herr : (rt.CreateContainer pod ("ctr-" ++ toString j) e.ids.GenUID.1 e.rt).1.err
    with _ | m
  · exact ⟨_, true, rfl, hg.set_ctr i j row _ hrow rfl rfl rfl rfl, rfl, rfl,
      fun h => by simp at h, hframe _ _ rfl⟩
  · refine ⟨_, false, rfl, hg.set_ctr i j row _ hrow rfl rfl rfl rfl, rfl, rfl, fun _ => ?_,
      hframe _ _ rfl⟩
    have hempty := hconv pod ("ctr-" ++ toString j) e.ids.GenUID.1 e.rt (by rw [herr]; simp)
    rw [ctr_set e.b _ i j i j row _ hrow rfl, hempty]
    simp [hjr]

theorem createContainersPod_slot {σ : Type} (rt : Runtime σ)
    (hconv : FailedCreateContainerIsEmpty rt) (P C i : Nat) (e : Exec σ)
    (hg : Grid P C e.b) (hi : i < P) :
    ∃ (e' : Exec σ) (calls : List Call), createContainersPod rt i e = .ok e' ∧
      Grid P C e'.b ∧ e'.b.pods = e.b.pods ∧ e'.trace = e.trace ++ calls ∧
      (∀ c ∈ calls, c.pod = i) ∧
      (∀ j, (⟨.CreateContainer, i, some j, false⟩ : Call) ∈ calls → e'.b.ctr i j = some "") ∧
      ∀ i' j', i' ≠ i → e'.b.ctr i' j' = e.b.ctr i' j' := by
  have hlen : i < e.b.pods.length := by rw [hg.pods_len]; exact hi
  obtain ⟨pod, hpod⟩ : ∃ pod, e.b.pods[i]? = some pod := ⟨_, List.getElem?_eq_getElem hlen⟩
  have key := forRange_inv (createContainersBody rt i pod)
    (fun k s => Grid P C s.b ∧ s.b.pods = e.b.pods ∧ ∃ calls : List Call,
      s.trace = e.trace ++ calls ∧
      (∀ c ∈ calls, c.pod = i ∧ ∃ j', j' < k ∧ c.ctr = some j') ∧
      (∀ j, (⟨.CreateContainer, i, some j, false⟩ : Call) ∈ calls → s.b.ctr i j = some "") ∧
      ∀ i' j', i' ≠ i → s.b.ctr i' j' = e.b.ctr i' j') C
    (by
      rintro j s hj ⟨hgs, hp, calls, ht, hcalls, hfail, hfr⟩
      obtain ⟨s', okb, hb, hg', hp', ht', hslot, hfr'⟩ :=
        createContainersBody_slot rt hconv P C i j pod s hgs hi hj
      refine ⟨s', hb, hg', hp'.trans hp, calls ++ [⟨.CreateContainer, i, some j, okb⟩],
        by rw [ht', ht, List.append_assoc], ?_, ?_, ?_⟩
      · intro c hc
        rcases List.mem_append.mp hc with h | h
        · obtain ⟨h1, j', hj', h2⟩ := hcalls c h
          exact ⟨h1, j', by omega, h2⟩
        · rw [List.mem_singleton.mp h]
          exact ⟨rfl, j, Nat.lt_succ_self j, rfl⟩
      · intro j' hmem
        rcases List.mem_append.mp hmem with h | h
        · obtain ⟨-, j'', hj'', h2⟩ := hcalls _ h
          have hjj : j' = j'' := by simpa using h2
          rw [hfr' i j' (fun hh => by omega)]
          exact hfail j' h
        · have := List.mem_singleton.mp h
          have hjj : j' = j := by simpa using congrArg Call.ctr this
          have hok : okb = false := by simpa using (congrArg Call.ok this).symm
          subst hjj
          exact hslot hok
      · intro i' j' hne
        rw [hfr' i' j' (fun hh => hne hh.1)]
        exact hfr i' j' hne)
    C 0 e (by omega)
    ⟨hg, rfl, [], by simp, by simp, by simp, fun _ _ _ => rfl⟩
  obtain ⟨s', hrun, hg', hp, calls, ht, hcalls, hfail, hfr⟩ := key
  exact ⟨s', calls, by simp only [createContainersPod, hpod, hg.ctrCount, hrun], hg', hp, ht,
    fun c hc => (hcalls c hc).1, hfail, hfr⟩

theorem createContainers_slot {σ : Type} (rt : Runtime σ)
    (hconv : FailedCreateContainerIsEmpty rt) (P C : Nat) (e : Exec σ) (hg : Grid P C e.b) :
    ∃ (e' : Exec σ) (calls : List Call), Batch.createContainers rt e = .ok e' ∧
      e'.trace = e.trace ++ calls ∧
      ∀ i j, (⟨.CreateContainer, i, some j, false⟩ : Call) ∈ calls → e'.b.ctr i j = some "" := by
  have key := forRange_inv (createContainersPod rt)
    (fun k s => Grid P C s.b ∧ ∃ calls : List Call, s.trace = e.trace ++ calls ∧
      (∀ c ∈ calls, c.pod < k) ∧
      ∀ i j, (⟨.CreateContainer, i, some j, false⟩ : Call) ∈ calls → s.b.ctr i j = some "") P
    (by
      rintro i s hi ⟨hgs, calls, ht, hcalls, hfail⟩
      obtain ⟨s', rowcalls, hb, hg', -, ht', hrow, hslot, hfr⟩ :=
        createContainersPod_slot rt hconv P C i s hgs hi
      refine ⟨s', hb, hg', calls ++ rowcalls, by rw [ht', ht, List.append_assoc], ?_, ?_⟩
      · intro c hc
        rcases List.mem_append.mp hc with h | h
        · exact Nat.lt_succ_of_lt (hcalls c h)
        · rw [hrow c h]; exact Nat.lt_succ_self i
      · intro i' j' hmem
        rcases List.mem_append.mp hmem with h | h
        · have hlt : i' < i := hcalls _ h
          rw [hfr i' j' (by omega)]
          exact hfail i' j' h
        · have hii : i' = i := hrow _ h
          subst hii
          exact hslot j' h)
    P 0 e (by omega) ⟨hg, [], by simp, by simp, by simp⟩
  obtain ⟨s', hrun, -, calls, ht, -, hfail⟩ := key
  exact ⟨s', calls, by simp only [Batch.createContainers, hg.pods_len, hrun], ht, hfail⟩

/-- C12 (counterexample): when the failing `CreatePod` returns the handle "z" with
its error, the pod slot holds "z" after `createPods` although all 3 attempts
failed; when the failing `CreateContainer` returns "z" with its error, the
container slot holds "z" after `createContainers`. -/
theorem failed_creation_keeps_returned_handle :
    (Batch.createPods staleHandleRuntime exec1).toOption.map (fun e => (e.trace, e.b.pods))
      = some ([⟨.RunPodSandbox, 0, none, false⟩, ⟨.RunPodSandbox, 0, none, false⟩,
          ⟨.RunPodSandbox, 0, none, false⟩], ["z"]) ∧
    (Batch.createPods staleContainerRuntime exec1
        >>= Batch.createContainers staleContainerRuntime).toOption.map
        (fun e => (e.trace, e.b.pods, e.b.ctrs))
      = some ([⟨.RunPodSandbox, 0, none, true⟩, ⟨.CreateContainer, 0, some 0, false⟩],
          ["p"], [["z"]]) := by
  constructor <;> decide

/-- C12 (amended): on well-shaped grids, a failed creation leaves its slot empty
when the runtime returned the empty handle alongside the error. For a runtime
whose failing `CreatePod` returns the empty handle, a pod index whose `CreatePod`
calls all failed has `pods[i]` empty after `createPods`; for a runtime whose
failing `CreateContainer` returns the empty handle, an `(i, j)` whose
`CreateContainer` call failed has `ctrs[i][j]` empty after `createContainers`. -/
theorem failed_creation_leaves_slot_empty {σ : Type} (rt : Runtime σ) (P C : Nat)
    (e : Exec σ) (hg : Grid P C e.b) :
    (FailedCreatePodIsEmpty rt →
      ∃ (e' : Exec σ) (calls : List Call), Batch.createPods rt e = .ok e' ∧
        e'.trace = e.trace ++ calls ∧
        ∀ i, i < P → (∀ c ∈ calls, c.pod = i → c.ok = false) → e'.b.pods[i]? = some "") ∧
    (FailedCreateContainerIsEmpty rt →
      ∃ (e' : Exec σ) (calls : List Call), Batch.createContainers rt e = .ok e' ∧
        e'.trace = e.trace ++ calls ∧
        ∀ i j, (⟨.CreateContainer, i, some j, false⟩ : Call) ∈ calls →
          e'.b.ctr i j = some "") := by
  constructor
  · intro hconv
    obtain ⟨e', calls, errs, hr, -, -, ht, -, hidx⟩ := createPods_effect rt P C e hg
    exact ⟨e', calls, hr, ht, fun i hi hfail => (hidx i hi hfail).2.2 hconv⟩
  · intro hconv
    exact createContainers_slot rt hconv P C e hg

theorem failingRuntime_conv :
    FailedCreatePodIsEmpty failingRuntime ∧ FailedCreateContainerIsEmpty failingRuntime :=
  ⟨fun _ _ _ _ _ => rfl, fun _ _ _ _ _ => rfl⟩

/-- Witness for C12 (amended): the allocated `batch0` on the runtime in which every
call fails with the empty handle. -/
theorem failed_creation_leaves_slot_empty_witness :
    (∃ (e' : Exec Unit) (calls : List Call), Batch.createPods failingRuntime exec1 = .ok e' ∧
        e'.trace = exec1.trace ++ calls ∧
        ∀ i, i < 1 → (∀ c ∈ calls, c.pod = i → c.ok = false) → e'.b.pods[i]? = some "") ∧
    (∃ (e' : Exec Unit) (calls : List Call),
        Batch.createContainers failingRuntime exec1 = .ok e' ∧
        e'.trace = exec1.trace ++ calls ∧
        ∀ i j, (⟨.CreateContainer, i, some j, false⟩ : Call) ∈ calls →
          e'.b.ctr i j = some "") :=
  ⟨(failed_creation_leaves_slot_empty failingRuntime 1 1 exec1 exec1_grid).1
      failingRuntime_conv.1,
    (failed_creation_leaves_slot_empty failingRuntime 1 1 exec1 exec1_grid).2
      failingRuntime_conv.2⟩

theorem containerStep_clear {σ : Type} (op : Op) (call : String → σ → Status × σ)
    (P C i j : Nat) (e : Exec σ) (hg : Grid P C e.b) (hi : i < P) (hj : j < C) :
    ∃ e', containerStep op call (fun _ => "") i j e = .ok e' ∧ Grid P C e'.b ∧
      e'.b.pods = e.b.pods ∧ e'.b.ctr i j = some "" ∧
      ∀ i' j', ¬ (i' = i ∧ j' = j) → e'.b.ctr i' j' = e.b.ctr i' j' := by
  obtain ⟨row, hrow, hlen⟩ := hg.rows i hi
  have hjr : j < row.length := by omega
  obtain ⟨ctr, hctr⟩ : ∃ ctr, row[j]? = some ctr := ⟨_, List.getElem?_eq_getElem hjr⟩
  have hframe : ∀ (b' : Batch), b'.ctrs = e.b.ctrs.set i (row.set j "") →
      b'.ctr i j = some "" ∧
      ∀ i' j', ¬ (i' = i ∧ j' = j) → b'.ctr i' j' = e.b.ctr i' j' := by
    intro b' hb'
    refine ⟨by rw [ctr_set e.b b' i j i j row "" hrow hb']; simp [hjr], fun i' j' hne => ?_⟩
    rw [ctr_set e.b b' i j i' j' row "" hrow hb']
    have : ¬ (i' = i ∧ j' = j ∧ j < row.length) := fun h => hne ⟨h.1, h.2.1⟩
    simp only [this, if_false]
  by_cases hempty : ctr = ""
  · refine ⟨e, by simp only [containerStep, hrow, hctr, hempty, if_true], hg, rfl, ?_,
      fun _ _ _ => rfl⟩
    rw [ctr_of_row hrow, hctr, hempty]
  · simp only [containerStep, hrow, hctr, hempty, if_false]
    rcases herr : (call ctr e.rt).1.err with _ | m
    · exact ⟨_, rfl, hg.set_ctr i j row _ hrow rfl rfl rfl rfl, rfl, (hframe _ rfl).1,
        (hframe _ rfl).2⟩
    · exact ⟨_, rfl, hg.set_ctr i j row _ hrow rfl rfl rfl rfl, rfl, (hframe _ rfl).1,
        (hframe _ rfl).2⟩

theorem containerPhase_clear {σ : Type} (op : Op) (call : String → σ → Status × σ)
    (P C : Nat) (e : Exec σ) (hg : Grid P C e.b) :
    ∃ e', forRange (containerRow op call (fun _ => "")) 0 e.b.pods.length e = .ok e' ∧
      Grid P C e'.b ∧ e'.b.pods = e.b.pods ∧
      ∀ i j, i < P → j < C → PodLive e.b i → e'.b.ctr i j = some "" := by
  have key := forRange_inv (containerRow op call (fun _ => ""))
    (fun k s => Grid P C s.b ∧ s.b.pods = e.b.pods ∧
      ∀ i j, i < k → j < C → PodLive e.b i → s.b.ctr i j = some "") P
    (by
      rintro i s hi ⟨hgs, hp, hdone⟩
      have hlen : i < s.b.pods.length := by rw [hgs.pods_len]; exact hi
      obtain ⟨pod, hpod⟩ : ∃ pod, s.b.pods[i]? = some pod := ⟨_, List.getElem?_eq_getElem hlen⟩
      by_cases hempty : pod = ""
      · refine ⟨s, by simp only [containerRow, hpod, hempty, if_true], hgs, hp, ?_⟩
        intro k j hk hj hlive
        by_cases hki : k = i
        · subst hki
          obtain ⟨p, hp', hne⟩ := hlive
          rw [← hp, hpod] at hp'
          cases hp'
          exact absurd hempty hne
        · exact hdone k j (by omega) hj hlive
      · obtain ⟨row, hrow, hrlen⟩ := hgs.rows i hi
        have inner := forRange_inv (containerStep op call (fun _ => "") i)
          (fun n t => Grid P C t.b ∧ t.b.pods = e.b.pods ∧
            (∀ j, j < n → t.b.ctr i j = some "") ∧
            ∀ i' j', i' ≠ i → t.b.ctr i' j' = s.b.ctr i' j') C
          (by
            rintro j t hj ⟨hgt, hpt, hrowdone, hfr⟩
            obtain ⟨t', hb, hg', hp', hset, hfr'⟩ :=
              containerStep_clear op call P C i j t hgt hi hj
            refine ⟨t', hb, hg', hp'.trans hpt, ?_, ?_⟩
            · intro n hn
              by_cases hnj : n = j
              · subst hnj; exact hset
              · rw [hfr' i n (fun h => hnj h.2)]; exact hrowdone n (by omega)
            · intro i' j' hne
              rw [hfr' i' j' (fun h => hne h.1)]; exact hfr i' j' hne)
          C 0 s (by omega) ⟨hgs, hp, fun j hj => absurd hj (Nat.not_lt_zero j), fun _ _ _ => rfl⟩
        obtain ⟨t', hrun, hg', hp', hrowdone, hfr⟩ := inner
        refine ⟨t', by simp only [containerRow, hpod, hempty, if_false, hrow, hrlen, hrun],
          hg', hp', ?_⟩
        intro k j hk hj hlive
        by_cases hki : k = i
        · subst hki; exact hrowdone j (by simpa using hj)
        · rw [hfr k j hki]; exact hdone k j (by omega) hj hlive)
    P 0 e (by omega) ⟨hg, rfl, fun i _ hi => absurd hi (Nat.not_lt_zero i)⟩
  obtain ⟨s', hrun, hg', hp, hdone⟩ := key
  exact ⟨s', by simp only [hg.pods_len, hrun], hg', hp,
    fun i j hi hj hl => hdone i j (by simpa using hi) hj hl⟩

theorem podPhase_clear {σ : Type} (op : Op) (call : String → σ → Status × σ) (e : Exec σ) :
    ∃ e', forRange (podStep op call true) 0 e.b.pods.length e = .ok e' ∧
      e'.b.pods = List.replicate e.b.pods.length "" := by
  have key := forRange_inv (podStep op call true)
    (fun k s => s.b.pods.length = e.b.pods.length ∧ ∀ i, i < k → s.b.pods[i]? = some "")
    e.b.pods.length
    (by
      rintro i s hi ⟨hlen, hdone⟩
      have hlt : i < s.b.pods.length := by rw [hlen]; exact hi
      obtain ⟨pod, hpod⟩ : ∃ pod, s.b.pods[i]? = some pod := ⟨_, List.getElem?_eq_getElem hlt⟩
      by_cases hempty : pod = ""
      · refine ⟨s, by simp only [podStep, hpod, hempty, if_true], hlen, fun k hk => ?_⟩
        by_cases hki : k = i
        · subst hki; rw [hpod, hempty]
        · exact hdone k (by omega)
      · have hset : ∀ k, k < i + 1 → (s.b.pods.set i "")[k]? = some "" := by
          intro k hk
          by_cases hki : k = i
          · subst hki; simp [hlt]
          · have : i ≠ k := fun h => hki h.symm
            simp only [List.getElem?_set, this, if_false]
            exact hdone k (by omega)
        simp only [podStep, hpod, hempty, if_false, if_true]
        rcases herr : (call pod s.rt).1.err with _ | m
        · exact ⟨_, rfl, by simpa using hlen, hset⟩
        · exact ⟨_, rfl, by simpa using hlen, hset⟩)
    e.b.pods.length 0 e (by omega) ⟨rfl, fun i hi => absurd hi (Nat.not_lt_zero i)⟩
  obtain ⟨s', hrun, hlen, hdone⟩ := key
  refine ⟨s', hrun, ?_⟩
  apply List.ext_getElem?
  intro k
  by_cases hk : k < e.b.pods.length
  · rw [hdone k (by simpa using hk)]
    simp [List.getElem?_replicate, hk]
  · rw [List.getElem?_eq_none (by omega), List.getElem?_eq_none (by simp; omega)]

theorem round_phases {σ : Type} (rt : Runtime σ) (P C : Nat) (e : Exec σ) (hg : Grid P C e.b) :
    ∃ e1 e2 e3 e4 e5 e6 e7 : Exec σ,
      (Batch.createPods rt e = .ok e1 ∧ Grid P C e1.b) ∧
      (Batch.createContainers rt e1 = .ok e2 ∧ Grid P C e2.b) ∧
      (Batch.startContainers rt e2 = .ok e3 ∧ Grid P C e3.b) ∧
      (Batch.stopContainers rt e3 = .ok e4 ∧ Grid P C e4.b) ∧
      (Batch.removeContainers rt e4 = .ok e5 ∧ Grid P C e5.b) ∧
      (Batch.stopPods rt e5 = .ok e6 ∧ Grid P C e6.b) ∧
      (Batch.removePods rt e6 = .ok e7 ∧ Grid P C e7.b) ∧
      Batch.round rt e = .ok e7 := by
  obtain ⟨e1, -, -, r1, g1, -⟩ := createPods_effect rt P C e hg
  obtain ⟨e2, r2, g2, -⟩ := createContainers_effect rt P C e1 g1
  obtain ⟨e3, r3, g3, -⟩ :=
    containerPhase_effect .StartContainer rt.StartContainer id (by decide) P C e2 g2
  obtain ⟨e4, r4, g4, -⟩ :=
    containerPhase_effect .StopContainer rt.StopContainer id (by decide) P C e3 g3
  obtain ⟨e5, r5, g5, -⟩ :=
    containerPhase_effect .RemoveContainer rt.RemoveContainer (fun _ => "") (by decide) P C e4 g4
  obtain ⟨e6, r6, g6, -⟩ :=
    podPhase_effect .StopPodSandbox rt.StopPod false (by decide) P C e5 g5
  obtain ⟨e7, r7, g7, -⟩ :=
    podPhase_effect .RemovePodSandbox rt.RemovePod true (by decide) P C e6 g6
  refine ⟨e1, e2, e3, e4, e5, e6, e7, ⟨r1, g1⟩, ⟨r2, g2⟩, ⟨r3, g3⟩, ⟨r4, g4⟩, ⟨r5, g5⟩,
    ⟨r6, g6⟩, ⟨r7, g7⟩, ?_⟩
  simp only [Batch.round, Batch.afterCreatePods, Batch.startContainers, Batch.stopContainers,
    Batch.removeContainers, Batch.stopPods, Batch.removePods, bind, Except.bind,
    r1, r2, r3, r4, r5, r6, r7]

theorem Grid.ctr_index {P C : Nat} {b : Batch} (hg : Grid P C b) {i j : Nat} {c : String}
    (hi : i < P) (h : b.ctr i j = some c) : j < C := by
  obtain ⟨row, hrow, hlen⟩ := hg.rows i hi
  rw [ctr_of_row hrow] at h
  have := (List.getElem?_eq_some_iff.mp h).1
  omega

theorem PodLive.index {P C : Nat} {b : Batch} (hg : Grid P C b) {i : Nat} (h : PodLive b i) :
    i < P := by
  obtain ⟨p, hp, -⟩ := h
  have := (List.getElem?_eq_some_iff.mp hp).1
  rw [hg.pods_len] at this
  exact this

/-- C13: on well-shaped grids and whatever the runtime answers, after
`removeContainers` every container slot in a row whose pod slot holds a handle is
empty; after `removePods` every pod slot is empty; and a round completes with all
`P` pod slots empty. -/
theorem remove_phases_clear_slots {σ : Type} (rt : Runtime σ) (P C : Nat) (e : Exec σ)
    (hg : Grid P C e.b) :
    (∃ e', Batch.removeContainers rt e = .ok e' ∧ e'.b.pods = e.b.pods ∧
      ∀ i j c, PodLive e'.b i → e'.b.ctr i j = some c → c = "") ∧
    (∃ e', Batch.removePods rt e = .ok e' ∧ e'.b.pods = List.replicate P "") ∧
    (∃ e', Batch.round rt e = .ok e' ∧ e'.b.pods = List.replicate P "") := by
  refine ⟨?_, ?_, ?_⟩
  · obtain ⟨e', hr, hg', hp, hclr⟩ :=
      containerPhase_clear .RemoveContainer rt.RemoveContainer P C e hg
    refine ⟨e', hr, hp, fun i j c hlive hc => ?_⟩
    have hi : i < P := hlive.index hg'
    have hj : j < C := hg'.ctr_index hi hc
    have hlive' : PodLive e.b i := by
      unfold PodLive at hlive ⊢
      rw [← hp]; exact hlive
    rw [hclr i j hi hj hlive'] at hc
    exact (Option.some.inj hc).symm
  · obtain ⟨e', hr, hp⟩ := podPhase_clear .RemovePodSandbox rt.RemovePod e
    exact ⟨e', hr, by rw [hp, hg.pods_len]⟩
  · obtain ⟨e1, e2, e3, e4, e5, e6, e7, -, -, -, -, -, ⟨-, g6⟩, ⟨r7, -⟩, hround⟩ :=
      round_phases rt P C e hg
    obtain ⟨e', hr, hp⟩ := podPhase_clear .RemovePodSandbox rt.RemovePod e6
    have heq : e7 = e' := by
      have : (Except.ok e7 : Except GoPanic (Exec σ)) = .ok e' := r7.symm.trans hr
      exact Except.ok.inj this
    exact ⟨e7, hround, by rw [heq, hp, g6.pods_len]⟩

/-- Witness for C13: a live pod with a live container on a runtime in which every
removal fails. -/
theorem remove_phases_clear_slots_witness :
    (∃ e', Batch.removeContainers stuckRuntime exec2 = .ok e' ∧ e'.b.pods = exec2.b.pods ∧
      ∀ i j c, PodLive e'.b i → e'.b.ctr i j = some c → c = "") ∧
    (∃ e', Batch.removePods stuckRuntime exec2 = .ok e' ∧ e'.b.pods = List.replicate 1 "") ∧
    (∃ e', Batch.round stuckRuntime exec2 = .ok e' ∧ e'.b.pods = List.replicate 1 "") :=
  remove_phases_clear_slots stuckRuntime 1 1 exec2
    ⟨rfl, rfl, rfl, fun i hi => ⟨["c"], by
      have : i = 0 := by omega
      subst this; rfl, rfl⟩⟩

theorem onlyLatencyAndErrors_iff (b b' : Batch) :
    OnlyLatencyAndErrors b b' ↔
      b'.BatchName = b.BatchName ∧ b'.Namespace = b.Namespace ∧ b'.PodCount = b.PodCount ∧
      b'.CtrCount = b.CtrCount ∧ b'.Rounds = b.Rounds ∧ b'.Verbose = b.Verbose ∧
      b'.pods = b.pods ∧ b'.ctrs = b.ctrs ∧ b'.retries = b.retries := by
  cases b; cases b'
  simp only [OnlyLatencyAndErrors, Batch.mk.injEq, and_true, true_and]

theorem OnlyLatencyAndErrors.unchanged (b : Batch) : OnlyLatencyAndErrors b b :=
  (onlyLatencyAndErrors_iff b b).mpr ⟨rfl, rfl, rfl, rfl, rfl, rfl, rfl, rfl, rfl⟩

theorem OnlyLatencyAndErrors.chain {b1 b2 b3 : Batch} (h1 : OnlyLatencyAndErrors b1 b2)
    (h2 : OnlyLatencyAndErrors b2 b3) : OnlyLatencyAndErrors b1 b3 := by
  obtain ⟨a1, a2, a3, a4, a5, a6, a7, a8, a9⟩ := (onlyLatencyAndErrors_iff _ _).mp h1
  obtain ⟨c1, c2, c3, c4, c5, c6, c7, c8, c9⟩ := (onlyLatencyAndErrors_iff _ _).mp h2
  exact (onlyLatencyAndErrors_iff _ _).mpr ⟨c1.trans a1, c2.trans a2, c3.trans a3, c4.trans a4,
    c5.trans a5, c6.trans a6, c7.trans a7, c8.trans a8, c9.trans a9⟩

theorem list_set_self {α : Type} (l : List α) (i : Nat) (a : α) (h : l[i]? = some a) :
    l.set i a = l := by
  apply List.ext_getElem?
  intro n
  by_cases hn : i = n
  · subst hn
    rw [h]
    have hi : i < l.length := (List.getElem?_eq_some_iff.mp h).1
    simp [hi]
  · simp [List.getElem?_set, hn]

theorem containerStep_frame {σ : Type} (op : Op) (call : String → σ → Status × σ)
    (P C i j : Nat) (e : Exec σ) (hg : Grid P C e.b) (hi : i < P) (hj : j < C) :
    ∃ e', containerStep op call id i j e = .ok e' ∧ Grid P C e'.b ∧
      OnlyLatencyAndErrors e.b e'.b := by
  obtain ⟨row, hrow, hlen⟩ := hg.rows i hi
  have hjr : j < row.length := by omega
  obtain ⟨ctr, hctr⟩ : ∃ ctr, row[j]? = some ctr := ⟨_, List.getElem?_eq_getElem hjr⟩
  have hset : e.b.ctrs.set i (row.set j (id ctr)) = e.b.ctrs := by
    rw [show row.set j (id ctr) = row from list_set_self row j ctr hctr]
    exact list_set_self _ i row hrow
  by_cases hempty : ctr = ""
  · exact ⟨e, by simp only [containerStep, hrow, hctr, hempty, if_true], hg,
      OnlyLatencyAndErrors.unchanged _⟩
  · simp only [containerStep, hrow, hctr, hempty, if_false, hset]
    rcases herr : (call ctr e.rt).1.err with _ | m
    · exact ⟨_, rfl, hg.same rfl rfl rfl rfl,
        (onlyLatencyAndErrors_iff _ _).mpr ⟨rfl, rfl, rfl, rfl, rfl, rfl, rfl, rfl, rfl⟩⟩
    · exact ⟨_, rfl, hg.same rfl rfl rfl rfl,
        (onlyLatencyAndErrors_iff _ _).mpr ⟨rfl, rfl, rfl, rfl, rfl, rfl, rfl, rfl, rfl⟩⟩

theorem containerPhase_frame {σ : Type} (op : Op) (call : String → σ → Status × σ)
    (P C : Nat) (e : Exec σ) (hg : Grid P C e.b) :
    ∃ e', forRange (containerRow op call id) 0 e.b.pods.length e = .ok e' ∧
      OnlyLatencyAndErrors e.b e'.b := by
  have key := forRange_inv (containerRow op call id)
    (fun _ s => Grid P C s.b ∧ OnlyLatencyAndErrors e.b s.b) P
    (by
      rintro i s hi ⟨hgs, hfr⟩
      have hlen : i < s.b.pods.length := by rw [hgs.pods_len]; exact hi
      obtain ⟨pod, hpod⟩ : ∃ pod, s.b.pods[i]? = some pod := ⟨_, List.getElem?_eq_getElem hlen⟩
      by_cases hempty : pod = ""
      · exact ⟨s, by simp only [containerRow, hpod, hempty, if_true], hgs, hfr⟩
      · obtain ⟨row, hrow, hrlen⟩ := hgs.rows i hi
        have inner := forRange_inv (containerStep op call id i)
          (fun _ t => Grid P C t.b ∧ OnlyLatencyAndErrors e.b t.b) C
          (by
            rintro j t hj ⟨hgt, hft⟩
            obtain ⟨t', hb, hg', hf'⟩ := containerStep_frame op call P C i j t hgt hi hj
            exact ⟨t', hb, hg', hft.chain hf'⟩)
          C 0 s (by omega) ⟨hgs, hfr⟩
        obtain ⟨t', hrun, hres⟩ := inner
        exact ⟨t', by simp only [containerRow, hpod, hempty, if_false, hrow, hrlen, hrun],
          hres⟩)
    P 0 e (by omega) ⟨hg, OnlyLatencyAndErrors.unchanged _⟩
  obtain ⟨s', hrun, -, hres⟩ := key
  exact ⟨s', by simp only [hg.pods_len, hrun], hres⟩

theorem podPhase_frame {σ : Type} (op : Op) (call : String → σ → Status × σ) (e : Exec σ) :
    ∃ e', forRange (podStep op call false) 0 e.b.pods.length e = .ok e' ∧
      OnlyLatencyAndErrors e.b e'.b := by
  have key := forRange_inv (podStep op call false)
    (fun _ s => OnlyLatencyAndErrors e.b s.b) e.b.pods.length
    (by
      rintro i s hi hfr
      have hp : s.b.pods = e.b.pods := ((onlyLatencyAndErrors_iff _ _).mp hfr).2.2.2.2.2.2.1
      have hlen : i < s.b.pods.length := by rw [hp]; exact hi
      obtain ⟨pod, hpod⟩ : ∃ pod, s.b.pods[i]? = some pod := ⟨_, List.getElem?_eq_getElem hlen⟩
      by_cases hempty : pod = ""
      · exact ⟨s, by simp only [podStep, hpod, hempty, if_true], hfr⟩
      · simp only [podStep, hpod, hempty, if_false, Bool.false_eq_true]
        rcases herr : (call pod s.rt).1.err with _ | m
        · exact ⟨_, rfl, hfr.chain
            ((onlyLatencyAndErrors_iff _ _).mpr ⟨rfl, rfl, rfl, rfl, rfl, rfl, rfl, rfl, rfl⟩)⟩
        · exact ⟨_, rfl, hfr.chain
            ((onlyLatencyAndErrors_iff _ _).mpr ⟨rfl, rfl, rfl, rfl, rfl, rfl, rfl, rfl, rfl⟩)⟩)
    e.b.pods.length 0 e (by omega) (OnlyLatencyAndErrors.unchanged _)
  obtain ⟨s', hrun, hres⟩ := key
  exact ⟨s', hrun, hres⟩

/-- C14: on well-shaped grids and whatever the runtime answers, `startContainers`,
`stopContainers` and `stopPods` complete and leave the pod sequence and the
container grid as they were (a failed start or stop clears nothing); of the
batch only the latency collection and the error list may differ, the error list
by appended errors and the latency collection in the sequence of the phase's own
kind alone. -/
theorem start_and_stop_leave_slots_unchanged {σ : Type} (rt : Runtime σ) (P C : Nat)
    (e : Exec σ) (hg : Grid P C e.b) :
    (∃ e', Batch.startContainers rt e = .ok e' ∧ e'.b.pods = e.b.pods ∧
      e'.b.ctrs = e.b.ctrs ∧ OnlyLatencyAndErrors e.b e'.b ∧
      (∀ op, op ≠ .StartContainer → e'.b.latency.get op = e.b.latency.get op) ∧
      ∃ errs, e'.b.errors = e.b.errors ++ errs) ∧
    (∃ e', Batch.stopContainers rt e = .ok e' ∧ e'.b.pods = e.b.pods ∧
      e'.b.ctrs = e.b.ctrs ∧ OnlyLatencyAndErrors e.b e'.b ∧
      (∀ op, op ≠ .StopContainer → e'.b.latency.get op = e.b.latency.get op) ∧
      ∃ errs, e'.b.errors = e.b.errors ++ errs) ∧
    (∃ e', Batch.stopPods rt e = .ok e' ∧ e'.b.pods = e.b.pods ∧
      e'.b.ctrs = e.b.ctrs ∧ OnlyLatencyAndErrors e.b e'.b ∧
      (∀ op, op ≠ .StopPodSandbox → e'.b.latency.get op = e.b.latency.get op) ∧
      ∃ errs, e'.b.errors = e.b.errors ++ errs) := by
  have combine : ∀ (K : Op) (r : Except GoPanic (Exec σ)),
      (∃ e', r = .ok e' ∧ OnlyLatencyAndErrors e.b e'.b) →
      (∃ e', r = .ok e' ∧ Accounted K e e' ∧ OnLivePods e e') →
      ∃ e', r = .ok e' ∧ e'.b.pods = e.b.pods ∧ e'.b.ctrs = e.b.ctrs ∧
        OnlyLatencyAndErrors e.b e'.b ∧
        (∀ op, op ≠ K → e'.b.latency.get op = e.b.latency.get op) ∧
        ∃ errs, e'.b.errors = e.b.errors ++ errs := by
    rintro K r ⟨e1, h1, hf⟩ ⟨e2, h2, ⟨_, _, _, _, _, _, hother⟩, ⟨_, errs, _, herrs, _⟩⟩
    have heq : e2 = e1 := Except.ok.inj (h2.symm.trans h1)
    subst heq
    obtain ⟨-, -, -, -, -, -, hp, hc, -⟩ := (onlyLatencyAndErrors_iff _ _).mp hf
    exact ⟨e2, h1, hp, hc, hf, hother, errs, herrs⟩
  refine ⟨?_, ?_, ?_⟩
  · apply combine .StartContainer
    · exact containerPhase_frame .StartContainer rt.StartContainer P C e hg
    · obtain ⟨e', hr, -, ha, ho, -⟩ :=
        containerPhase_effect .StartContainer rt.StartContainer id (by decide) P C e hg
      exact ⟨e', hr, ha, ho⟩
  · apply combine .StopContainer
    · exact containerPhase_frame .StopContainer rt.StopContainer P C e hg
    · obtain ⟨e', hr, -, ha, ho, -⟩ :=
        containerPhase_effect .StopContainer rt.StopContainer id (by decide) P C e hg
      exact ⟨e', hr, ha, ho⟩
  · apply combine .StopPodSandbox
    · exact podPhase_frame .StopPodSandbox rt.StopPod e
    · obtain ⟨e', hr, -, ha, ho, -⟩ :=
        podPhase_effect .StopPodSandbox rt.StopPod false (by decide) P C e hg
      exact ⟨e', hr, ha, ho⟩

theorem exec2_grid : Grid 1 1 exec2.b :=
  ⟨rfl, rfl, rfl, fun i hi => ⟨["c"], by
    have : i = 0 := by omega
    subst this; rfl, rfl⟩⟩

/-- Witness for C14: a live pod with a live container on a runtime in which every
start and stop fails. -/
theorem start_and_stop_leave_slots_unchanged_witness :
    (∃ e', Batch.startContainers stuckRuntime exec2 = .ok e' ∧ e'.b.pods = exec2.b.pods ∧
      e'.b.ctrs = exec2.b.ctrs ∧ OnlyLatencyAndErrors exec2.b e'.b ∧
      (∀ op, op ≠ .StartContainer → e'.b.latency.get op = exec2.b.latency.get op) ∧
      ∃ errs, e'.b.errors = exec2.b.errors ++ errs) ∧
    (∃ e', Batch.stopContainers stuckRuntime exec2 = .ok e' ∧ e'.b.pods = exec2.b.pods ∧
      e'.b.ctrs = exec2.b.ctrs ∧ OnlyLatencyAndErrors exec2.b e'.b ∧
      (∀ op, op ≠ .StopContainer → e'.b.latency.get op = exec2.b.latency.get op) ∧
      ∃ errs, e'.b.errors = exec2.b.errors ++ errs) ∧
    (∃ e', Batch.stopPods stuckRuntime exec2 = .ok e' ∧ e'.b.pods = exec2.b.pods ∧
      e'.b.ctrs = exec2.b.ctrs ∧ OnlyLatencyAndErrors exec2.b e'.b ∧
      (∀ op, op ≠ .StopPodSandbox → e'.b.latency.get op = exec2.b.latency.get op) ∧
      ∃ errs, e'.b.errors = exec2.b.errors ++ errs) :=
  start_and_stop_leave_slots_unchanged stuckRuntime 1 1 exec2 exec2_grid

/-! ## Rounds under any runtime -/

theorem createPodCallsFor_append (i : Nat) (a b : List Call) :
    createPodCallsFor i (a ++ b) = createPodCallsFor i a + createPodCallsFor i b := by
  simp [createPodCallsFor, List.filter_append]

theorem createPodCalls_append (a b : List Call) :
    createPodCalls (a ++ b) = createPodCalls a + createPodCalls b := by
  simp [createPodCalls, List.filter_append]

theorem createPodCallsFor_zero {i : Nat} {l : List Call}
    (h : ∀ c ∈ l, ¬ (c.op = .RunPodSandbox ∧ c.pod = i)) : createPodCallsFor i l = 0 := by
  unfold createPodCallsFor
  rw [List.length_eq_zero, List.filter_eq_nil_iff]
  intro c hc
  simpa using h c hc

theorem createPodCalls_zero {l : List Call} (h : ∀ c ∈ l, c.op ≠ .RunPodSandbox) :
    createPodCalls l = 0 := by
  unfold createPodCalls
  rw [List.length_eq_zero, List.filter_eq_nil_iff]
  intro c hc
  simpa using h c hc

theorem createPodCalls_attempt (i k : Nat) :
    createPodCalls (attemptCalls i k) = (attemptCalls i k).length ∧
    createPodCallsFor i (attemptCalls i k) = (attemptCalls i k).length := by
  unfold createPodCalls createPodCallsFor
  constructor
  · rw [List.filter_eq_self.mpr]
    intro c hc
    simpa using (attemptCalls_mem hc).1
  · rw [List.filter_eq_self.mpr]
    intro c hc
    simpa using ⟨(attemptCalls_mem hc).1, (attemptCalls_mem hc).2.1⟩

theorem createPods_calls {σ : Type} (rt : Runtime σ) (P C : Nat) (e : Exec σ)
    (hg : Grid P C e.b) :
    ∃ (e' : Exec σ) (calls : List Call), Batch.createPods rt e = .ok e' ∧
      e'.trace = e.trace ++ calls ∧
      P ≤ createPodCalls calls ∧ createPodCalls calls ≤ 3 * P ∧
      ∀ i, i < P → 1 ≤ createPodCallsFor i calls ∧ createPodCallsFor i calls ≤ 3 := by
  have key := forRange_inv (createPodsBody rt)
    (fun k s => Grid P C s.2.b ∧ ∃ calls : List Call, s.2.trace = e.trace ++ calls ∧
      (∀ c ∈ calls, c.pod < k) ∧
      k ≤ createPodCalls calls ∧ createPodCalls calls ≤ 3 * k ∧
      ∀ i, i < k → 1 ≤ createPodCallsFor i calls ∧ createPodCallsFor i calls ≤ 3) P
    (by
      rintro k ⟨v, s⟩ hk ⟨hgs, calls, ht, hcp, hlo, hhi, hidx⟩
      dsimp only at hgs ht
      have hlen : k < s.b.pods.length := by rw [hgs.pods_len]; exact hk
      obtain ⟨kk, samples, errsk, s', v', hkk, hrun, -, -, -, -⟩ :=
        createPodsBody_spec rt k v s hlen
      obtain ⟨hal1, hal3⟩ := attemptCalls_length k kk hkk
      have hal3' : (attemptCalls k kk).length ≤ 3 := hal3
      obtain ⟨hall, hfor⟩ := createPodCalls_attempt k kk
      refine ⟨_, hrun, hgs.same rfl rfl (by simp) rfl, calls ++ attemptCalls k kk, ?_, ?_, ?_,
        ?_, ?_⟩
      · show s.trace ++ attemptCalls k kk = e.trace ++ (calls ++ attemptCalls k kk)
        rw [ht, List.append_assoc]
      · intro c hc
        rcases List.mem_append.mp hc with h | h
        · exact Nat.lt_succ_of_lt (hcp c h)
        · rw [(attemptCalls_mem h).2.1]; exact Nat.lt_succ_self k
      · rw [createPodCalls_append, hall]; omega
      · rw [createPodCalls_append, hall]; omega
      · intro i hi
        rw [createPodCallsFor_append]
        by_cases hik : i = k
        · subst hik
          have h0 : createPodCallsFor i calls = 0 :=
            createPodCallsFor_zero (fun c hc h => by have := hcp c hc; omega)
          rw [h0, hfor]; omega
        · have h0 : createPodCallsFor i (attemptCalls k kk) = 0 :=
            createPodCallsFor_zero (fun c hc h => by
              have := (attemptCalls_mem hc).2.1
              omega)
          have := hidx i (by omega)
          rw [h0]; omega)
    P 0 ({}, e) (by omega)
    ⟨hg, [], by simp, by simp, by simp [createPodCalls], by simp [createPodCalls],
      fun i hi => absurd hi (Nat.not_lt_zero i)⟩
  obtain ⟨s', hrun, -, calls, ht, -, hlo, hhi, hidx⟩ := key
  refine ⟨s'.2, calls, ?_, ht, by simpa using hlo, by simpa using hhi,
    fun i hi => hidx i (by simpa using hi)⟩
  simp only [Batch.createPods, hg.podCount, hrun]

theorem Grows.of_onLivePods {σ : Type} {e e' : Exec σ} (h : OnLivePods e e') : Grows e e' := by
  obtain ⟨calls, errs, ht, he, -⟩ := h
  exact ⟨⟨calls, ht⟩, ⟨errs, he⟩⟩

theorem round_ordered {σ : Type} (rt : Runtime σ) (P C : Nat) (e : Exec σ) (hg : Grid P C e.b) :
    ∃ e1 e2 e3 e4 e5 e6 e7 : Exec σ,
      (Batch.createPods rt e = .ok e1 ∧ Grows e e1) ∧
      (Batch.createContainers rt e1 = .ok e2 ∧ Grows e1 e2) ∧
      (Batch.startContainers rt e2 = .ok e3 ∧ Grows e2 e3) ∧
      (Batch.stopContainers rt e3 = .ok e4 ∧ Grows e3 e4) ∧
      (Batch.removeContainers rt e4 = .ok e5 ∧ Grows e4 e5) ∧
      (Batch.stopPods rt e5 = .ok e6 ∧ Grows e5 e6) ∧
      (Batch.removePods rt e6 = .ok e7 ∧ Grows e6 e7) ∧
      Batch.round rt e = .ok e7 := by
  obtain ⟨e1, calls1, errs1, r1, g1, -, ht1, he1, -⟩ := createPods_effect rt P C e hg
  obtain ⟨e2, r2, g2, -, o2, -⟩ := createContainers_effect rt P C e1 g1
  obtain ⟨e3, r3, g3, -, o3, -⟩ :=
    containerPhase_effect .StartContainer rt.StartContainer id (by decide) P C e2 g2
  obtain ⟨e4, r4, g4, -, o4, -⟩ :=
    containerPhase_effect .StopContainer rt.StopContainer id (by decide) P C e3 g3
  obtain ⟨e5, r5, g5, -, o5, -⟩ :=
    containerPhase_effect .RemoveContainer rt.RemoveContainer (fun _ => "") (by decide) P C e4 g4
  obtain ⟨e6, r6, g6, -, o6, -⟩ :=
    podPhase_effect .StopPodSandbox rt.StopPod false (by decide) P C e5 g5
  obtain ⟨e7, r7, g7, -, o7, -⟩ :=
    podPhase_effect .RemovePodSandbox rt.RemovePod true (by decide) P C e6 g6
  refine ⟨e1, e2, e3, e4, e5, e6, e7, ⟨r1, ⟨calls1, ht1⟩, ⟨errs1, he1⟩⟩,
    ⟨r2, Grows.of_onLivePods o2⟩, ⟨r3, Grows.of_onLivePods o3⟩, ⟨r4, Grows.of_onLivePods o4⟩,
    ⟨r5, Grows.of_onLivePods o5⟩, ⟨r6, Grows.of_onLivePods o6⟩, ⟨r7, Grows.of_onLivePods o7⟩, ?_⟩
  simp only [Batch.round, Batch.afterCreatePods, Batch.startContainers, Batch.stopContainers,
    Batch.removeContainers, Batch.stopPods, Batch.removePods, bind, Except.bind,
    r1, r2, r3, r4, r5, r6, r7]

theorem round_calls {σ : Type} (rt : Runtime σ) (P C : Nat) (e : Exec σ) (hg : Grid P C e.b) :
    ∃ (e' : Exec σ) (calls : List Call) (errs : List BatchError),
      Batch.round rt e = .ok e' ∧ Grid P C e'.b ∧
      e'.trace = e.trace ++ calls ∧ e'.b.errors = e.b.errors ++ errs ∧
      P ≤ createPodCalls calls ∧ createPodCalls calls ≤ 3 * P ∧
      ∀ i, i < P → 1 ≤ createPodCallsFor i calls ∧ createPodCallsFor i calls ≤ 3 := by
  obtain ⟨e1, calls1, r1, ht1, hlo, hhi, hidx⟩ := createPods_calls rt P C e hg
  obtain ⟨e1', -, errs1, r1', g1, -, -, he1, -⟩ := createPods_effect rt P C e hg
  have heq : e1' = e1 := Except.ok.inj (r1'.symm.trans r1)
  subst heq
  obtain ⟨e2, r2, g2, calls2, errs2, ht2, he2, hc2, -, -⟩ := afterCreatePods_effect rt P C e1' g1
  have hno : ∀ c ∈ calls2, c.op ≠ .RunPodSandbox := by
    intro c hc
    rcases hc2 c hc with h | ⟨h, -⟩
    · rw [h]; decide
    · exact h
  have h0 : createPodCalls calls2 = 0 := createPodCalls_zero hno
  have h0' : ∀ i, createPodCallsFor i calls2 = 0 := fun i =>
    createPodCallsFor_zero (fun c hc h => hno c hc h.1)
  refine ⟨e2, calls1 ++ calls2, errs1 ++ errs2, ?_, g2, by rw [ht2, ht1, List.append_assoc],
    by rw [he2, he1, List.append_assoc], ?_, ?_, ?_⟩
  · simp only [Batch.round, bind, Except.bind, r1, r2]
  · rw [createPodCalls_append, h0]; omega
  · rw [createPodCalls_append, h0]; omega
  · intro i hi
    rw [createPodCallsFor_append, h0' i]
    have := hidx i hi
    omega

theorem rounds_calls {σ : Type} (rt : Runtime σ) (P C : Nat) (e : Exec σ) (hg : Grid P C e.b)
    (r : Nat) :
    ∃ (e' : Exec σ) (calls : List Call) (errs : List BatchError),
      forRange (fun _ s => Batch.round rt s) 0 r e = .ok e' ∧ Grid P C e'.b ∧
      e'.trace = e.trace ++ calls ∧ e'.b.errors = e.b.errors ++ errs ∧
      P * r ≤ createPodCalls calls ∧ createPodCalls calls ≤ 3 * P * r ∧
      ∀ i, i < P → r ≤ createPodCallsFor i calls ∧ createPodCallsFor i calls ≤ 3 * r := by
  have key := forRange_inv (fun _ s => Batch.round rt s)
    (fun k s => Grid P C s.b ∧ ∃ (calls : List Call) (errs : List BatchError),
      s.trace = e.trace ++ calls ∧ s.b.errors = e.b.errors ++ errs ∧
      P * k ≤ createPodCalls calls ∧ createPodCalls calls ≤ 3 * P * k ∧
      ∀ i, i < P → k ≤ createPodCallsFor i calls ∧ createPodCallsFor i calls ≤ 3 * k) r
    (by
      rintro k s - ⟨hgs, calls, errs, ht, he, hlo, hhi, hidx⟩
      obtain ⟨s', calls', errs', hr, hg', ht', he', hlo', hhi', hidx'⟩ :=
        round_calls rt P C s hgs
      refine ⟨s', hr, hg', calls ++ calls', errs ++ errs', by rw [ht', ht, List.append_assoc],
        by rw [he', he, List.append_assoc], ?_, ?_, ?_⟩
      · rw [createPodCalls_append]; nlinarith
      · rw [createPodCalls_append]; nlinarith
      · intro i hi
        rw [createPodCallsFor_append]
        have := hidx i hi
        have := hidx' i hi
        omega)
    r 0 e (by omega)
    ⟨hg, [], [], by simp, by simp, by simp [createPodCalls], by simp [createPodCalls],
      fun i _ => by simp [createPodCallsFor]⟩
  obtain ⟨s', hrun, hg', calls, errs, ht, he, hlo, hhi, hidx⟩ := key
  exact ⟨s', calls, errs, hrun, hg', ht, he, by simpa using hlo, by simpa using hhi,
    fun i hi => by simpa using hidx i hi⟩

theorem prepare_fresh {σ : Type} (e : Exec σ) (hP : 1 ≤ e.b.PodCount) (hC : 1 ≤ e.b.CtrCount)
    (hR : 1 ≤ e.b.Rounds) (hfresh : e.b.ctrs = []) :
    ∃ e0, Batch.prepare e = .ok e0 ∧ Grid e.b.PodCount.toNat e.b.CtrCount.toNat e0.b ∧
      e0.trace = e.trace ∧ e0.b.errors = [] ∧ e0.b.Rounds = e.b.Rounds := by
  obtain ⟨cP, cC, cR, cctrs, -, cerr⟩ :=
    configure_nonzero e.b (by omega) (by omega) (by omega)
  obtain ⟨b1, halloc, bP, bC, bR, bpods, bctrs, berr⟩ :
      ∃ b1, Batch.allocate (Batch.configure e.b) = .ok b1 ∧ b1.PodCount = e.b.PodCount ∧
        b1.CtrCount = e.b.CtrCount ∧ b1.Rounds = e.b.Rounds ∧
        b1.pods = List.replicate e.b.PodCount.toNat "" ∧
        b1.ctrs = List.replicate (e.b.PodCount.toNat * e.b.CtrCount.toNat)
          (List.replicate e.b.CtrCount.toNat "") ∧ b1.errors = [] :=
    ⟨_, allocate_any (Batch.configure e.b) (by rw [cP]; omega), cP, cC, cR,
      by simp only [cP], by simp only [cP, cC, cctrs, hfresh, List.nil_append], cerr⟩
  refine ⟨{ e with b := b1 }, by simp only [Batch.prepare, halloc], ?_, rfl, berr, bR⟩
  refine ⟨bP ▸ rfl, bC ▸ rfl, by simp [bpods], fun i hi =>
    ⟨List.replicate e.b.CtrCount.toNat "", ?_, by simp⟩⟩
  have hCpos : 1 ≤ e.b.CtrCount.toNat := by omega
  have : i < e.b.PodCount.toNat * e.b.CtrCount.toNat :=
    lt_of_lt_of_le hi (Nat.le_mul_of_pos_right _ hCpos)
  simp [bctrs, List.getElem?_replicate, this]

/-- Counterexample for C15: a batch with `P = 1`, `C = 1`, `R = 1` is run to the
end on a runtime that never fails, which leaves its one row of container slots in
`b.ctrs`; its container count is then raised to 2 and `Run` is called again. The
allocation appends two rows of two slots after the row that is still there, and
in the first round `createContainers` indexes `b.ctrs[0][1]` in the old row of
length 1: the round is aborted by a panic in its second phase, although no call
of the runtime failed. -/
theorem Run_again_aborts_first_round :
    (Batch.Run okRuntime exec0).toOption.map
        (fun e => (e.b.PodCount, e.b.CtrCount, e.b.Rounds, e.b.ctrs)) = some (1, 1, 2, [[""]]) ∧
    (match Batch.Run okRuntime exec0 with
      | .ok e1 => (Batch.Run okRuntime { e1 with b.CtrCount := 2 }).toOption.map (fun _ => ())
      | .error _ => some ()) = none ∧
    (match Batch.Run okRuntime
        { b := { BatchName := "batch0", PodCount := 1, CtrCount := 2, Rounds := 1, ctrs := [[""]] },
          rt := () } with
      | .ok _ => none
      | .error p => some p) = some (GoPanic.indexOutOfRange 1 1) := by
  refine ⟨by decide, by decide, by decide⟩

/-- C15 (amended): for a batch with `P, C, R ≥ 1` on which `Run` is called for the
first time, and whatever the runtime answers, `Run` runs exactly `R` rounds: there
are states `st 0, ..., st R` such that the set-up completes in `st 0`, every round
`k < R` takes `st k` to `st (k+1)` by the seven phases in the order create pods,
create containers, start, stop and remove containers, stop pods, remove pods, each
phase completing and only appending to the call trace and the error list, the
round making between 1 and 3 `CreatePod` calls for each of the `P` pod indices
(between `P` and `3*P` in all), and the goroutine, and so `Run`, ends in `st R`,
having made between `P*R` and `3*P*R` `CreatePod` calls. -/
theorem failures_never_abort {σ : Type} (rt : Runtime σ) (e : Exec σ)
    (hP : 1 ≤ e.b.PodCount) (hC : 1 ≤ e.b.CtrCount) (hR : 1 ≤ e.b.Rounds)
    (hfresh : e.b.ctrs = []) :
    ∃ st : Nat → Exec σ,
      Batch.prepare e = .ok (st 0) ∧ (st 0).trace = e.trace ∧ (st 0).b.errors = [] ∧
      (∀ k, k < e.b.Rounds.toNat →
        (∃ e1 e2 e3 e4 e5 e6 : Exec σ,
          (Batch.createPods rt (st k) = .ok e1 ∧ Grows (st k) e1) ∧
          (Batch.createContainers rt e1 = .ok e2 ∧ Grows e1 e2) ∧
          (Batch.startContainers rt e2 = .ok e3 ∧ Grows e2 e3) ∧
          (Batch.stopContainers rt e3 = .ok e4 ∧ Grows e3 e4) ∧
          (Batch.removeContainers rt e4 = .ok e5 ∧ Grows e4 e5) ∧
          (Batch.stopPods rt e5 = .ok e6 ∧ Grows e5 e6) ∧
          (Batch.removePods rt e6 = .ok (st (k + 1)) ∧ Grows e6 (st (k + 1)))) ∧
        Batch.round rt (st k) = .ok (st (k + 1)) ∧
        ∃ (calls : List Call) (errs : List BatchError),
          (st (k + 1)).trace = (st k).trace ++ calls ∧
          (st (k + 1)).b.errors = (st k).b.errors ++ errs ∧
          e.b.PodCount.toNat ≤ createPodCalls calls ∧
          createPodCalls calls ≤ 3 * e.b.PodCount.toNat ∧
          ∀ i, i < e.b.PodCount.toNat →
            1 ≤ createPodCallsFor i calls ∧ createPodCallsFor i calls ≤ 3) ∧
      Batch.rounds rt (st 0) = .ok (st e.b.Rounds.toNat) ∧
      Batch.Run rt e = .ok (st e.b.Rounds.toNat) ∧
      ∃ (calls : List Call) (errs : List BatchError),
        (st e.b.Rounds.toNat).trace = e.trace ++ calls ∧
        (st e.b.Rounds.toNat).b.errors = errs ∧
        e.b.PodCount * e.b.Rounds ≤ (createPodCalls calls : Int) ∧
        (createPodCalls calls : Int) ≤ 3 * e.b.PodCount * e.b.Rounds := by
  obtain ⟨e0, hprep, hg, ht0, herr0, hR0⟩ := prepare_fresh e hP hC hR hfresh
  obtain ⟨st, st0, hstep, hinv, hrun⟩ := forRange_chain (fun _ s => Batch.round rt s)
    (fun s => Grid e.b.PodCount.toNat e.b.CtrCount.toNat s.b)
    (fun _ s hs => by
      obtain ⟨s', _, _, hr, hg', _⟩ := round_calls rt _ _ s hs
      exact ⟨s', hr, hg'⟩)
    e.b.Rounds.toNat 0 e0 hg
  subst st0
  have hrounds : Batch.rounds rt (st 0) = .ok (st e.b.Rounds.toNat) := by
    simp only [Batch.rounds, hR0, hrun]
  refine ⟨st, hprep, ht0, herr0, ?_, hrounds, ?_, ?_⟩
  · intro k hk
    have hround : Batch.round rt (st k) = .ok (st (k + 1)) := hstep k hk
    have hgk := hinv k (Nat.le_of_lt hk)
    obtain ⟨e1, e2, e3, e4, e5, e6, e7, p1, p2, p3, p4, p5, p6, p7, r7⟩ :=
      round_ordered rt _ _ (st k) hgk
    have h7 : e7 = st (k + 1) := Except.ok.inj (r7.symm.trans hround)
    subst h7
    obtain ⟨s', calls, errs, hr, -, ht, he, hlo, hhi, hidx⟩ := round_calls rt _ _ (st k) hgk
    have hs' : s' = st (k + 1) := Except.ok.inj (hr.symm.trans hround)
    subst hs'
    exact ⟨⟨e1, e2, e3, e4, e5, e6, p1, p2, p3, p4, p5, p6, p7⟩, hround, calls, errs, ht, he,
      hlo, hhi, hidx⟩
  · simp only [Batch.Run, hprep, bind, Except.bind, hrounds]
  · obtain ⟨er, calls, errs, hrun', -, ht, he, hlo, hhi, -⟩ :=
      rounds_calls rt _ _ (st 0) hg e.b.Rounds.toNat
    have her : er = st e.b.Rounds.toNat := Except.ok.inj (hrun'.symm.trans hrun)
    subst her
    have hPi : (e.b.PodCount.toNat : Int) = e.b.PodCount := Int.toNat_of_nonneg (by omega)
    have hRi : (e.b.Rounds.toNat : Int) = e.b.Rounds := Int.toNat_of_nonneg (by omega)
    refine ⟨calls, errs, by rw [ht, ht0], by rw [he, herr0, List.nil_append], ?_, ?_⟩
    · have : ((e.b.PodCount.toNat * e.b.Rounds.toNat : Nat) : Int) ≤ (createPodCalls calls : Nat) :=
        Int.ofNat_le.mpr hlo
      rw [← hPi, ← hRi]
      exact_mod_cast this
    · have : ((createPodCalls calls : Nat) : Int)
          ≤ ((3 * e.b.PodCount.toNat * e.b.Rounds.toNat : Nat) : Int) := Int.ofNat_le.mpr hhi
      rw [← hPi, ← hRi]
      exact_mod_cast this

/-- Witness for C15 (amended): `batch0`, run for the first time for its two rounds
on the runtime in which every call fails: `Run` completes, every round having
made its three `CreatePod` attempts for pod index 0, six in all, and one error
for each failed phase. -/
theorem failures_never_abort_witness :
    (1 ≤ exec0.b.PodCount ∧ 1 ≤ exec0.b.CtrCount ∧ 1 ≤ exec0.b.Rounds ∧ exec0.b.ctrs = []) ∧
    (∃ st : Nat → Exec Unit,
      Batch.prepare exec0 = .ok (st 0) ∧
      Batch.round failingRuntime (st 0) = .ok (st 1) ∧
      Batch.round failingRuntime (st 1) = .ok (st 2) ∧
      Batch.Run failingRuntime exec0 = .ok (st 2)) ∧
    (Batch.Run failingRuntime exec0).toOption.map
        (fun e => (createPodCalls e.trace, e.b.errors.length)) = some (6, 4) := by
  obtain ⟨st, h0, -, -, hstep, -, hrun, -⟩ :=
    failures_never_abort failingRuntime exec0 (by decide) (by decide) (by decide) rfl
  exact ⟨⟨by decide, by decide, by decide, rfl⟩,
    ⟨st, h0, (hstep 0 (by decide)).2.1, (hstep 1 (by decide)).2.1, hrun⟩, by decide⟩

/-! ## Index safety -/

theorem containerStep_ok {σ : Type} (op : Op) (call : String → σ → Status × σ)
    (slot : String → String) (P C i j : Nat) (e : Exec σ) (hg : Grid P C e.b) (hi : i < P)
    (hj : j < C) :
    ∃ e', containerStep op call slot i j e = .ok e' ∧ Grid P C e'.b := by
  obtain ⟨row, hrow, hlen⟩ := hg.rows i hi
  have hjr : j < row.length := by omega
  obtain ⟨ctr, hctr⟩ : ∃ ctr, row[j]? = some ctr := ⟨_, List.getElem?_eq_getElem hjr⟩
  by_cases hempty : ctr = ""
  · exact ⟨e, by simp only [containerStep, hrow, hctr, hempty, if_true], hg⟩
  · simp only [containerStep, hrow, hctr, hempty, if_false]
    rcases herr : (call ctr e.rt).1.err with _ | m
    · exact ⟨_, rfl, hg.set_ctr i j row _ hrow rfl rfl rfl rfl⟩
    · exact ⟨_, rfl, hg.set_ctr i j row _ hrow rfl rfl rfl rfl⟩

theorem containerRow_ok {σ : Type} (op : Op) (call : String → σ → Status × σ)
    (slot : String → String) (P C i : Nat) (e : Exec σ) (hg : Grid P C e.b) (hi : i < P) :
    ∃ e', containerRow op call slot i e = .ok e' ∧ Grid P C e'.b := by
  have hlen : i < e.b.pods.length := by rw [hg.pods_len]; exact hi
  obtain ⟨pod, hpod⟩ : ∃ pod, e.b.pods[i]? = some pod := ⟨_, List.getElem?_eq_getElem hlen⟩
  by_cases hempty : pod = ""
  · exact ⟨e, by simp only [containerRow, hpod, hempty, if_true], hg⟩
  · obtain ⟨row, hrow, hrlen⟩ := hg.rows i hi
    have inner := forRange_inv (containerStep op call slot i) (fun _ t => Grid P C t.b) C
      (fun j t hj hgt => containerStep_ok op call slot P C i j t hgt hi hj)
      C 0 e (by omega) hg
    obtain ⟨t', hrun, hg'⟩ := inner
    exact ⟨t', by simp only [containerRow, hpod, hempty, if_false, hrow, hrlen, hrun], hg'⟩

theorem createContainersPod_ok {σ : Type} (rt : Runtime σ) (P C i : Nat) (e : Exec σ)
    (hg : Grid P C e.b) (hi : i < P) :
    ∃ e', createContainersPod rt i e = .ok e' ∧ Grid P C e'.b := by
  have hlen : i < e.b.pods.length := by rw [hg.pods_len]; exact hi
  obtain ⟨pod, hpod⟩ : ∃ pod, e.b.pods[i]? = some pod := ⟨_, List.getElem?_eq_getElem hlen⟩
  have inner := forRange_inv (createContainersBody rt i pod) (fun _ t => Grid P C t.b) C
    (fun j t hj hgt => by
      obtain ⟨t', hb, hg', -⟩ := createContainersBody_effect rt P C i j pod t hgt hi hj
      exact ⟨t', hb, hg'⟩)
    C 0 e (by omega) hg
  obtain ⟨t', hrun, hg'⟩ := inner
  exact ⟨t', by simp only [createContainersPod, hpod, hg.ctrCount, hrun], hg'⟩

theorem createPodsBody_ok {σ : Type} (rt : Runtime σ) (P C i : Nat) (v : PodVars) (e : Exec σ)
    (hg : Grid P C e.b) (hi : i < P) :
    ∃ s', createPodsBody rt i (v, e) = .ok s' ∧ Grid P C s'.2.b := by
  have hlen : i < e.b.pods.length := by rw [hg.pods_len]; exact hi
  obtain ⟨kk, samples, errsk, s', v', -, hrun, -⟩ := createPodsBody_spec rt i v e hlen
  exact ⟨_, hrun, hg.same rfl rfl (by simp) rfl⟩

theorem podStep_ok {σ : Type} (op : Op) (call : String → σ → Status × σ) (clear : Bool)
    (P C i : Nat) (e : Exec σ) (hg : Grid P C e.b) (hi : i < P) :
    ∃ e', podStep op call clear i e = .ok e' ∧ Grid P C e'.b := by
  have hlen : i < e.b.pods.length := by rw [hg.pods_len]; exact hi
  obtain ⟨pod, hpod⟩ : ∃ pod, e.b.pods[i]? = some pod := ⟨_, List.getElem?_eq_getElem hlen⟩
  by_cases hempty : pod = ""
  · exact ⟨e, by simp only [podStep, hpod, hempty, if_true], hg⟩
  · have hplen : (if clear then e.b.pods.set i "" else e.b.pods).length = e.b.pods.length := by
      cases clear <;> simp
    simp only [podStep, hpod, hempty, if_false]
    rcases herr : (call pod e.rt).1.err with _ | m
    · exact ⟨_, rfl, hg.same rfl rfl hplen rfl⟩
    · exact ⟨_, rfl, hg.same rfl rfl hplen rfl⟩

theorem Grid.in_bounds {P C : Nat} {b : Batch} (hg : Grid P C b) :
    (∀ (i : Nat), i < P → ∃ p, b.pods[i]? = some p) ∧
    (∀ (i : Nat), i < P → ∃ row, b.ctrs[i]? = some row ∧ row.length = C) ∧
    (∀ (i j : Nat), i < P → j < C → ∃ c, b.ctr i j = some c) := by
  refine ⟨fun i hi => ⟨_, List.getElem?_eq_getElem (by rw [hg.pods_len]; exact hi)⟩, hg.rows,
    fun i j hi hj => ?_⟩
  obtain ⟨row, hrow, hlen⟩ := hg.rows i hi
  exact ⟨_, by rw [ctr_of_row hrow]; exact List.getElem?_eq_getElem (by omega)⟩

/-- C21: for a batch with `P, C, R ≥ 1` whose grids are allocated by a first call
to `Run`, and whatever the runtime answers: the allocation leaves well-shaped
grids; in every well-shaped state the slots `pods[i]` for `i < P`, the rows
`ctrs[i]` for `i < P` (each of `C` slots) and the slots `ctrs[i][j]` for `i < P`
and `j < C` exist, every loop body of the seven phases returns without a panic
and leaves the grids well-shaped, and so does each phase and the round; hence
after any number `r ≤ R` of rounds the state is well-shaped, `Run` returns a
state, and no run ends in an index-out-of-range panic. -/
theorem pipeline_index_safe {σ : Type} (rt : Runtime σ) (e : Exec σ)
    (hP : 1 ≤ e.b.PodCount) (hC : 1 ≤ e.b.CtrCount) (hR : 1 ≤ e.b.Rounds)
    (hfresh : e.b.ctrs = []) :
    ∃ e0, Batch.prepare e = .ok e0 ∧ Grid e.b.PodCount.toNat e.b.CtrCount.toNat e0.b ∧
      (∀ s : Exec σ, Grid e.b.PodCount.toNat e.b.CtrCount.toNat s.b →
        ((∀ (i : Nat), i < e.b.PodCount.toNat → ∃ p, s.b.pods[i]? = some p) ∧
          (∀ (i : Nat), i < e.b.PodCount.toNat →
            ∃ row, s.b.ctrs[i]? = some row ∧ row.length = e.b.CtrCount.toNat) ∧
          (∀ (i j : Nat), i < e.b.PodCount.toNat → j < e.b.CtrCount.toNat →
            ∃ c, s.b.ctr i j = some c)) ∧
        (∀ i v, i < e.b.PodCount.toNat → ∃ s', createPodsBody rt i (v, s) = .ok s' ∧
          Grid e.b.PodCount.toNat e.b.CtrCount.toNat s'.2.b) ∧
        (∀ i j pod, i < e.b.PodCount.toNat → j < e.b.CtrCount.toNat →
          ∃ s', createContainersBody rt i pod j s = .ok s' ∧
            Grid e.b.PodCount.toNat e.b.CtrCount.toNat s'.b) ∧
        (∀ i j, i < e.b.PodCount.toNat → j < e.b.CtrCount.toNat →
          (∃ s', containerStep .StartContainer rt.StartContainer id i j s = .ok s' ∧
            Grid e.b.PodCount.toNat e.b.CtrCount.toNat s'.b) ∧
          (∃ s', containerStep .StopContainer rt.StopContainer id i j s = .ok s' ∧
            Grid e.b.PodCount.toNat e.b.CtrCount.toNat s'.b) ∧
          (∃ s', containerStep .RemoveContainer rt.RemoveContainer (fun _ => "") i j s = .ok s' ∧
            Grid e.b.PodCount.toNat e.b.CtrCount.toNat s'.b)) ∧
        (∀ i, i < e.b.PodCount.toNat →
          (∃ s', createContainersPod rt i s = .ok s' ∧
            Grid e.b.PodCount.toNat e.b.CtrCount.toNat s'.b) ∧
          (∃ s', containerRow .StartContainer rt.StartContainer id i s = .ok s' ∧
            Grid e.b.PodCount.toNat e.b.CtrCount.toNat s'.b) ∧
          (∃ s', containerRow .StopContainer rt.StopContainer id i s = .ok s' ∧
            Grid e.b.PodCount.toNat e.b.CtrCount.toNat s'.b) ∧
          (∃ s', containerRow .RemoveContainer rt.RemoveContainer (fun _ => "") i s = .ok s' ∧
            Grid e.b.PodCount.toNat e.b.CtrCount.toNat s'.b) ∧
          (∃ s', podStep .StopPodSandbox rt.StopPod false i s = .ok s' ∧
            Grid e.b.PodCount.toNat e.b.CtrCount.toNat s'.b) ∧
          (∃ s', podStep .RemovePodSandbox rt.RemovePod true i s = .ok s' ∧
            Grid e.b.PodCount.toNat e.b.CtrCount.toNat s'.b)) ∧
        (∃ e1 e2 e3 e4 e5 e6 e7 : Exec σ,
          (Batch.createPods rt s = .ok e1 ∧ Grid e.b.PodCount.toNat e.b.CtrCount.toNat e1.b) ∧
          (Batch.createContainers rt e1 = .ok e2 ∧
            Grid e.b.PodCount.toNat e.b.CtrCount.toNat e2.b) ∧
          (Batch.startContainers rt e2 = .ok e3 ∧
            Grid e.b.PodCount.toNat e.b.CtrCount.toNat e3.b) ∧
          (Batch.stopContainers rt e3 = .ok e4 ∧
            Grid e.b.PodCount.toNat e.b.CtrCount.toNat e4.b) ∧
          (Batch.removeContainers rt e4 = .ok e5 ∧
            Grid e.b.PodCount.toNat e.b.CtrCount.toNat e5.b) ∧
          (Batch.stopPods rt e5 = .ok e6 ∧ Grid e.b.PodCount.toNat e.b.CtrCount.toNat e6.b) ∧
          (Batch.removePods rt e6 = .ok e7 ∧ Grid e.b.PodCount.toNat e.b.CtrCount.toNat e7.b) ∧
          Batch.round rt s = .ok e7)) ∧
      (∀ r, r ≤ e.b.Rounds.toNat →
        ∃ er, forRange (fun _ s => Batch.round rt s) 0 r e0 = .ok er ∧
          Grid e.b.PodCount.toNat e.b.CtrCount.toNat er.b) ∧
      (∃ e', Batch.Run rt e = .ok e' ∧ Grid e.b.PodCount.toNat e.b.CtrCount.toNat e'.b) ∧
      ∀ index len, Batch.Run rt e ≠ .error (.indexOutOfRange index len) := by
  obtain ⟨e0, hprep, hg, -, -, hR0⟩ := prepare_fresh e hP hC hR hfresh
  have hrun : ∃ e', Batch.Run rt e = .ok e' ∧
      Grid e.b.PodCount.toNat e.b.CtrCount.toNat e'.b := by
    obtain ⟨er, -, -, hr, hg', -⟩ := rounds_calls rt _ _ e0 hg e.b.Rounds.toNat
    exact ⟨er, by simp only [Batch.Run, hprep, bind, Except.bind, Batch.rounds, hR0, hr], hg'⟩
  refine ⟨e0, hprep, hg, ?_, ?_, hrun, ?_⟩
  · intro s hs
    refine ⟨hs.in_bounds, fun i v hi => createPodsBody_ok rt _ _ i v s hs hi, ?_, ?_, ?_,
      round_phases rt _ _ s hs⟩
    · intro i j pod hi hj
      obtain ⟨s', hb, hg', -⟩ := createContainersBody_effect rt _ _ i j pod s hs hi hj
      exact ⟨s', hb, hg'⟩
    · intro i j hi hj
      exact ⟨containerStep_ok _ _ _ _ _ i j s hs hi hj, containerStep_ok _ _ _ _ _ i j s hs hi hj,
        containerStep_ok _ _ _ _ _ i j s hs hi hj⟩
    · intro i hi
      exact ⟨createContainersPod_ok rt _ _ i s hs hi, containerRow_ok _ _ _ _ _ i s hs hi,
        containerRow_ok _ _ _ _ _ i s hs hi, containerRow_ok _ _ _ _ _ i s hs hi,
        podStep_ok _ _ _ _ _ i s hs hi, podStep_ok _ _ _ _ _ i s hs hi⟩
  · intro r _
    obtain ⟨er, -, -, hr, hg', -⟩ := rounds_calls rt _ _ e0 hg r
    exact ⟨er, hr, hg'⟩
  · intro index len h
    obtain ⟨e', he', -⟩ := hrun
    rw [he'] at h
    cases h

/-- Witness for C21: 2 pods of 3 containers, 2 rounds, on the runtime in which
creations succeed and every other call fails. -/
theorem pipeline_index_safe_witness :
    (∃ e', Batch.Run stuckRuntime { exec0 with b.PodCount := 2, b.CtrCount := 3 } = .ok e' ∧
      Grid 2 3 e'.b) ∧
    ∀ index len, Batch.Run stuckRuntime { exec0 with b.PodCount := 2, b.CtrCount := 3 }
      ≠ .error (.indexOutOfRange index len) := by
  obtain ⟨_, _, _, _, _, h1, h2⟩ :=
    pipeline_index_safe stuckRuntime { exec0 with b.PodCount := 2, b.CtrCount := 3 }
      (by decide) (by decide) (by decide) rfl
  exact ⟨h1, h2⟩

end CriLoadgen
